import Mathlib

/-! VkDoom lightmap baking and light-probe orchestration.

A shallow embedding of `VkLightmapper` (vk_lightmapper.cpp) and `VkLightprober`
(vk_lightprober.cpp), with theorems about the shader permutation table and
its index, the tile selection, the two ring buffers, the copy into the atlas,
the probe generators, the shader includes, the uniform buffer and the read-back
of the BRDF table.

Conventions of the embedding:
* `LightmapTile*` pointers are tile identifiers (`TileId`) into a heap
  `TileId → LightmapTile`, so that a tile list may name the same tile twice.
* GPU buffers that are persistently mapped are write logs (slot index and
  payload), command buffers are lists of recorded commands.
* `int` cursors and counts are natural numbers: the cursor starts at zero and
  only grows, and `TArray` sizes are taken to fit in an `int`.
* Collaborators whose code is outside the embedded files (the rectangle
  packer, the level mesh, the header constants) are parameters.
-/

namespace VkDoom

/-! ## Shader permutation index -/

/-- The `FVector3` of the engine. Only comparison with the zero vector and the
signs of axis vectors are used, so the components are integers. -/
structure FVector3 where
  X : Int
  Y : Int
  Z : Int
deriving DecidableEq, Repr

/-- The console variables and flags read by `GetRaytracePipelineIndex`:
`RunningAsTool`, the four `lm_*` toggles and the member `useRayQuery`. -/
structure RaytraceSettings where
  RunningAsTool : Bool
  lm_softshadows : Bool
  lm_ao : Bool
  lm_sunlight : Bool
  lm_bounce : Bool
  useRayQuery : Bool
deriving DecidableEq, Repr

/-- The lighting data of the level mesh read by `GetRaytracePipelineIndex`
(`mesh->AmbientOcclusion`, `mesh->SunColor`, `mesh->LightBounce`). -/
structure MeshLighting where
  AmbientOcclusion : Bool
  SunColor : FVector3
  LightBounce : Bool
deriving DecidableEq, Repr

/-- The function `VkLightmapper::GetRaytracePipelineIndex` (vk_lightmapper.cpp:605-623). -/
def GetRaytracePipelineIndex (s : RaytraceSettings) (mesh : MeshLighting) : Nat :=
  let userSoftshadows := s.RunningAsTool || (s.lm_softshadows && s.useRayQuery)
  let userAO := s.RunningAsTool || (s.lm_ao && s.useRayQuery)
  let userSunlight := s.RunningAsTool || s.lm_sunlight
  let userBounce := s.RunningAsTool || s.lm_bounce
  let index := 0
  let index := if userSoftshadows then index ||| 1 else index
  let index := if mesh.AmbientOcclusion && userAO then index ||| 2 else index
  let index := if (mesh.SunColor != FVector3.mk 0 0 0) && userSunlight then index ||| 4 else index
  let index := if mesh.LightBounce && userBounce then index ||| 8 else index
  index

/-- The index the specification describes: four booleans contributing bit 0,
1, 2 and 3. -/
def PermutationIndexOfBits (b0 b1 b2 b3 : Bool) : Nat :=
  b0.toNat + 2 * b1.toNat + 4 * b2.toNat + 8 * b3.toNat

/-- The four booleans named by the specification, read off the toggles and the
mesh: softshadow toggle; AO toggle and mesh AO; sunlight toggle and non-zero
sun colour; bounce toggle and mesh bounce. -/
def ToggleIndex (s : RaytraceSettings) (mesh : MeshLighting) : Nat :=
  PermutationIndexOfBits s.lm_softshadows (s.lm_ao && mesh.AmbientOcclusion)
    (s.lm_sunlight && (mesh.SunColor != FVector3.mk 0 0 0)) (s.lm_bounce && mesh.LightBounce)

/-- The four booleans the code combines: each toggle is first overridden by
`RunningAsTool`, and the soft-shadow and AO toggles also need `useRayQuery`. -/
def EffectiveIndex (s : RaytraceSettings) (mesh : MeshLighting) : Nat :=
  PermutationIndexOfBits
    (s.RunningAsTool || (s.lm_softshadows && s.useRayQuery))
    (mesh.AmbientOcclusion && (s.RunningAsTool || (s.lm_ao && s.useRayQuery)))
    ((mesh.SunColor != FVector3.mk 0 0 0) && (s.RunningAsTool || s.lm_sunlight))
    (mesh.LightBounce && (s.RunningAsTool || s.lm_bounce))

/-! ## Data model of the lightmapper -/

/-- A `LightmapTile*`: the identity of a tile. -/
abbrev TileId := Nat

/-- The `AtlasLocation` member of a tile: destination page (`ArrayIndex`),
pixel offset and pixel size in the lightmap atlas. The members hold
non-negative values and are natural numbers here. -/
structure TileAtlasLocation where
  X : Nat
  Y : Nat
  Width : Nat
  Height : Nat
  ArrayIndex : Nat
deriving DecidableEq, Repr

/-- The `Area()` accessor, a `uint32_t`. -/
def TileAtlasLocation.Area (a : TileAtlasLocation) : Nat :=
  (a.Width * a.Height) % 2 ^ 32

/-- The fields of `LightmapTile` that the lightmapper reads or writes. The
transform vectors are copied verbatim into the GPU payloads and are left out. -/
structure LightmapTile where
  AtlasLocation : TileAtlasLocation
  ReceivedNewLight : Bool
  NeedsInitialBake : Bool
  GeometryUpdate : Bool
deriving DecidableEq, Repr

/-- The memory the tile pointers point into. -/
abbrev TileHeap := TileId → LightmapTile

/-- A `SelectedTile`: a tile and its place in the bake image. The struct is
declared in vk_lightmapper.h, which is not among the embedded files; the
member `Rendered` is taken to start as `false`, which is what `CopyResult`
relies on when it skips the tiles `Render` never reached. -/
structure SelectedTile where
  Tile : TileId
  X : Nat
  Y : Nat
  Rendered : Bool
deriving DecidableEq, Repr

/-- The result of `RectPacker::Alloc`. -/
structure RectPackerItem where
  X : Nat
  Y : Nat
  PageIndex : Nat
deriving DecidableEq, Repr

/-- The rectangle packer, a collaborator whose code is not part of the
embedded files: construction with (width, height, spacing), `Clear`, and
`Alloc(width, height)`, over a packer state `σ`. -/
structure RectPacker (σ : Type) where
  New : Nat → Nat → Nat → σ
  Clear : σ → σ
  Alloc : σ → Nat → Nat → σ × RectPackerItem

/-- One call of `packer->Alloc` made by `SelectTiles`: the tile it was made
for, the requested size and the answer. -/
structure AllocRecord where
  Tile : TileId
  Width : Nat
  Height : Nat
  Item : RectPackerItem
deriving DecidableEq, Repr

/-- The member `MeshLocation` of a `LevelMeshSurface`. -/
structure MeshLocation where
  StartElementIndex : Nat
  NumElements : Nat
deriving DecidableEq, Repr

/-- The level mesh, a collaborator: its lighting data, `GetVisibleSurfaces`
and the surface array `Mesh.Surfaces`. -/
structure LevelMesh extends MeshLighting where
  GetVisibleSurfaces : TileId → List Nat
  Surfaces : Nat → MeshLocation

/-- Image layouts used by the barriers. -/
inductive VkImageLayout where
  | UNDEFINED
  | GENERAL
  | COLOR_ATTACHMENT_OPTIMAL
  | SHADER_READ_ONLY_OPTIMAL
  | TRANSFER_SRC_OPTIMAL
  | TRANSFER_DST_OPTIMAL
deriving DecidableEq, Repr

/-- The value of `VK_IMAGE_ASPECT_COLOR_BIT`. -/
def VK_IMAGE_ASPECT_COLOR_BIT : Nat := 1

/-- One entry of a `PipelineBarrier`, a `VkImageMemoryBarrier`: an image, the
layout transition, and the subresource range with its aspect mask. -/
structure ImageBarrier (ι : Type) where
  image : ι
  oldLayout : VkImageLayout
  newLayout : VkImageLayout
  aspectMask : Nat
  baseMipLevel : Nat
  levelCount : Nat
  baseArrayLayer : Nat
  layerCount : Nat
deriving DecidableEq, Repr

/-- Modelled from the spec: the body of `PipelineBarrier::AddImage`, which is
in vulkanbuilders.cpp and not among the embedded files; only the declaration
(vulkanbuilders.h:516) is. The call adds one image barrier with the given
layouts and the given subresource range (aspect, mip slice, array slice). The
access masks are left out. -/
def AddImage {ι : Type} (image : ι) (oldLayout newLayout : VkImageLayout)
    (aspectMask baseMipLevel levelCount baseArrayLayer layerCount : Nat) : ImageBarrier ι :=
  ImageBarrier.mk image oldLayout newLayout aspectMask baseMipLevel levelCount baseArrayLayer
    layerCount

/-- The function `PipelineBarrier::AddImage` called with the aspect and range
arguments omitted: the declaration in vulkanbuilders.h:516 gives them the
default values `aspectMask = VK_IMAGE_ASPECT_COLOR_BIT, baseMipLevel = 0,
levelCount = 1, baseArrayLayer = 0, layerCount = 1`. -/
def AddImageDefault {ι : Type} (image : ι) (oldLayout newLayout : VkImageLayout) : ImageBarrier ι :=
  AddImage image oldLayout newLayout VK_IMAGE_ASPECT_COLOR_BIT 0 1 0 1

/-- The images the lightmapper puts barriers on. -/
inductive LMImage where
  | bakeRaytrace
  | bakeResolve
  | bakeBlur
  | destLight (page : Nat)
  | destProbe (page : Nat)
deriving DecidableEq, Repr

/-- The framebuffers the lightmapper renders into. -/
inductive LMFramebuffer where
  | bakeRaytrace
  | bakeResolve
  | bakeBlur
  | dest (page : Nat)
deriving DecidableEq, Repr

/-- The graphics pipelines of the lightmapper. -/
inductive LMPipeline where
  | raytrace (index : Nat)
  | resolve
  | blur (pass : Nat)
  | copy
deriving DecidableEq, Repr

/-- The commands recorded into the transfer command buffer, and the blocking
wait. Debug groups, viewports, descriptor and vertex-buffer bindings carry
nothing the theorems speak about and are not recorded. -/
inductive Command where
  | copyBuffer
  | pipelineBarrier (images : List (ImageBarrier LMImage))
  | beginRenderPass (framebuffer : LMFramebuffer) (width height : Nat)
  | bindPipeline (pipeline : LMPipeline)
  | draw (vertexCount instanceCount firstVertex firstInstance : Nat)
  | drawIndexedIndirect (offset drawCount stride : Nat)
  | endRenderPass
  | waitForCommands
deriving DecidableEq, Repr

/-- The struct `VkDrawIndexedIndirectCommand`. -/
structure VkDrawIndexedIndirectCommand where
  indexCount : Nat
  instanceCount : Nat
  firstIndex : Nat
  vertexOffset : Nat
  firstInstance : Nat
deriving DecidableEq, Repr

/-- The struct `LightmapRaytracePC` without the transform vectors. -/
structure LightmapRaytracePC where
  TileX : Nat
  TileY : Nat
  TextureSize : Nat
  TileWidth : Nat
  TileHeight : Nat
  SurfaceIndex : Nat
deriving DecidableEq, Repr

/-- One store `Constants[slot] = pc; Commands[slot] = cmd` of `Render`. -/
structure DrawIndexedWrite where
  slot : Nat
  cmd : VkDrawIndexedIndirectCommand
  pc : LightmapRaytracePC
deriving DecidableEq, Repr

/-- The `drawindexed` member: cursor, capacity (a constant of the header),
fullness flag and the stores made into the two mapped buffers. -/
structure DrawIndexed where
  Pos : Nat
  BufferSize : Nat
  IsFull : Bool
  writes : List DrawIndexedWrite
deriving DecidableEq, Repr

/-- The struct `CopyTileInfo` without the inverse-transform vectors. -/
structure CopyTileInfo where
  SrcPosX : Nat
  SrcPosY : Nat
  DestPosX : Nat
  DestPosY : Nat
  TileWidth : Nat
  TileHeight : Nat
deriving DecidableEq, Repr

/-- One store `copytiles.Tiles[slot] = info` of `CopyResult`. -/
structure CopyTileWrite where
  slot : Nat
  info : CopyTileInfo
deriving DecidableEq, Repr

/-- The `copytiles` member. -/
structure CopyTiles where
  Pos : Nat
  BufferSize : Nat
  writes : List CopyTileWrite
deriving DecidableEq, Repr

/-- The part of `bakeImage` that changes: the bounding box `maxX`, `maxY`,
16-bit unsigned as in `std::max<uint16_t>` on lines 160-161. -/
structure BakeImage where
  maxX : Nat
  maxY : Nat
deriving DecidableEq, Repr

/-- The state of a `VkLightmapper` together with the tiles it points to, the
recorded commands and the calls made to the packer since it was cleared. -/
structure VkLightmapper (σ : Type) where
  heap : TileHeap
  packer : Option σ
  allocLog : List AllocRecord
  selectedTiles : List SelectedTile
  bakeImage : BakeImage
  drawindexed : DrawIndexed
  copytiles : CopyTiles
  copylists : List (List SelectedTile)
  lastSurfaceCount : Nat
  lastPixelCount : Nat
  cmds : List Command

/-- What the lightmapper reads from its surroundings: the packer, the console
variables, the header constant `bakeImageSize` and the width of each
destination lightmap page. -/
structure LightmapperEnv (σ : Type) where
  packer : RectPacker σ
  settings : RaytraceSettings
  lm_blur : Bool
  bakeImageSize : Nat
  destSize : Nat → Nat

/-! ## The lightmapper operations -/

/-- The function `VkLightmapper::BeginFrame` (vk_lightmapper.cpp:84-90). -/
def BeginFrame {σ : Type} (st : VkLightmapper σ) : VkLightmapper σ :=
  { st with
    drawindexed := { st.drawindexed with Pos := 0 }
    copytiles := { st.copytiles with Pos := 0 } }

/-- The flags `SelectTiles` clears on a tile it selects (lines 163-165). -/
def LightmapTile.clearFlags (tile : LightmapTile) : LightmapTile :=
  { tile with ReceivedNewLight := false, NeedsInitialBake := false, GeometryUpdate := false }

/-- The record of one call `packer->Alloc(tile->AtlasLocation.Width,
tile->AtlasLocation.Height)` (line 151) made for tile `t` and answered with
`result`. -/
def VkLightmapper.logAlloc {σ : Type} (st : VkLightmapper σ) (t : TileId)
    (result : RectPackerItem) : VkLightmapper σ :=
  { st with
    allocLog := st.allocLog ++
      [AllocRecord.mk t (st.heap t).AtlasLocation.Width (st.heap t).AtlasLocation.Height result] }

/-- The body of `if (result->PageIndex == 0)` in `SelectTiles` (lines 153-166):
the tile is pushed on `selectedTiles` at the place the packer chose, the
bounding box grows and the flags of the tile are cleared. `max<uint16_t>` and
the `uint16_t(...)` conversion are taken modulo `2 ^ 16`. -/
def VkLightmapper.pushSelected {σ : Type} (st : VkLightmapper σ) (t : TileId)
    (result : RectPackerItem) : VkLightmapper σ :=
  { st with
    selectedTiles := st.selectedTiles ++ [SelectedTile.mk t result.X result.Y false]
    bakeImage := BakeImage.mk
      (max st.bakeImage.maxX ((result.X + (st.heap t).AtlasLocation.Width) % 2 ^ 16))
      (max st.bakeImage.maxY ((result.Y + (st.heap t).AtlasLocation.Height) % 2 ^ 16))
    heap := Function.update st.heap t (st.heap t).clearFlags }

/-- The `for` loop of `SelectTiles` (lines 143-167) over the tiles still to
visit, with the packer state threaded through. -/
def SelectTilesLoop {σ : Type} (P : RectPacker σ) :
    List TileId → σ → VkLightmapper σ → σ × VkLightmapper σ
  | [], p, st => (p, st)
  | t :: ts, p, st =>
    let tile := st.heap t
    if tile.ReceivedNewLight = false then
      SelectTilesLoop P ts p st
    else
      let result := P.Alloc p tile.AtlasLocation.Width tile.AtlasLocation.Height
      if result.2.PageIndex = 0 then
        SelectTilesLoop P ts result.1 ((st.logAlloc t result.2).pushSelected t result.2)
      else
        SelectTilesLoop P ts result.1 (st.logAlloc t result.2)

/-- The statement `if (!packer) packer = std::make_unique<RectPacker>(bakeImageSize,
bakeImageSize, 3); else packer->Clear();` (lines 138-141): the packer state
`SelectTiles` starts allocating from. -/
def PackerInit {σ : Type} (env : LightmapperEnv σ) (packer : Option σ) : σ :=
  match packer with
  | none => env.packer.New env.bakeImageSize env.bakeImageSize 3
  | some p => env.packer.Clear p

/-- The start of `SelectTiles` (lines 133-141): the bounding box and the
selection are emptied and the packer is created or cleared. The packer state
is returned beside the lightmapper. -/
def SelectTilesInit {σ : Type} (env : LightmapperEnv σ) (st : VkLightmapper σ) :
    σ × VkLightmapper σ :=
  (PackerInit env st.packer,
    { st with bakeImage := BakeImage.mk 0 0, selectedTiles := [], allocLog := [] })

/-- The function `VkLightmapper::SelectTiles` (vk_lightmapper.cpp:131-172). The final
`maxX += 3; maxY += 3` is `uint16_t` arithmetic. -/
def SelectTiles {σ : Type} (env : LightmapperEnv σ) (tiles : List TileId)
    (st : VkLightmapper σ) : VkLightmapper σ :=
  let r := SelectTilesLoop env.packer tiles (SelectTilesInit env st).1 (SelectTilesInit env st).2
  { r.2 with
    packer := some r.1
    bakeImage := BakeImage.mk ((r.2.bakeImage.maxX + 3) % 2 ^ 16) ((r.2.bakeImage.maxY + 3) % 2 ^ 16) }

/-- The inner loop of `Render` over the visible surfaces of one tile
(lines 239-253): one store into `Constants` and `Commands` per surface. -/
def RenderSurfaces (mesh : LevelMesh) :
    List Nat → LightmapRaytracePC → DrawIndexed → DrawIndexed
  | [], _, d => d
  | surfaceIndex :: rest, pc, d =>
    let surface := mesh.Surfaces surfaceIndex
    let pc1 := { pc with SurfaceIndex := surfaceIndex }
    let cmd := VkDrawIndexedIndirectCommand.mk surface.NumElements 1 surface.StartElementIndex 0 d.Pos
    RenderSurfaces mesh rest pc1
      { d with writes := d.writes ++ [DrawIndexedWrite.mk d.Pos cmd pc1], Pos := d.Pos + 1 }

/-- The `while (i < count)` loop of `Render` (lines 230-234): the tiles from
the current one on are marked dirty again. -/
def MarkNotRendered : List SelectedTile → TileHeap → TileHeap
  | [], heap => heap
  | s :: rest, heap =>
    MarkNotRendered rest (Function.update heap s.Tile { heap s.Tile with ReceivedNewLight := true })

/-- What the tile loop of `Render` changes. -/
structure RenderLoopResult where
  selectedTiles : List SelectedTile
  heap : TileHeap
  drawindexed : DrawIndexed

/-- The tile loop of `Render` (lines 207-256) over the selected tiles still to
process. -/
def RenderLoop (mesh : LevelMesh) (bakeImageSize : Nat) :
    List SelectedTile → TileHeap → DrawIndexed → RenderLoopResult
  | [], heap, d => RenderLoopResult.mk [] heap d
  | selectedTile :: rest, heap, d =>
    let targetTile := heap selectedTile.Tile
    let pc := LightmapRaytracePC.mk selectedTile.X selectedTile.Y bakeImageSize
      targetTile.AtlasLocation.Width targetTile.AtlasLocation.Height 0
    let visibleSurfaces := mesh.GetVisibleSurfaces selectedTile.Tile
    if d.Pos + visibleSurfaces.length ≥ d.BufferSize then
      RenderLoopResult.mk (selectedTile :: rest) (MarkNotRendered (selectedTile :: rest) heap)
        { d with IsFull := true }
    else
      let r := RenderLoop mesh bakeImageSize rest heap (RenderSurfaces mesh visibleSurfaces pc d)
      { r with selectedTiles := { selectedTile with Rendered := true } :: r.selectedTiles }

/-- The function `VkLightmapper::Render` (vk_lightmapper.cpp:174-264).
`sizeof(VkDrawIndexedIndirectCommand)` is 20 bytes. -/
def Render {σ : Type} (env : LightmapperEnv σ) (mesh : LevelMesh)
    (st : VkLightmapper σ) : VkLightmapper σ :=
  let cmds0 := st.cmds ++
    [ Command.pipelineBarrier [AddImageDefault LMImage.bakeRaytrace
        VkImageLayout.UNDEFINED VkImageLayout.COLOR_ATTACHMENT_OPTIMAL],
      Command.beginRenderPass LMFramebuffer.bakeRaytrace st.bakeImage.maxX st.bakeImage.maxY,
      Command.bindPipeline
        (LMPipeline.raytrace (GetRaytracePipelineIndex env.settings mesh.toMeshLighting)) ]
  let startPos := st.drawindexed.Pos
  let r := RenderLoop mesh env.bakeImageSize st.selectedTiles st.heap st.drawindexed
  let cmds1 :=
    if r.drawindexed.Pos > startPos then
      cmds0 ++ [Command.drawIndexedIndirect (startPos * 20) (r.drawindexed.Pos - startPos) 20]
    else cmds0
  { st with
    selectedTiles := r.selectedTiles
    heap := r.heap
    drawindexed := r.drawindexed
    cmds := cmds1 ++ [Command.endRenderPass] }

/-- The function `VkLightmapper::Resolve` (vk_lightmapper.cpp:284-315). -/
def Resolve {σ : Type} (st : VkLightmapper σ) : VkLightmapper σ :=
  { st with cmds := st.cmds ++
    [ Command.pipelineBarrier
        [ AddImageDefault LMImage.bakeRaytrace
            VkImageLayout.COLOR_ATTACHMENT_OPTIMAL VkImageLayout.SHADER_READ_ONLY_OPTIMAL,
          AddImageDefault LMImage.bakeResolve
            VkImageLayout.UNDEFINED VkImageLayout.COLOR_ATTACHMENT_OPTIMAL ],
      Command.beginRenderPass LMFramebuffer.bakeResolve st.bakeImage.maxX st.bakeImage.maxY,
      Command.bindPipeline LMPipeline.resolve,
      Command.draw 3 1 0 0,
      Command.endRenderPass ] }

/-- The function `VkLightmapper::Blur` (vk_lightmapper.cpp:317-376). -/
def Blur {σ : Type} (st : VkLightmapper σ) : VkLightmapper σ :=
  { st with cmds := st.cmds ++
    [ Command.pipelineBarrier
        [ AddImageDefault LMImage.bakeResolve
            VkImageLayout.COLOR_ATTACHMENT_OPTIMAL VkImageLayout.SHADER_READ_ONLY_OPTIMAL ],
      Command.beginRenderPass LMFramebuffer.bakeBlur st.bakeImage.maxX st.bakeImage.maxY,
      Command.bindPipeline (LMPipeline.blur 0),
      Command.draw 3 1 0 0,
      Command.endRenderPass,
      Command.pipelineBarrier
        [ AddImageDefault LMImage.bakeBlur
            VkImageLayout.COLOR_ATTACHMENT_OPTIMAL VkImageLayout.SHADER_READ_ONLY_OPTIMAL ],
      Command.beginRenderPass LMFramebuffer.bakeResolve st.bakeImage.maxX st.bakeImage.maxY,
      Command.bindPipeline (LMPipeline.blur 1),
      Command.draw 3 1 0 0,
      Command.endRenderPass ] }

/-- What the sort loop of `CopyResult` computes. -/
structure CopySortResult where
  copylists : List (List SelectedTile)
  pixels : Nat
  lastSurfaceCount : Nat
deriving DecidableEq, Repr

/-- The sort loop of `CopyResult` (lines 384-399): every rendered tile is
pushed on the list of its destination page, `copylists` growing on demand;
`pixels` is a `uint32_t`. -/
def CopyResultSort (heap : TileHeap) : List SelectedTile → CopySortResult → CopySortResult
  | [], r => r
  | selected :: rest, r =>
    if selected.Rendered = true then
      let pageIndex := (heap selected.Tile).AtlasLocation.ArrayIndex
      let lists :=
        if pageIndex ≥ r.copylists.length then
          r.copylists ++ List.replicate (pageIndex + 1 - r.copylists.length) []
        else r.copylists
      CopyResultSort heap rest
        { copylists := lists.set pageIndex (lists.getD pageIndex [] ++ [selected])
          pixels := (r.pixels + (heap selected.Tile).AtlasLocation.Area) % 2 ^ 32
          lastSurfaceCount := r.lastSurfaceCount + 1 }
    else
      CopyResultSort heap rest r

/-- The destination-image barriers of `CopyResult` (lines 414-421 and
516-523): the light and probe image of every page with a non-empty list,
mip level 0 and array layer 0. -/
def CopyResultBarriers (oldLayout newLayout : VkImageLayout) :
    Nat → List (List SelectedTile) → List (ImageBarrier LMImage)
  | _, [] => []
  | i, list :: rest =>
    if list.length > 0 then
      AddImage (LMImage.destLight i) oldLayout newLayout VK_IMAGE_ASPECT_COLOR_BIT 0 1 0 1 ::
        AddImage (LMImage.destProbe i) oldLayout newLayout VK_IMAGE_ASPECT_COLOR_BIT 0 1 0 1 ::
          CopyResultBarriers oldLayout newLayout (i + 1) rest
    else
      CopyResultBarriers oldLayout newLayout (i + 1) rest

/-- The cursor, the stores and the commands threaded through the page loop of
`CopyResult`. -/
structure CopyPagesResult where
  pos : Nat
  writes : List CopyTileWrite
  cmds : List Command
deriving DecidableEq, Repr

/-- The loop over the tiles of one page (lines 470-484): one store
`copytiles.Tiles[pos++]` per tile. -/
def CopyResultTiles (heap : TileHeap) :
    List SelectedTile → Nat → List CopyTileWrite → Nat × List CopyTileWrite
  | [], pos, writes => (pos, writes)
  | selected :: rest, pos, writes =>
    let tile := heap selected.Tile
    CopyResultTiles heap rest (pos + 1)
      (writes ++ [CopyTileWrite.mk pos
        (CopyTileInfo.mk selected.X selected.Y tile.AtlasLocation.X tile.AtlasLocation.Y
          tile.AtlasLocation.Width tile.AtlasLocation.Height)])

/-- The page loop of `CopyResult` (lines 427-510), from page `i` on. The lazy
creation of the page framebuffer records no command and is left out. -/
def CopyResultPages (destSize : Nat → Nat) (heap : TileHeap) :
    Nat → List (List SelectedTile) → CopyPagesResult → CopyPagesResult
  | _, [], r => r
  | i, list :: rest, r =>
    if list.length = 0 then
      CopyResultPages destSize heap (i + 1) rest r
    else
      let start := r.pos
      let tw := CopyResultTiles heap list r.pos r.writes
      CopyResultPages destSize heap (i + 1) rest
        { pos := tw.1
          writes := tw.2
          cmds := r.cmds ++
            [ Command.beginRenderPass (LMFramebuffer.dest i) (destSize i) (destSize i),
              Command.bindPipeline LMPipeline.copy,
              Command.draw 4 (tw.1 - start) 0 start,
              Command.endRenderPass ] }

/-- The function `VkLightmapper::CopyResult` (vk_lightmapper.cpp:378-527). -/
def CopyResult {σ : Type} (env : LightmapperEnv σ) (st : VkLightmapper σ) : VkLightmapper σ :=
  let sorted := CopyResultSort st.heap st.selectedTiles
    (CopySortResult.mk (st.copylists.map (fun _ => [])) 0 0)
  let st1 := { st with
    copylists := sorted.copylists
    lastSurfaceCount := sorted.lastSurfaceCount
    lastPixelCount := sorted.pixels }
  if sorted.pixels = 0 then st1
  else
    let barrier0 := Command.pipelineBarrier
      (AddImageDefault LMImage.bakeResolve
          VkImageLayout.COLOR_ATTACHMENT_OPTIMAL VkImageLayout.SHADER_READ_ONLY_OPTIMAL ::
        CopyResultBarriers VkImageLayout.SHADER_READ_ONLY_OPTIMAL
          VkImageLayout.COLOR_ATTACHMENT_OPTIMAL 0 sorted.copylists)
    let r := CopyResultPages env.destSize st.heap 0 sorted.copylists
      (CopyPagesResult.mk st.copytiles.Pos st.copytiles.writes (st.cmds ++ [barrier0]))
    let barrier1 := Command.pipelineBarrier
      (CopyResultBarriers VkImageLayout.COLOR_ATTACHMENT_OPTIMAL
        VkImageLayout.SHADER_READ_ONLY_OPTIMAL 0 sorted.copylists)
    { st1 with
      copytiles := { st.copytiles with Pos := r.pos, writes := r.writes }
      cmds := r.cmds ++ [barrier1] }

/-- The function `VkLightmapper::UploadUniforms` (vk_lightmapper.cpp:266-282): a buffer
copy and a buffer barrier. -/
def UploadUniforms {σ : Type} (st : VkLightmapper σ) : VkLightmapper σ :=
  { st with cmds := st.cmds ++ [Command.copyBuffer, Command.pipelineBarrier []] }

/-- The body of the `if` at the end of the loop of `Raytrace` (lines 117-122):
wait for the GPU, then reset both cursors and the fullness flag. -/
def RaytraceReset {σ : Type} (st : VkLightmapper σ) : VkLightmapper σ :=
  { st with
    cmds := st.cmds ++ [Command.waitForCommands]
    drawindexed := { st.drawindexed with Pos := 0, IsFull := false }
    copytiles := { st.copytiles with Pos := 0 } }

/-- One pass through the body of the `while (true)` loop of `Raytrace` after
a non-empty selection (lines 109-123). -/
def RaytracePass {σ : Type} (env : LightmapperEnv σ) (mesh : LevelMesh)
    (st : VkLightmapper σ) : VkLightmapper σ :=
  let st2 := Render env mesh st
  let st3 := Resolve st2
  let st4 := if env.lm_blur = true then Blur st3 else st3
  let st5 := CopyResult env st4
  if st5.drawindexed.IsFull = true ∨ st5.copytiles.Pos = st5.drawindexed.BufferSize then
    RaytraceReset st5
  else st5

/-- The `while (true)` loop of `Raytrace` (lines 103-124). The fuel bounds the
number of iterations; `none` means the loop has not left within that many. -/
def RaytraceLoop {σ : Type} (env : LightmapperEnv σ) (mesh : LevelMesh) (tiles : List TileId) :
    Nat → VkLightmapper σ → Option (VkLightmapper σ)
  | 0, _ => none
  | fuel + 1, st =>
    let st1 := SelectTiles env tiles st
    if st1.selectedTiles.length = 0 then some st1
    else RaytraceLoop env mesh tiles fuel (RaytracePass env mesh st1)

/-- The function `VkLightmapper::Raytrace` (vk_lightmapper.cpp:92-129); `mesh` may be null. -/
def Raytrace {σ : Type} (env : LightmapperEnv σ) (mesh : Option LevelMesh) (tiles : List TileId)
    (fuel : Nat) (st : VkLightmapper σ) : Option (VkLightmapper σ) :=
  match mesh with
  | none => some st
  | some m =>
    if tiles.length > 0 then RaytraceLoop env m tiles fuel (UploadUniforms st)
    else some st

/-! ## The light prober -/

/-- A `VulkanImage` made by `ImageBuilder::Create`: its identity and the size
it was created with (`Size(width, height, mipLevels, arrayLayers)`). -/
structure VulkanImage where
  handle : Nat
  width : Nat
  height : Nat
  mipLevels : Nat
  layerCount : Nat
deriving DecidableEq, Repr

/-- The images the prober puts barriers on and copies between. -/
inductive ProbeImage where
  | irradianceScratch (index : Nat)
  | prefilterScratch (index : Nat)
  | irradianceProbe (probeIndex : Nat)
  | prefilterProbe (probeIndex : Nat)
deriving DecidableEq, Repr

/-- The compute pipelines of the prober. -/
inductive ProbePipeline where
  | irradianceMap
  | prefilterMap
deriving DecidableEq, Repr

/-- The structs `IrradianceMapPushConstants` and `PrefilterMapPushConstants`; the
irradiance pass has no roughness and records zero. The roughness is an exact
rational. -/
structure ConvolutePushConstants where
  dir : FVector3
  side : FVector3
  up : FVector3
  roughness : ℚ
deriving DecidableEq, Repr

/-- The commands the prober records into the draw command buffer. -/
inductive ProbeCommand where
  | pipelineBarrier (images : List (ImageBarrier ProbeImage))
  | bindPipeline (pipeline : ProbePipeline)
  | dispatch (descriptorSet : Nat) (push : ConvolutePushConstants) (x y z : Nat)
  | copyImage (src dst : ProbeImage) (width height baseArrayLayer mipLevel : Nat)
deriving DecidableEq, Repr

/-- The `irradianceMap` member: the per-probe cubemap array. -/
structure IrradianceMap where
  probes : List (Option VulkanImage)
deriving DecidableEq, Repr

/-- The `prefilterMap` member: the number of mip levels (a constant of the
header), the scratch images and the per-probe cubemap array. -/
structure PrefilterMap where
  maxlevels : Nat
  images : List (Option VulkanImage)
  probes : List (Option VulkanImage)
deriving DecidableEq, Repr

/-- The state of a `VkLightprober`: the two maps, the next unused image
identity and the recorded commands. -/
structure VkLightprober where
  irradianceMap : IrradianceMap
  prefilterMap : PrefilterMap
  nextHandle : Nat
  cmds : List ProbeCommand
deriving DecidableEq, Repr

/-- The operator `^` of `FVector3`, read as the cross product. -/
def FVector3.cross (a b : FVector3) : FVector3 :=
  FVector3.mk (a.Y * b.Z - a.Z * b.Y) (a.Z * b.X - a.X * b.Z) (a.X * b.Y - a.Y * b.X)

/-- Unary minus of `FVector3`. -/
def FVector3.neg (a : FVector3) : FVector3 :=
  FVector3.mk (-a.X) (-a.Y) (-a.Z)

/-- The table `dir[6]` of `GenerateIrradianceMap` (lines 276-283). -/
def irradianceDir : List FVector3 :=
  [ FVector3.mk 1 0 0,
    FVector3.mk (-1) 0 0,
    FVector3.mk 0 (-1) 0,
    FVector3.mk 0 1 0,
    FVector3.mk 0 0 1,
    FVector3.mk 0 0 (-1) ]

/-- The table `up[6]` of `GenerateIrradianceMap` (lines 285-292). -/
def irradianceUp : List FVector3 :=
  [ FVector3.mk 0 1 0,
    FVector3.mk 0 1 0,
    FVector3.mk 0 0 1,
    FVector3.mk 0 0 (-1),
    FVector3.mk 0 1 0,
    FVector3.mk 0 1 0 ]

/-- The table `dir[6]` of `GeneratePrefilterMap` (lines 412-419). -/
def prefilterDir : List FVector3 :=
  [ FVector3.mk 1 0 0,
    FVector3.mk (-1) 0 0,
    FVector3.mk 0 (-1) 0,
    FVector3.mk 0 1 0,
    FVector3.mk 0 0 1,
    FVector3.mk 0 0 (-1) ]

/-- The table `up[6]` of `GeneratePrefilterMap` (lines 421-428). -/
def prefilterUp : List FVector3 :=
  [ FVector3.mk 0 1 0,
    FVector3.mk 0 1 0,
    FVector3.mk 0 0 1,
    FVector3.mk 0 0 (-1),
    FVector3.mk 0 1 0,
    FVector3.mk 0 1 0 ]

/-- Entry `i` of a direction table. -/
def tableAt (table : List FVector3) (i : Nat) : FVector3 :=
  table.getD i (FVector3.mk 0 0 0)

/-- The statement pair `if (probes.size() <= probeIndex) probes.resize(probeIndex + 1);
if (!probes[probeIndex]) probes[probeIndex] = ImageBuilder()...Create(...)`
(lines 308-317 and 449-458): the grown array and whether an image was made. -/
def EnsureProbe (probes : List (Option VulkanImage)) (probeIndex : Nat) (fresh : VulkanImage) :
    List (Option VulkanImage) × Bool :=
  let resized :=
    if probes.length ≤ probeIndex then
      probes ++ List.replicate (probeIndex + 1 - probes.length) none
    else probes
  match resized.getD probeIndex none with
  | none => (resized.set probeIndex (some fresh), true)
  | some _ => (resized, false)

/-- The function `VkLightprober::GenerateIrradianceMap` (vk_lightprober.cpp:258-343). -/
def GenerateIrradianceMap (probeIndex : Nat) (st : VkLightprober) : VkLightprober :=
  let barrier0 := ProbeCommand.pipelineBarrier ((List.range 6).map fun i =>
    AddImageDefault (ProbeImage.irradianceScratch i) VkImageLayout.UNDEFINED VkImageLayout.GENERAL)
  let dispatches := (List.range 6).map fun i =>
    ProbeCommand.dispatch i
      (ConvolutePushConstants.mk (tableAt irradianceDir i)
        (FVector3.neg (FVector3.cross (tableAt irradianceDir i) (tableAt irradianceUp i)))
        (tableAt irradianceUp i) 0)
      32 32 1
  let ensured := EnsureProbe st.irradianceMap.probes probeIndex
    (VulkanImage.mk st.nextHandle 32 32 1 6)
  let barrier1 := ProbeCommand.pipelineBarrier
    (((List.range 6).map fun i =>
        AddImageDefault (ProbeImage.irradianceScratch i)
          VkImageLayout.GENERAL VkImageLayout.TRANSFER_SRC_OPTIMAL) ++
      [AddImage (ProbeImage.irradianceProbe probeIndex)
        VkImageLayout.UNDEFINED VkImageLayout.TRANSFER_DST_OPTIMAL VK_IMAGE_ASPECT_COLOR_BIT 0 1 0 6])
  let copies := (List.range 6).map fun i =>
    ProbeCommand.copyImage (ProbeImage.irradianceScratch i) (ProbeImage.irradianceProbe probeIndex)
      32 32 i 0
  let barrier2 := ProbeCommand.pipelineBarrier
    [AddImage (ProbeImage.irradianceProbe probeIndex)
      VkImageLayout.TRANSFER_DST_OPTIMAL VkImageLayout.TRANSFER_SRC_OPTIMAL VK_IMAGE_ASPECT_COLOR_BIT 0 1 0 6]
  { st with
    irradianceMap := { st.irradianceMap with probes := ensured.1 }
    nextHandle := if ensured.2 = true then st.nextHandle + 1 else st.nextHandle
    cmds := st.cmds ++ [barrier0, ProbeCommand.bindPipeline ProbePipeline.irradianceMap] ++
      dispatches ++ [barrier1] ++ copies ++ [barrier2] }

/-- The image loop of `CreatePrefilterMap` (lines 370-388): scratch image
`i * maxlevels + level` has extent `128 >> level`. -/
def CreatePrefilterImages (maxlevels firstHandle : Nat) : List (Option VulkanImage) :=
  (List.range 6).foldl (fun images i =>
    (List.range maxlevels).foldl (fun images level =>
      let idx := i * maxlevels + level
      images.set idx (some (VulkanImage.mk (firstHandle + idx) (128 >>> level) (128 >>> level) 1 1)))
      images)
    (List.replicate (6 * maxlevels) none)

/-- The width of scratch image `i`, `prefilterMap.images[i]->width`. -/
def PrefilterMap.imageWidth (m : PrefilterMap) (i : Nat) : Nat :=
  match m.images.getD i none with
  | none => 0
  | some image => image.width

/-- The height of scratch image `i`, `prefilterMap.images[i]->height`. -/
def PrefilterMap.imageHeight (m : PrefilterMap) (i : Nat) : Nat :=
  match m.images.getD i none with
  | none => 0
  | some image => image.height

/-- The function `VkLightprober::GeneratePrefilterMap` (vk_lightprober.cpp:390-486). -/
def GeneratePrefilterMap (probeIndex : Nat) (st : VkLightprober) : VkLightprober :=
  let maxlevels := st.prefilterMap.maxlevels
  let barrier0 := ProbeCommand.pipelineBarrier ((List.range (6 * maxlevels)).map fun i =>
    AddImageDefault (ProbeImage.prefilterScratch i) VkImageLayout.UNDEFINED VkImageLayout.GENERAL)
  let dispatches := (List.range 6).flatMap fun i =>
    (List.range maxlevels).map fun level =>
      ProbeCommand.dispatch (i * maxlevels + level)
        (ConvolutePushConstants.mk (tableAt prefilterDir i)
          (FVector3.neg (FVector3.cross (tableAt prefilterDir i) (tableAt prefilterUp i)))
          (tableAt prefilterUp i) ((level : ℚ) / (((maxlevels : Int) - 1 : Int) : ℚ)))
        (128 >>> level) (128 >>> level) 1
  let ensured := EnsureProbe st.prefilterMap.probes probeIndex
    (VulkanImage.mk st.nextHandle 128 128 maxlevels 6)
  let barrier1 := ProbeCommand.pipelineBarrier
    (((List.range (6 * maxlevels)).map fun i =>
        AddImageDefault (ProbeImage.prefilterScratch i)
          VkImageLayout.GENERAL VkImageLayout.TRANSFER_SRC_OPTIMAL) ++
      [AddImage (ProbeImage.prefilterProbe probeIndex)
        VkImageLayout.UNDEFINED VkImageLayout.TRANSFER_DST_OPTIMAL VK_IMAGE_ASPECT_COLOR_BIT 0
          maxlevels 0 6])
  let copies := (List.range (6 * maxlevels)).map fun i =>
    ProbeCommand.copyImage (ProbeImage.prefilterScratch i) (ProbeImage.prefilterProbe probeIndex)
      (st.prefilterMap.imageWidth i) (st.prefilterMap.imageHeight i) (i / maxlevels) (i % maxlevels)
  let barrier2 := ProbeCommand.pipelineBarrier
    [AddImage (ProbeImage.prefilterProbe probeIndex)
      VkImageLayout.TRANSFER_DST_OPTIMAL VkImageLayout.TRANSFER_SRC_OPTIMAL VK_IMAGE_ASPECT_COLOR_BIT
        0 maxlevels 0 6]
  { st with
    prefilterMap := { st.prefilterMap with probes := ensured.1 }
    nextHandle := if ensured.2 = true then st.nextHandle + 1 else st.nextHandle
    cmds := st.cmds ++ [barrier0, ProbeCommand.bindPipeline ProbePipeline.prefilterMap] ++
      dispatches ++ [barrier1] ++ copies ++ [barrier2] }

/-! ## Concrete collaborators for the examples -/

/-- State of the one-row packer: the page size, the spacing and the next free
column. -/
structure RowPackerState where
  width : Nat
  height : Nat
  spacing : Nat
  nextX : Nat
deriving DecidableEq, Repr

/-- A packer that fills a single row of page 0 from left to right and answers
page 1 once the row is full. It stands in for the engine's packer in the
examples. -/
def RowPacker : RectPacker RowPackerState where
  New := fun w h s => RowPackerState.mk w h s 0
  Clear := fun p => { p with nextX := 0 }
  Alloc := fun p w h =>
    if p.nextX + w ≤ p.width ∧ h ≤ p.height then
      ({ p with nextX := p.nextX + w + p.spacing }, RectPackerItem.mk p.nextX 0 0)
    else (p, RectPackerItem.mk 0 0 1)

/-- An environment for the examples: the one-row packer on a 64 x 64 bake
image, ray queries off, blur on. -/
def exampleEnv : LightmapperEnv RowPackerState where
  packer := RowPacker
  settings := RaytraceSettings.mk false true true true true false
  lm_blur := true
  bakeImageSize := 64
  destSize := fun _ => 128

/-- A dirty 10 x 10 tile on atlas page `page`. -/
def dirtyTile (page : Nat) : LightmapTile :=
  LightmapTile.mk (TileAtlasLocation.mk 0 0 10 10 page) true true false

/-- A clean 10 x 10 tile. -/
def cleanTile : LightmapTile :=
  LightmapTile.mk (TileAtlasLocation.mk 0 0 10 10 0) false false false

/-- A mesh in which tile `t` sees `t` surfaces. -/
def exampleMesh : LevelMesh where
  AmbientOcclusion := true
  SunColor := FVector3.mk 1 1 1
  LightBounce := false
  GetVisibleSurfaces := fun t => List.range t
  Surfaces := fun i => MeshLocation.mk (3 * i) 3

/-- A lightmapper that has just been constructed, with the given tile memory
and indirect-draw capacity. -/
def freshLightmapper (heap : TileHeap) (bufferSize : Nat) : VkLightmapper RowPackerState where
  heap := heap
  packer := none
  allocLog := []
  selectedTiles := []
  bakeImage := BakeImage.mk 0 0
  drawindexed := DrawIndexed.mk 0 bufferSize false []
  copytiles := CopyTiles.mk 0 bufferSize []
  copylists := []
  lastSurfaceCount := 0
  lastPixelCount := 0
  cmds := []

/-! ## Vocabulary of the theorems -/

/-- The operations on the indirect-draw cursor: `BeginFrame`, `Render` on any
list of selected tiles and any mesh, and the reset at the end of the loop of
`Raytrace`. -/
inductive RingOp where
  | beginFrame
  | render (selectedTiles : List SelectedTile) (mesh : LevelMesh)
  | reset

/-- Carry out one ring-buffer operation. -/
def RingOp.apply {σ : Type} (env : LightmapperEnv σ) : RingOp → VkLightmapper σ → VkLightmapper σ
  | RingOp.beginFrame, st => BeginFrame st
  | RingOp.render selectedTiles mesh, st => Render env mesh { st with selectedTiles := selectedTiles }
  | RingOp.reset, st => RaytraceReset st

/-- Carry out a sequence of ring-buffer operations, first to last. -/
def runRingOps {σ : Type} (env : LightmapperEnv σ) : List RingOp → VkLightmapper σ → VkLightmapper σ
  | [], st => st
  | op :: ops, st => runRingOps env ops (op.apply env st)

/-- The number of visible surfaces of a list of selected tiles. -/
def surfaceCount (mesh : LevelMesh) (l : List SelectedTile) : Nat :=
  (l.map fun s => (mesh.GetVisibleSurfaces s.Tile).length).sum

/-- The number of visible surfaces of the selected tile with index `k`. -/
def surfacesAt (mesh : LevelMesh) (l : List SelectedTile) (k : Nat) : Nat :=
  surfaceCount mesh ((l.drop k).take 1)

/-- The value of `drawindexed.Pos` when `Render`, started at `startPos`,
reaches the selected tile with index `k`, all earlier tiles having been
appended. -/
def posAtTile (mesh : LevelMesh) (startPos : Nat) (l : List SelectedTile) (k : Nat) : Nat :=
  startPos + surfaceCount mesh (l.take k)

/-- The loop of `Render`, started at `startPos` with capacity `bufferSize`, reaches the
selected tile with index `k`: no earlier tile made the loop stop. -/
def reachesTile (mesh : LevelMesh) (bufferSize startPos : Nat) (l : List SelectedTile) (k : Nat) : Prop :=
  ∀ j, j < k → posAtTile mesh startPos l j + surfacesAt mesh l j < bufferSize

/-- The cursor invariant of the indirect-draw buffer: the cursor is within the
capacity and every store made so far is at a slot below the capacity. -/
def DrawIndexed.Inv (d : DrawIndexed) : Prop :=
  d.Pos ≤ d.BufferSize ∧ ∀ w ∈ d.writes, w.slot < d.BufferSize

/-- A selected tile marked as rendered (`selectedTile.Rendered = true`). -/
def SelectedTile.markRendered (s : SelectedTile) : SelectedTile :=
  { s with Rendered := true }

/-- A lightmapper with capacity 2 whose only selected tile, tile 2, sees two
surfaces: appending them would fill the indirect-draw buffer exactly. -/
def exactFitState : VkLightmapper RowPackerState :=
  SelectTiles exampleEnv [2] (freshLightmapper (fun _ => dirtyTile 0) 2)

/-- A lightmapper with capacity 5 that has selected the four dirty tiles 0, 1,
2 and 3, which see 0, 1, 2 and 3 surfaces: tile 3 no longer fits. -/
def backpressureState : VkLightmapper RowPackerState :=
  SelectTiles exampleEnv [0, 1, 2, 3] (freshLightmapper (fun t => dirtyTile (t % 2)) 5)

/-- The selected tiles that a log of packer calls gives rise to: one per call
answered with page 0, in the order of the calls, at the place the packer
chose. -/
def selectedOfLog (log : List AllocRecord) : List SelectedTile :=
  (log.filter fun e => e.Item.PageIndex = 0).map fun e =>
    SelectedTile.mk e.Tile e.Item.X e.Item.Y false

/-- A rectangle of the bake image. -/
structure Rect where
  X : Nat
  Y : Nat
  Width : Nat
  Height : Nat
deriving DecidableEq, Repr

/-- Two rectangles, each padded by `pad` texels, do not overlap: along one of
the two axes one of them ends, padding included, before the other begins. -/
def PaddedDisjoint (pad : Nat) (a b : Rect) : Prop :=
  a.X + a.Width + pad ≤ b.X ∨ b.X + b.Width + pad ≤ a.X
    ∨ a.Y + a.Height + pad ≤ b.Y ∨ b.Y + b.Height + pad ≤ a.Y

instance (pad : Nat) (a b : Rect) : Decidable (PaddedDisjoint pad a b) := by
  unfold PaddedDisjoint
  exact inferInstance

/-- A rectangle lies fully within a square atlas of the given size. -/
def InsideAtlas (size : Nat) (r : Rect) : Prop :=
  r.X + r.Width ≤ size ∧ r.Y + r.Height ≤ size

instance (size : Nat) (r : Rect) : Decidable (InsideAtlas size r) := by
  unfold InsideAtlas
  exact inferInstance

/-- The rectangle the packer returned for a call: its position and the
requested size. -/
def AllocRecord.rect (e : AllocRecord) : Rect :=
  Rect.mk e.Item.X e.Item.Y e.Width e.Height

/-- The rectangle of a selected tile: `(X, Y, AtlasLocation.Width,
AtlasLocation.Height)`. -/
def SelectedTile.rect (heap : TileHeap) (s : SelectedTile) : Rect :=
  Rect.mk s.X s.Y (heap s.Tile).AtlasLocation.Width (heap s.Tile).AtlasLocation.Height

/-- A freshly constructed lightmapper all of whose tiles are dirty 10 x 10
tiles, on alternating atlas pages, with indirect-draw capacity 5. -/
def allDirtyState : VkLightmapper RowPackerState :=
  freshLightmapper (fun t => dirtyTile (t % 2)) 5

/-- A command is a draw: `draw` or `drawIndexedIndirect`. -/
def Command.isDraw : Command → Bool
  | Command.draw _ _ _ _ => true
  | Command.drawIndexedIndirect _ _ _ => true
  | _ => false

/-- The draw commands among the recorded commands, in order. -/
def recordedDraws (cmds : List Command) : List Command :=
  cmds.filter Command.isDraw

/-- A freshly constructed lightmapper none of whose tiles is dirty. -/
def allCleanState : VkLightmapper RowPackerState :=
  freshLightmapper (fun _ => cleanTile) 5

/-- A freshly constructed lightmapper with indirect-draw capacity 2 all of
whose tiles are dirty; in `exampleMesh` tile 2 sees two surfaces, as many as
the buffer holds. -/
def oversizedTileState : VkLightmapper RowPackerState :=
  freshLightmapper (fun _ => dirtyTile 0) 2

/-- A sequence of ring-buffer operations for the examples: a frame start, a
render that fills the buffer, the reset and a second render. -/
def exampleRingOps : List RingOp :=
  [ RingOp.beginFrame,
    RingOp.render backpressureState.selectedTiles exampleMesh,
    RingOp.reset,
    RingOp.render (backpressureState.selectedTiles.drop 3) exampleMesh ]

/-- The number of distinct tiles of the list that are dirty. -/
def dirtyCount (tiles : List TileId) (heap : TileHeap) : Nat :=
  (tiles.toFinset.filter fun t => (heap t).ReceivedNewLight = true).card

/-- The quantity that decreases with every iteration of the loop of
`Raytrace` when every tile fits into the empty indirect-draw buffer: twice
the number of dirty tiles, plus one while the cursor is not at the start. -/
def loopMeasure {σ : Type} (tiles : List TileId) (st : VkLightmapper σ) : Nat :=
  2 * dirtyCount tiles st.heap + (if st.drawindexed.Pos = 0 then 0 else 1)

/-! ## Vocabulary for the shader table, barriers and cube faces -/

/-- The index in tool mode, from the mesh data alone: soft shadows are always
on, the other three bits follow the scene. -/
def ToolModeIndex (mesh : MeshLighting) : Nat :=
  PermutationIndexOfBits true mesh.AmbientOcclusion (mesh.SunColor != FVector3.mk 0 0 0)
    mesh.LightBounce

/-- The unit vectors of +x, -x, +y, -y, +z, -z in this order. -/
def axisDirections : List FVector3 :=
  [ FVector3.mk 1 0 0,
    FVector3.mk (-1) 0 0,
    FVector3.mk 0 1 0,
    FVector3.mk 0 (-1) 0,
    FVector3.mk 0 0 1,
    FVector3.mk 0 0 (-1) ]

/-- A vector mirrored in the y axis. -/
def FVector3.flipY (v : FVector3) : FVector3 :=
  FVector3.mk v.X (-v.Y) v.Z

/-- The `dir` members of the push constants of the recorded dispatches, in
order. -/
def dispatchDirs (cmds : List ProbeCommand) : List FVector3 :=
  cmds.filterMap fun c =>
    match c with
    | ProbeCommand.dispatch _ push _ _ _ => some push.dir
    | _ => none

/-- An image barrier covers mip level `level` of array layer `layer`. -/
def ImageBarrier.covers {ι : Type} (b : ImageBarrier ι) (level layer : Nat) : Prop :=
  b.baseMipLevel ≤ level ∧ level < b.baseMipLevel + b.levelCount
    ∧ b.baseArrayLayer ≤ layer ∧ layer < b.baseArrayLayer + b.layerCount

/-- An image barrier covers the full resource: every mip level of every array
layer of the image. -/
def ImageBarrier.coversAll {ι : Type} (b : ImageBarrier ι) (image : VulkanImage) : Prop :=
  ∀ level layer, level < image.mipLevels → layer < image.layerCount → b.covers level layer

/-- A prober as constructed with two prefilter mip levels and no probes yet. -/
def freshLightprober : VkLightprober :=
  VkLightprober.mk (IrradianceMap.mk []) (PrefilterMap.mk 2 (CreatePrefilterImages 2 0) []) 12 []

/-! ## Shader include resolution of the light prober -/

/-- The part of the engine's `fileSystem` that the prober uses, a
collaborator: `CheckNumForFullName(name, 0)` (the search in the first
container), `CheckNumForFullName(name)` (the search everywhere), both
answering -1 when there is no such lump, and `GetStringFromLump`. -/
structure FileSystem where
  CheckNumForFullNameIn0 : String → Int
  CheckNumForFullName : String → Int
  GetStringFromLump : Int → String

/-- The two fatal errors that `I_Error` raises in the include path, with the
lump name of the message. -/
inductive FatalError where
  | unableToLoad (lumpname : String)
  | tooMuchIncludeRecursion
deriving DecidableEq, Repr

/-- The class `ShaderIncludeResult` (vulkanbuilders.h:197-205), made by its
two-argument constructor. -/
structure ShaderIncludeResult where
  name : String
  text : String
deriving DecidableEq, Repr

/-- The function `VkLightprober::LoadPrivateShaderLump`
(vk_lightprober.cpp:510-515). -/
def LoadPrivateShaderLump (fs : FileSystem) (lumpname : String) : Except FatalError String :=
  let lump := fs.CheckNumForFullNameIn0 lumpname
  if lump = -1 then Except.error (FatalError.unableToLoad lumpname)
  else Except.ok (fs.GetStringFromLump lump)

/-- The function `VkLightprober::LoadPublicShaderLump`
(vk_lightprober.cpp:517-523). -/
def LoadPublicShaderLump (fs : FileSystem) (lumpname : String) : Except FatalError String :=
  let lump := fs.CheckNumForFullNameIn0 lumpname
  let lump := if lump = -1 then fs.CheckNumForFullName lumpname else lump
  if lump = -1 then Except.error (FatalError.unableToLoad lumpname)
  else Except.ok (fs.GetStringFromLump lump)

/-- The call `ReplaceChars("/\\.", '_')` of `OnInclude`: every slash,
backslash and dot becomes an underscore. -/
def ReplaceGuardChars (s : String) : String :=
  String.mk (s.data.map fun c =>
    if c = '/' ∨ c = Char.ofNat 92 ∨ c = '.' then '_' else c)

/-- The include guard name that `OnInclude` builds (lines 530-532). -/
def IncludeGuardName (headerName : String) : String :=
  ReplaceGuardChars ("_HEADERGUARD_" ++ headerName)

/-- The function `VkLightprober::OnInclude` (vk_lightprober.cpp:525-547). -/
def OnInclude (fs : FileSystem) (headerName _includerName : String) (depth : Nat)
    (system : Bool) :
    Except FatalError ShaderIncludeResult :=
  if depth > 8 then Except.error FatalError.tooMuchIncludeRecursion
  else
    let includeguardname := IncludeGuardName headerName
    let code := "#ifndef " ++ includeguardname ++ "\n"
    let code := code ++ "#define " ++ includeguardname ++ "\n"
    let code := code ++ "#line 1\n"
    let loaded := if system = true then LoadPrivateShaderLump fs headerName
      else LoadPublicShaderLump fs headerName
    match loaded with
    | Except.error e => Except.error e
    | Except.ok source =>
      let code := code ++ source ++ "\n"
      let code := code ++ "#endif\n"
      Except.ok (ShaderIncludeResult.mk headerName code)

/-- The lump that a header name resolves to: for a system include the lump of
that name in the first container, for a local include that one or else the
lump of that name anywhere; none when the search answers -1. -/
def ResolveHeader (fs : FileSystem) (headerName : String) (system : Bool) : Option Int :=
  if system = true then
    (if fs.CheckNumForFullNameIn0 headerName = -1 then none
     else some (fs.CheckNumForFullNameIn0 headerName))
  else if fs.CheckNumForFullNameIn0 headerName ≠ -1 then
    some (fs.CheckNumForFullNameIn0 headerName)
  else if fs.CheckNumForFullName headerName = -1 then none
  else some (fs.CheckNumForFullName headerName)

/-- The header source wrapped in its include guard. -/
def WrapHeader (headerName source : String) : String :=
  "#ifndef " ++ IncludeGuardName headerName ++ "\n" ++ "#define " ++ IncludeGuardName headerName
    ++ "\n" ++ "#line 1\n" ++ source ++ "\n" ++ "#endif\n"

/-- A file system for the examples: lump 7 in the first container is
"shaders/a.glsl", lump 9 elsewhere is "b.glsl". -/
def exampleFileSystem : FileSystem where
  CheckNumForFullNameIn0 := fun name => if name = "shaders/a.glsl" then 7 else -1
  CheckNumForFullName := fun name =>
    if name = "shaders/a.glsl" then 7 else if name = "b.glsl" then 9 else -1
  GetStringFromLump := fun lump => if lump = 7 then "void a();" else "void b();"

/-! ## Vocabulary for the loop of `Raytrace` and the bounding box -/

/-- The four stages of one loop iteration of `Raytrace` after a non-empty
selection (lines 109-113): `Render`, `Resolve`, `Blur` if `lm_blur` is set,
and `CopyResult`; the state the test at the end of the loop looks at. -/
def RaytraceStages {σ : Type} (env : LightmapperEnv σ) (mesh : LevelMesh)
    (st : VkLightmapper σ) : VkLightmapper σ :=
  CopyResult env
    (if env.lm_blur = true then Blur (Resolve (Render env mesh st))
     else Resolve (Render env mesh st))

/-- The largest `X + AtlasLocation.Width` among selected tiles, 0 when there
is none. -/
def selectedRight (heap : TileHeap) (l : List SelectedTile) : Nat :=
  (l.map fun s => s.X + (heap s.Tile).AtlasLocation.Width).foldl max 0

/-- The largest `Y + AtlasLocation.Height` among selected tiles, 0 when there
is none. -/
def selectedBottom (heap : TileHeap) (l : List SelectedTile) : Nat :=
  (l.map fun s => s.Y + (heap s.Tile).AtlasLocation.Height).foldl max 0

/-- An environment with a bake image 65535 texels wide, the widest whose
coordinates fit in 16 bits. -/
def wideEnv : LightmapperEnv RowPackerState where
  packer := RowPacker
  settings := RaytraceSettings.mk false true true true true false
  lm_blur := true
  bakeImageSize := 65535
  destSize := fun _ => 128

/-- A freshly constructed lightmapper whose tiles are dirty and 65535 texels
wide and 10 high. -/
def wideTileState : VkLightmapper RowPackerState :=
  freshLightmapper (fun _ => LightmapTile.mk (TileAtlasLocation.mk 0 0 65535 10 0) true true false) 5

/-! ## Vocabulary for the stores of `Render` and `CopyResult` -/

/-- The (tile, visible surface) pairs of a list of selected tiles, tile by
tile and within a tile in the order of `GetVisibleSurfaces`. -/
def renderPairs (mesh : LevelMesh) (l : List SelectedTile) : List (SelectedTile × Nat) :=
  l.flatMap fun s => (mesh.GetVisibleSurfaces s.Tile).map fun surfaceIndex => (s, surfaceIndex)

/-- The store for one (tile, surface) pair at a slot: the command draws the
surface's elements once with `firstInstance` the slot, the constants carry the
tile's placement and the surface index. -/
def drawWriteAt (mesh : LevelMesh) (bakeImageSize : Nat) (heap : TileHeap) (slot : Nat)
    (pair : SelectedTile × Nat) : DrawIndexedWrite :=
  DrawIndexedWrite.mk slot
    (VkDrawIndexedIndirectCommand.mk (mesh.Surfaces pair.2).NumElements 1
      (mesh.Surfaces pair.2).StartElementIndex 0 slot)
    (LightmapRaytracePC.mk pair.1.X pair.1.Y bakeImageSize
      (heap pair.1.Tile).AtlasLocation.Width (heap pair.1.Tile).AtlasLocation.Height pair.2)

/-- One store per (tile, surface) pair of the given tiles, at consecutive
slots from `startPos` on. -/
def expectedDrawWrites (mesh : LevelMesh) (bakeImageSize : Nat) (heap : TileHeap)
    (startPos : Nat) (l : List SelectedTile) : List DrawIndexedWrite :=
  ((renderPairs mesh l).enumFrom startPos).map fun kp =>
    drawWriteAt mesh bakeImageSize heap kp.1 kp.2

/-- The selected tiles marked `Rendered`. -/
def renderedTiles (l : List SelectedTile) : List SelectedTile :=
  l.filter fun s => s.Rendered = true

/-- The rendered selected tiles whose tile lies on atlas page `page`, in
selection order. -/
def pageTiles (heap : TileHeap) (l : List SelectedTile) (page : Nat) : List SelectedTile :=
  l.filter fun s => s.Rendered && decide ((heap s.Tile).AtlasLocation.ArrayIndex = page)

/-- The rendered selected tiles page by page, pages ascending and within a
page in selection order. -/
def tilesByPage (heap : TileHeap) (l : List SelectedTile) (numPages : Nat) : List SelectedTile :=
  (List.range numPages).flatMap (pageTiles heap l)

/-- The copy info of a selected tile: its place in the bake image and the
place and size of its tile in the atlas. -/
def copyInfoOf (heap : TileHeap) (s : SelectedTile) : CopyTileInfo :=
  CopyTileInfo.mk s.X s.Y (heap s.Tile).AtlasLocation.X (heap s.Tile).AtlasLocation.Y
    (heap s.Tile).AtlasLocation.Width (heap s.Tile).AtlasLocation.Height

/-- One store per tile of the list, at consecutive slots from `startPos` on. -/
def expectedCopyWrites (heap : TileHeap) (startPos : Nat) (l : List SelectedTile) :
    List CopyTileWrite :=
  (l.enumFrom startPos).map fun ks => CopyTileWrite.mk ks.1 (copyInfoOf heap ks.2)

/-- The number of rendered tiles on each of the first `numPages` pages. -/
def pageCounts (heap : TileHeap) (l : List SelectedTile) (numPages : Nat) : List Nat :=
  (List.range numPages).map fun p => (pageTiles heap l p).length

/-- The first slot of page `page`: `startPos` plus the number of rendered
tiles on the pages before it. -/
def pageStart (heap : TileHeap) (l : List SelectedTile) (numPages startPos page : Nat) : Nat :=
  startPos + ((pageCounts heap l numPages).take page).sum

/-- One instanced draw per page that has a rendered tile, pages ascending:
four vertices, one instance per tile of the page, first instance the first
slot of the page. -/
def expectedCopyDraws (heap : TileHeap) (l : List SelectedTile) (numPages startPos : Nat) :
    List Command :=
  (List.range numPages).filterMap fun p =>
    if (pageTiles heap l p).length = 0 then none
    else some (Command.draw 4 (pageTiles heap l p).length 0 (pageStart heap l numPages startPos p))

/-- The draws for a list of per-page tile counts, the first page starting at
slot `pos`. -/
def drawsOfCounts (pos : Nat) (counts : List Nat) : List Command :=
  (List.range counts.length).filterMap fun k =>
    if counts.getD k 0 = 0 then none
    else some (Command.draw 4 (counts.getD k 0) 0 (pos + (counts.take k).sum))

/-- The sum of `Area()` over the rendered selected tiles, without wrapping. -/
def renderedArea (heap : TileHeap) (l : List SelectedTile) : Nat :=
  ((renderedTiles l).map fun s => (heap s.Tile).AtlasLocation.Area).sum

/-- A state for the copy examples: five dirty tiles alternating between atlas
pages 0 and 1, selected and then rendered against `exampleMesh` with room
for all their surfaces. -/
def copyExampleState : VkLightmapper RowPackerState :=
  Render exampleEnv exampleMesh
    (SelectTiles exampleEnv [0, 1, 2, 3, 4] (freshLightmapper (fun t => dirtyTile (t % 2)) 50))

/-- A mesh in which no tile sees any surface. -/
def blindMesh : LevelMesh where
  AmbientOcclusion := true
  SunColor := FVector3.mk 1 1 1
  LightBounce := false
  GetVisibleSurfaces := fun _ => []
  Surfaces := fun i => MeshLocation.mk (3 * i) 3

/-- A freshly constructed lightmapper with room for two indirect draws and two
copy infos, all of whose tiles are dirty 10 x 10 tiles on page 0. -/
def smallCopyBufferState : VkLightmapper RowPackerState :=
  freshLightmapper (fun _ => dirtyTile 0) 2

/-- The copy cursor is kept below the size of the copy buffer by way of the
indirect-draw cursor: `copytiles.Pos <= drawindexed.Pos <=
drawindexed.BufferSize <= copytiles.BufferSize`, and every store so far went
to a slot inside its buffer. -/
def VkLightmapper.CopyFits {σ : Type} (st : VkLightmapper σ) : Prop :=
  st.copytiles.Pos ≤ st.drawindexed.Pos
    ∧ st.drawindexed.Inv
    ∧ st.drawindexed.BufferSize ≤ st.copytiles.BufferSize
    ∧ ∀ w ∈ st.copytiles.writes, w.slot < st.copytiles.BufferSize

/-- A mesh in which tile `t` sees `t + 1` surfaces, so every tile sees at
least one. -/
def sightedMesh : LevelMesh where
  AmbientOcclusion := true
  SunColor := FVector3.mk 1 1 1
  LightBounce := false
  GetVisibleSurfaces := fun t => List.range (t + 1)
  Surfaces := fun i => MeshLocation.mk (3 * i) 3

/-! ## The shader permutation table -/

/-- The string `traceprefix` of `CreateShaders` (lines 532-541). -/
def traceprefix (useRayQuery : Bool) : String :=
  let traceprefix := "#version 460\r\n"
  let traceprefix := traceprefix ++ "#extension GL_GOOGLE_include_directive : enable\n"
  let traceprefix := traceprefix ++ "#extension GL_EXT_nonuniform_qualifier : enable\r\n"
  if useRayQuery = true then
    ( traceprefix ++ "#extension GL_EXT_ray_query : require\r\n") ++ "#define USE_RAYQUERY\r\n"
  else traceprefix

/-- The string `defines` that the loop of `CreateShaders` (lines 561-571)
builds for slot `i`; `i & k` is non-zero when the bit is set. -/
def fragRaytraceDefines (useRayQuery : Bool) (i : Nat) : String :=
  let defines := traceprefix useRayQuery
  let defines := if i &&& 1 ≠ 0 then defines ++ "#define USE_SOFTSHADOWS\n" else defines
  let defines := if i &&& 2 ≠ 0 then defines ++ "#define USE_AO\n" else defines
  let defines := if i &&& 4 ≠ 0 then defines ++ "#define USE_SUNLIGHT\n" else defines
  let defines := if i &&& 8 ≠ 0 then defines ++ "#define USE_BOUNCE\n" else defines
  defines

/-- A fragment shader as handed to the compiler: the named sources in order,
here the "VersionBlock" text and the name of the lump with the shader body. -/
structure FragmentShader where
  versionBlock : String
  lump : String
deriving DecidableEq, Repr

/-- The part of `VkLightmapper::CreateShaders` that fills
`shaders.fragRaytrace[16]` (lines 561-578). -/
def CreateShaders (useRayQuery : Bool) : List FragmentShader :=
  (List.range 16).map fun i =>
    FragmentShader.mk (fragRaytraceDefines useRayQuery i) "shaders/lightmap/frag_raytrace.glsl"

/-- The loop of `VkLightmapper::CreateRaytracePipeline` (lines 692-708):
`raytrace.pipeline[i]` is built with `shaders.fragRaytrace[i]`; the table
holds the fragment shader of each pipeline. -/
def CreateRaytracePipeline (fragRaytrace : List FragmentShader) : List FragmentShader :=
  (List.range 16).map fun i => fragRaytrace.getD i (FragmentShader.mk "" "")

/-- The version block of a shader defines the macro `name`: it has the line
`#define name`. -/
def FragmentShader.Defines (shader : FragmentShader) (name : String) : Prop :=
  ("#define " ++ name ++ "\n").data <:+: shader.versionBlock.data

instance (shader : FragmentShader) (name : String) : Decidable (shader.Defines name) :=
  inferInstanceAs (Decidable (_ <:+: _))

/-- The fragment shader of the pipeline in slot `i` of the table that
`CreateShaders` and `CreateRaytracePipeline` build. -/
def raytracePipelineShader (useRayQuery : Bool) (i : Nat) : FragmentShader :=
  (CreateRaytracePipeline (CreateShaders useRayQuery)).getD i (FragmentShader.mk "" "")

/-! ## The cube face bases -/

/-- The dot product of two vectors. -/
def FVector3.dot (a b : FVector3) : Int :=
  a.X * b.X + a.Y * b.Y + a.Z * b.Z

/-- The determinant of the matrix with columns `a`, `b`, `c`. -/
def FVector3.det (a b c : FVector3) : Int :=
  a.dot (b.cross c)

/-- The push constants of the recorded dispatches, in order. -/
def dispatchPushes (cmds : List ProbeCommand) : List ConvolutePushConstants :=
  cmds.filterMap fun c =>
    match c with
    | ProbeCommand.dispatch _ push _ _ _ => some push
    | _ => none

/-- The vectors `dir`, `side`, `up` of a push-constant block are an
orthonormal basis with determinant `+1`. -/
def ConvolutePushConstants.RightHanded (p : ConvolutePushConstants) : Prop :=
  p.dir.dot p.dir = 1 ∧ p.side.dot p.side = 1 ∧ p.up.dot p.up = 1
    ∧ p.dir.dot p.up = 0 ∧ p.dir.dot p.side = 0 ∧ p.side.dot p.up = 0
    ∧ FVector3.det p.dir p.side p.up = 1

instance (p : ConvolutePushConstants) : Decidable p.RightHanded :=
  inferInstanceAs (Decidable (_ ∧ _))

/-- The basis that the two generators compute for face `i` from a `dir` and an
`up` table: `side = -(dir[i] ^ up[i])`. -/
def faceBasis (dir up : List FVector3) (i : Nat) : ConvolutePushConstants :=
  ConvolutePushConstants.mk (tableAt dir i)
    (FVector3.neg (FVector3.cross (tableAt dir i) (tableAt up i))) (tableAt up i) 0

/-! ## The scratch images of the prefilter map -/

/-- The descriptor set index and the group counts of the recorded dispatches,
in order. -/
def dispatchShapes (cmds : List ProbeCommand) : List (Nat × Nat × Nat × Nat) :=
  cmds.filterMap fun c =>
    match c with
    | ProbeCommand.dispatch descriptorSet _ x y z => some (descriptorSet, x, y, z)
    | _ => none

/-- The recorded image copies, in order. -/
def recordedCopies (cmds : List ProbeCommand) : List ProbeCommand :=
  cmds.filter fun c =>
    match c with
    | ProbeCommand.copyImage _ _ _ _ _ _ => true
    | _ => false

/-- The scratch image that `CreatePrefilterMap` makes for index `idx`: extent
`128 >> (idx % maxlevels)`, one mip level, one layer. -/
def prefilterScratchImage (maxlevels firstHandle idx : Nat) : Option VulkanImage :=
  some (VulkanImage.mk (firstHandle + idx) (128 >>> (idx % maxlevels))
    (128 >>> (idx % maxlevels)) 1 1)

/-- The scratch array while `CreatePrefilterMap` fills it: the first `k`
entries are made, the others are still empty. -/
def prefilterImagesUpTo (maxlevels firstHandle k : Nat) : List (Option VulkanImage) :=
  (List.range k).map (prefilterScratchImage maxlevels firstHandle)
    ++ List.replicate (6 * maxlevels - k) none

/-! ## The uniform buffer -/

/-- The `uniforms` member: the header constants `NumStructs` and `Index`, the
stride that `CreateUniformBuffer` computes and the sizes of the two buffers it
creates. -/
structure UniformsRing where
  NumStructs : Nat
  Index : Nat
  StructStride : Nat
  BufferSize : Nat
  TransferBufferSize : Nat
deriving DecidableEq, Repr

/-- The function `VkLightmapper::CreateUniformBuffer`
(vk_lightmapper.cpp:1038-1054). `sizeofUniforms` is `sizeof(Uniforms)` and
`align` the device limit `minUniformBufferOffsetAlignment`; the arithmetic is
64-bit unsigned (`size_t`, `VkDeviceSize`). A zero `align` divides by zero in
the source; here the quotient is then 0. -/
def CreateUniformBuffer (sizeofUniforms align : Nat) (uniforms : UniformsRing) : UniformsRing :=
  let StructStride :=
    ((((sizeofUniforms + align) % 2 ^ 64 + 2 ^ 64 - 1) % 2 ^ 64) / align * align) % 2 ^ 64
  { uniforms with
    StructStride := StructStride
    BufferSize := (uniforms.NumStructs * StructStride) % 2 ^ 64
    TransferBufferSize := (uniforms.NumStructs * StructStride) % 2 ^ 64 }

/-- A byte range stored into a mapping of `mappedSize` bytes. -/
structure MappedStore where
  mappedSize : Nat
  offset : Nat
  length : Nat
deriving DecidableEq, Repr

/-- The store of `VkLightmapper::UploadUniforms` (lines 273-274): the transfer
buffer is mapped with `NumStructs * StructStride` bytes and one `Uniforms`
struct is written at byte offset `StructStride * Index`. -/
def UploadUniformsStore (sizeofUniforms : Nat) (uniforms : UniformsRing) : MappedStore :=
  MappedStore.mk (uniforms.NumStructs * uniforms.StructStride)
    (uniforms.StructStride * uniforms.Index) sizeofUniforms

/-- A store lies wholly inside its mapping. -/
def MappedStore.Inside (s : MappedStore) : Prop :=
  s.offset + s.length ≤ s.mappedSize

/-! ## The read-back of the BRDF lookup table -/

/-- What the read-back of `GenerateBrdfLut` does: the sizes in bytes of the
staging buffer, of the mapping, of the `memcpy` and of the file, and the bytes
of the file. -/
structure BrdfLutReadback where
  stagingSize : Nat
  mappedSize : Nat
  copiedBytes : Nat
  fileBytes : Nat
  fileByte : Nat → Nat

/-- The read-back part of `VkLightprober::GenerateBrdfLut`
(vk_lightprober.cpp:61-99): the staging buffer of `512 * 512 * 2 *
sizeof(uint16_t)` bytes, whose bytes after the GPU copy are `staging`; the
zero-initialised `std::vector<uint16_t> databuffer(512 * 512 * 2)`; the
mapping of `databuffer.size() * sizeof(uint16_t)` bytes; `memcpy` with the
count `databuffer.size()`; and the write of `databuffer.size() *
sizeof(uint16_t)` bytes of `databuffer` to the file. -/
def GenerateBrdfLut (staging : Nat → Nat) : BrdfLutReadback :=
  let sizeofUint16 := 2
  let stagingSize := 512 * 512 * 2 * sizeofUint16
  let databufferSize := 512 * 512 * 2
  let databuffer : Nat → Nat := fun _ => 0
  let mappedSize := databufferSize * sizeofUint16
  let copiedBytes := databufferSize
  let databuffer : Nat → Nat := fun k => if k < copiedBytes then staging k else databuffer k
  { stagingSize := stagingSize
    mappedSize := mappedSize
    copiedBytes := copiedBytes
    fileBytes := databufferSize * sizeofUint16
    fileByte := databuffer }

/-- The 16-bit value number `j` of the file, little-endian. -/
def BrdfLutReadback.fileValue (r : BrdfLutReadback) (j : Nat) : Nat :=
  r.fileByte (2 * j) + 256 * r.fileByte (2 * j + 1)

/-! ## Include guards -/

/-- A file system with the two headers "common/util.glsl" and
"common_util.glsl" in the first container. -/
def collidingFileSystem : FileSystem where
  CheckNumForFullNameIn0 := fun name =>
    if name = "common/util.glsl" then 1 else if name = "common_util.glsl" then 2 else -1
  CheckNumForFullName := fun name =>
    if name = "common/util.glsl" then 1 else if name = "common_util.glsl" then 2 else -1
  GetStringFromLump := fun lump => if lump = 1 then "float a();" else "float b();"

/-- The first two lines of a wrapped header: the test and the definition of
its guard macro. -/
def guardLines (headerName : String) : String :=
  "#ifndef " ++ IncludeGuardName headerName ++ "\n" ++ "#define " ++ IncludeGuardName headerName
    ++ "\n"

/-! ## The layout transitions of `CopyResult` -/

/-- The image barriers of a recorded pipeline barrier. -/
def Command.barrierImages : Command → Option (List (ImageBarrier LMImage))
  | Command.pipelineBarrier images => some images
  | _ => none

/-- The recorded pipeline barriers, each with its image barriers, in order. -/
def recordedBarriers (cmds : List Command) : List (List (ImageBarrier LMImage)) :=
  cmds.filterMap Command.barrierImages

/-- The atlas pages below `numPages` with at least one rendered selected tile,
ascending. -/
def pagesWithTiles (heap : TileHeap) (l : List SelectedTile) (numPages : Nat) : List Nat :=
  (List.range numPages).filter fun p => decide ((pageTiles heap l p).length > 0)

/-- For each of the given pages a transition of its Light image and of its
Probe image, mip level 0 and array layer 0, colour aspect. -/
def pageBarriers (oldLayout newLayout : VkImageLayout) (pages : List Nat) :
    List (ImageBarrier LMImage) :=
  pages.flatMap fun p =>
    [ AddImage (LMImage.destLight p) oldLayout newLayout VK_IMAGE_ASPECT_COLOR_BIT 0 1 0 1,
      AddImage (LMImage.destProbe p) oldLayout newLayout VK_IMAGE_ASPECT_COLOR_BIT 0 1 0 1 ]

/-- A state for the barrier examples: two tiles on atlas page 1 and none on
page 0, selected and rendered. -/
def pageOneState : VkLightmapper RowPackerState :=
  Render exampleEnv exampleMesh
    (SelectTiles exampleEnv [0, 1] (freshLightmapper (fun _ => dirtyTile 1) 50))

/-- A state with one selected and rendered tile that is 0 texels wide. -/
def emptyTileState : VkLightmapper RowPackerState :=
  Render exampleEnv exampleMesh
    (SelectTiles exampleEnv [0]
      (freshLightmapper
        (fun _ => LightmapTile.mk (TileAtlasLocation.mk 0 0 0 10 0) true true false) 50))

/-! ## The packer's answers -/

/-- The answers of the packer to a sequence of requests `(width, height)`,
made one after the other by `Alloc` from the packer state `p` on. -/
def RectPacker.answers {σ : Type} (P : RectPacker σ) : σ → List (Nat × Nat) → List RectPackerItem
  | _, [] => []
  | p, request :: rest =>
    (P.Alloc p request.1 request.2).2 :: P.answers (P.Alloc p request.1 request.2).1 rest

/-- The packer state after a sequence of requests made from the state `p` on. -/
def RectPacker.after {σ : Type} (P : RectPacker σ) : σ → List (Nat × Nat) → σ
  | p, [] => p
  | p, request :: rest => P.after (P.Alloc p request.1 request.2).1 rest

/-- The rectangles that the packer places on page 0 when it is asked for the
given sizes one after the other from the state `p` on: the answered position
with the requested size. -/
def RectPacker.page0Rects {σ : Type} (P : RectPacker σ) (p : σ) (requests : List (Nat × Nat)) :
    List Rect :=
  ((requests.zip (P.answers p requests)).filter fun ra => ra.2.PageIndex = 0).map fun ra =>
    Rect.mk ra.2.X ra.2.Y ra.1.1 ra.1.2

/-- The guarantee of the packer for the allocations made from the state `p`
on: whatever sizes are requested, every rectangle that `Alloc` returns on page
0 lies inside the `size` x `size` atlas and no two of them, padded by `pad`
texels, overlap. -/
def RectPacker.Sound {σ : Type} (P : RectPacker σ) (p : σ) (size pad : Nat) : Prop :=
  ∀ requests : List (Nat × Nat),
    (∀ r ∈ P.page0Rects p requests, InsideAtlas size r)
    ∧ (P.page0Rects p requests).Pairwise (PaddedDisjoint pad)

/-- The size that `SelectTiles` requests for a logged call. -/
def AllocRecord.request (e : AllocRecord) : Nat × Nat :=
  (e.Width, e.Height)

/-- The dirty tiles of a tile list, in input order. -/
def dirtyTiles (heap : TileHeap) (tiles : List TileId) : List TileId :=
  tiles.filter fun t => (heap t).ReceivedNewLight

/-- The sizes `(AtlasLocation.Width, AtlasLocation.Height)` of a list of
tiles. -/
def tileRequests (heap : TileHeap) (tiles : List TileId) : List (Nat × Nat) :=
  tiles.map fun t => ((heap t).AtlasLocation.Width, (heap t).AtlasLocation.Height)

/-- The selection in the words of the specification, for a tile list without
repetition: the dirty tiles of the list are offered to the packer in input
order, each with its size, and those that `Alloc` answers with page 0 are
selected, at the place answered. -/
def selectedByPacker {σ : Type} (P : RectPacker σ) (p : σ) (heap : TileHeap)
    (tiles : List TileId) : List SelectedTile :=
  (((dirtyTiles heap tiles).zip
      (P.answers p (tileRequests heap (dirtyTiles heap tiles)))).filter
    fun ta => ta.2.PageIndex = 0).map fun ta => SelectedTile.mk ta.1 ta.2.X ta.2.Y false

/-! ## The tail of the loop of `Raytrace`, statement by statement -/

/-- The statements of the `if` body at the end of the loop of `Raytrace`
(lines 117-122) that act on the modelled state; the debug group calls around
the wait are left out. -/
inductive TailStmt where
  | WaitForCommands
  | resetDrawindexedPos
  | clearIsFull
  | resetCopytilesPos
deriving DecidableEq, Repr

/-- What one statement of the tail does: `fb->WaitForCommands(false)` records
the wait, `drawindexed.Pos = 0`, `drawindexed.IsFull = false` and
`copytiles.Pos = 0` assign. -/
def TailStmt.exec {σ : Type} : TailStmt → VkLightmapper σ → VkLightmapper σ
  | TailStmt.WaitForCommands, st => { st with cmds := st.cmds ++ [Command.waitForCommands] }
  | TailStmt.resetDrawindexedPos, st => { st with drawindexed := { st.drawindexed with Pos := 0 } }
  | TailStmt.clearIsFull, st => { st with drawindexed := { st.drawindexed with IsFull := false } }
  | TailStmt.resetCopytilesPos, st => { st with copytiles := { st.copytiles with Pos := 0 } }

/-- The body of the `if` in source order (lines 118-121). -/
def RaytraceResetBody : List TailStmt :=
  [ TailStmt.WaitForCommands, TailStmt.resetDrawindexedPos, TailStmt.clearIsFull,
    TailStmt.resetCopytilesPos ]

/-- The statements that the tail of one loop iteration executes, given the
state that `CopyResult` left (lines 115-122). -/
def RaytraceTail {σ : Type} (st : VkLightmapper σ) : List TailStmt :=
  if st.drawindexed.IsFull = true ∨ st.copytiles.Pos = st.drawindexed.BufferSize then
    RaytraceResetBody
  else []

/-- The run of a statement list: each statement with the state right after
it, in order. -/
def execTrace {σ : Type} : List TailStmt → VkLightmapper σ → List (TailStmt × VkLightmapper σ)
  | [], _ => []
  | stmt :: rest, st => (stmt, stmt.exec st) :: execTrace rest (stmt.exec st)

/-- The state after a statement list. -/
def execAll {σ : Type} (stmts : List TailStmt) (st : VkLightmapper σ) : VkLightmapper σ :=
  stmts.foldl (fun s stmt => stmt.exec s) st

/-- A statement assigns to a cursor or to the fullness flag. -/
def TailStmt.isReset : TailStmt → Bool
  | TailStmt.WaitForCommands => false
  | _ => true

/-- The number of waits for the GPU among the recorded commands. -/
def recordedWaits (cmds : List Command) : Nat :=
  cmds.count Command.waitForCommands

/-- C1, as amended: for every setting and mesh the pipeline index is
`b0 + 2*b1 + 4*b2 + 8*b3` for the four booleans the code combines, where each
toggle is overridden by `RunningAsTool` and the soft-shadow and AO toggles
also need `useRayQuery`; with ray queries on and inputs
(true, false, true, false) the index is 5. -/
theorem GetRaytracePipelineIndex_eq_effective (s : RaytraceSettings) (mesh : MeshLighting) :
    GetRaytracePipelineIndex s mesh = EffectiveIndex s mesh
    ∧ GetRaytracePipelineIndex (RaytraceSettings.mk false true false true false true)
        (MeshLighting.mk false (FVector3.mk 1 1 1) false) = 5 := by
  refine ⟨?_, by decide⟩
  obtain ⟨a, b, c, d, e, f⟩ := s
  obtain ⟨g, v, h⟩ := mesh
  by_cases hv : v = FVector3.mk 0 0 0
  · subst hv
    cases a <;> cases b <;> cases c <;> cases d <;> cases e <;> cases f <;> cases g <;>
      cases h <;> decide
  · have hb : (v != FVector3.mk 0 0 0) = true := by simpa using hv
    simp only [GetRaytracePipelineIndex, EffectiveIndex, hb]
    cases a <;> cases b <;> cases c <;> cases d <;> cases e <;> cases f <;> cases g <;>
      cases h <;> decide

/-- C1, counterexample: the index is not a function of the four toggles alone.
With the soft-shadow and sunlight toggles on, ray queries off and a non-zero
sun colour, the claimed index is 5 and the code returns 4. -/
theorem GetRaytracePipelineIndex_not_toggles :
    ToggleIndex (RaytraceSettings.mk false true false true false false)
        (MeshLighting.mk false (FVector3.mk 1 1 1) false) = 5
    ∧ GetRaytracePipelineIndex (RaytraceSettings.mk false true false true false false)
        (MeshLighting.mk false (FVector3.mk 1 1 1) false) = 4
    ∧ ¬ ∀ (s : RaytraceSettings) (mesh : MeshLighting),
        GetRaytracePipelineIndex s mesh = ToggleIndex s mesh := by
  refine ⟨by decide, by decide, fun h => ?_⟩
  have h1 := h (RaytraceSettings.mk false true false true false false)
    (MeshLighting.mk false (FVector3.mk 1 1 1) false)
  revert h1
  decide

/-! ## The indirect-draw ring buffer -/

theorem RenderSurfaces_Pos (mesh : LevelMesh) (l : List Nat) (pc : LightmapRaytracePC)
    (d : DrawIndexed) : (RenderSurfaces mesh l pc d).Pos = d.Pos + l.length := by
  induction l generalizing pc d with
  | nil => simp [RenderSurfaces]
  | cons a l ih => simp [RenderSurfaces, ih]; omega

theorem RenderSurfaces_BufferSize (mesh : LevelMesh) (l : List Nat) (pc : LightmapRaytracePC)
    (d : DrawIndexed) : (RenderSurfaces mesh l pc d).BufferSize = d.BufferSize := by
  induction l generalizing pc d with
  | nil => simp [RenderSurfaces]
  | cons a l ih => simp [RenderSurfaces, ih]

theorem RenderSurfaces_IsFull (mesh : LevelMesh) (l : List Nat) (pc : LightmapRaytracePC)
    (d : DrawIndexed) : (RenderSurfaces mesh l pc d).IsFull = d.IsFull := by
  induction l generalizing pc d with
  | nil => simp [RenderSurfaces]
  | cons a l ih => simp [RenderSurfaces, ih]

theorem RenderSurfaces_writes_lt (mesh : LevelMesh) (B : Nat) (l : List Nat)
    (pc : LightmapRaytracePC) (d : DrawIndexed)
    (hw : ∀ w ∈ d.writes, w.slot < B) (hp : d.Pos + l.length ≤ B) :
    ∀ w ∈ (RenderSurfaces mesh l pc d).writes, w.slot < B := by
  induction l generalizing pc d with
  | nil => simpa [RenderSurfaces] using hw
  | cons a l ih =>
    simp only [RenderSurfaces]
    apply ih
    · intro w hmem
      simp only [List.mem_append, List.mem_singleton] at hmem
      rcases hmem with hmem | rfl
      · exact hw w hmem
      · simp only [List.length_cons] at hp
        show d.Pos < B
        omega
    · simp only [List.length_cons] at hp
      show d.Pos + 1 + l.length ≤ B
      omega

theorem RenderLoop_BufferSize (mesh : LevelMesh) (sz : Nat) (l : List SelectedTile)
    (heap : TileHeap) (d : DrawIndexed) :
    (RenderLoop mesh sz l heap d).drawindexed.BufferSize = d.BufferSize := by
  induction l generalizing d with
  | nil => simp [RenderLoop]
  | cons s l ih =>
    simp only [RenderLoop]
    split
    · rfl
    · simp [ih, RenderSurfaces_BufferSize]

theorem RenderLoop_Inv (mesh : LevelMesh) (sz : Nat) (l : List SelectedTile)
    (heap : TileHeap) (d : DrawIndexed) (h : d.Inv) :
    (RenderLoop mesh sz l heap d).drawindexed.Inv := by
  induction l generalizing d with
  | nil => simpa [RenderLoop] using h
  | cons s l ih =>
    simp only [RenderLoop]
    split
    · exact h
    · rename_i hlt
      apply ih
      have hlt2 : d.Pos + (mesh.GetVisibleSurfaces s.Tile).length < d.BufferSize := by omega
      refine ⟨?_, ?_⟩
      · rw [RenderSurfaces_Pos, RenderSurfaces_BufferSize]; omega
      · rw [RenderSurfaces_BufferSize]
        exact RenderSurfaces_writes_lt mesh d.BufferSize _ _ d h.2 (by omega)

theorem RingOp_apply_Inv {σ : Type} (env : LightmapperEnv σ) (op : RingOp) (st : VkLightmapper σ)
    (h : st.drawindexed.Inv) :
    (op.apply env st).drawindexed.Inv
    ∧ (op.apply env st).drawindexed.BufferSize = st.drawindexed.BufferSize := by
  cases op with
  | beginFrame =>
    exact ⟨⟨Nat.zero_le _, h.2⟩, rfl⟩
  | render sel mesh =>
    exact ⟨RenderLoop_Inv mesh env.bakeImageSize sel st.heap st.drawindexed h,
      RenderLoop_BufferSize mesh env.bakeImageSize sel st.heap st.drawindexed⟩
  | reset =>
    exact ⟨⟨Nat.zero_le _, h.2⟩, rfl⟩

theorem runRingOps_Inv {σ : Type} (env : LightmapperEnv σ) (ops : List RingOp)
    (st : VkLightmapper σ) (h : st.drawindexed.Inv) :
    (runRingOps env ops st).drawindexed.Inv
    ∧ (runRingOps env ops st).drawindexed.BufferSize = st.drawindexed.BufferSize := by
  induction ops generalizing st with
  | nil => exact ⟨h, rfl⟩
  | cons op ops ih =>
    have h1 := RingOp_apply_Inv env op st h
    have h2 := ih (op.apply env st) h1.1
    exact ⟨h2.1, h2.2.trans h1.2⟩

/-- C2: starting from `drawindexed.Pos = 0` with nothing stored yet, after any
finite sequence of `BeginFrame`, `Render` (on any selected tiles and any mesh)
and loop resets, `0 <= Pos <= BufferSize` holds, the capacity is unchanged and
every store into `Commands` and `Constants` is at a slot below `BufferSize`. -/
theorem drawindexed_cursor_invariant {σ : Type} (env : LightmapperEnv σ) (ops : List RingOp)
    (st : VkLightmapper σ) (hpos : st.drawindexed.Pos = 0) (hw : st.drawindexed.writes = []) :
    0 ≤ (runRingOps env ops st).drawindexed.Pos
    ∧ (runRingOps env ops st).drawindexed.Pos ≤ (runRingOps env ops st).drawindexed.BufferSize
    ∧ (runRingOps env ops st).drawindexed.BufferSize = st.drawindexed.BufferSize
    ∧ ∀ w ∈ (runRingOps env ops st).drawindexed.writes, w.slot < st.drawindexed.BufferSize := by
  have hinv : st.drawindexed.Inv := ⟨by omega, by simp [hw]⟩
  have h := runRingOps_Inv env ops st hinv
  refine ⟨Nat.zero_le _, h.1.1, h.2, ?_⟩
  intro w hmem
  have := h.1.2 w hmem
  rwa [h.2] at this

/-- C2, witness: a frame start, a render that fills the buffer of capacity 5,
the reset and a second render, from a freshly constructed lightmapper. -/
theorem drawindexed_cursor_invariant_witness :
    allDirtyState.drawindexed.Pos = 0
    ∧ allDirtyState.drawindexed.writes = []
    ∧ (0 ≤ (runRingOps exampleEnv exampleRingOps allDirtyState).drawindexed.Pos
      ∧ (runRingOps exampleEnv exampleRingOps allDirtyState).drawindexed.Pos
          ≤ (runRingOps exampleEnv exampleRingOps allDirtyState).drawindexed.BufferSize
      ∧ (runRingOps exampleEnv exampleRingOps allDirtyState).drawindexed.BufferSize
          = allDirtyState.drawindexed.BufferSize
      ∧ ∀ w ∈ (runRingOps exampleEnv exampleRingOps allDirtyState).drawindexed.writes,
          w.slot < allDirtyState.drawindexed.BufferSize) :=
  ⟨rfl, rfl, drawindexed_cursor_invariant exampleEnv exampleRingOps allDirtyState rfl rfl⟩

theorem exampleRingOps_outcome :
    (runRingOps exampleEnv exampleRingOps allDirtyState).drawindexed.Pos = 3
    ∧ (runRingOps exampleEnv exampleRingOps allDirtyState).drawindexed.writes.length = 6 := by
  decide

theorem surfaceCount_nil (mesh : LevelMesh) : surfaceCount mesh [] = 0 := rfl

theorem surfaceCount_cons (mesh : LevelMesh) (s : SelectedTile) (l : List SelectedTile) :
    surfaceCount mesh (s :: l) = (mesh.GetVisibleSurfaces s.Tile).length + surfaceCount mesh l := by
  simp [surfaceCount]

theorem surfaceCount_append (mesh : LevelMesh) (l₁ l₂ : List SelectedTile) :
    surfaceCount mesh (l₁ ++ l₂) = surfaceCount mesh l₁ + surfaceCount mesh l₂ := by
  simp [surfaceCount]

theorem surfacesAt_zero (mesh : LevelMesh) (s : SelectedTile) (l : List SelectedTile) :
    surfacesAt mesh (s :: l) 0 = (mesh.GetVisibleSurfaces s.Tile).length := by
  simp [surfacesAt, surfaceCount]

theorem surfacesAt_succ (mesh : LevelMesh) (s : SelectedTile) (l : List SelectedTile) (k : Nat) :
    surfacesAt mesh (s :: l) (k + 1) = surfacesAt mesh l k := by
  simp [surfacesAt]

theorem posAtTile_zero (mesh : LevelMesh) (p : Nat) (l : List SelectedTile) :
    posAtTile mesh p l 0 = p := by
  simp [posAtTile, surfaceCount]

theorem posAtTile_succ (mesh : LevelMesh) (p : Nat) (s : SelectedTile) (l : List SelectedTile)
    (k : Nat) :
    posAtTile mesh p (s :: l) (k + 1)
      = posAtTile mesh (p + (mesh.GetVisibleSurfaces s.Tile).length) l k := by
  simp [posAtTile, surfaceCount_cons]; omega

theorem reachesTile_zero (mesh : LevelMesh) (B p : Nat) (l : List SelectedTile) :
    reachesTile mesh B p l 0 := by
  intro j hj; omega

theorem reachesTile_succ (mesh : LevelMesh) (B p : Nat) (s : SelectedTile) (l : List SelectedTile)
    (k : Nat) :
    reachesTile mesh B p (s :: l) (k + 1) ↔
      p + (mesh.GetVisibleSurfaces s.Tile).length < B
      ∧ reachesTile mesh B (p + (mesh.GetVisibleSurfaces s.Tile).length) l k := by
  constructor
  · intro h
    refine ⟨?_, ?_⟩
    · have := h 0 (by omega)
      rwa [posAtTile_zero, surfacesAt_zero] at this
    · intro j hj
      have := h (j + 1) (by omega)
      rwa [posAtTile_succ, surfacesAt_succ] at this
  · rintro ⟨h0, h⟩ j hj
    cases j with
    | zero => rwa [posAtTile_zero, surfacesAt_zero]
    | succ j =>
      rw [posAtTile_succ, surfacesAt_succ]
      exact h j (by omega)

theorem RenderLoop_cons_full (mesh : LevelMesh) (sz : Nat) (s : SelectedTile)
    (l : List SelectedTile) (heap : TileHeap) (d : DrawIndexed)
    (h : d.Pos + (mesh.GetVisibleSurfaces s.Tile).length ≥ d.BufferSize) :
    RenderLoop mesh sz (s :: l) heap d
      = RenderLoopResult.mk (s :: l) (MarkNotRendered (s :: l) heap) { d with IsFull := true } := by
  simp only [RenderLoop]
  rw [if_pos h]

theorem RenderLoop_cons_fits (mesh : LevelMesh) (sz : Nat) (s : SelectedTile)
    (l : List SelectedTile) (heap : TileHeap) (d : DrawIndexed)
    (h : d.Pos + (mesh.GetVisibleSurfaces s.Tile).length < d.BufferSize) :
    RenderLoop mesh sz (s :: l) heap d
      = { RenderLoop mesh sz l heap
            (RenderSurfaces mesh (mesh.GetVisibleSurfaces s.Tile)
              (LightmapRaytracePC.mk s.X s.Y sz (heap s.Tile).AtlasLocation.Width
                (heap s.Tile).AtlasLocation.Height 0) d) with
          selectedTiles := s.markRendered ::
            (RenderLoop mesh sz l heap
              (RenderSurfaces mesh (mesh.GetVisibleSurfaces s.Tile)
                (LightmapRaytracePC.mk s.X s.Y sz (heap s.Tile).AtlasLocation.Width
                  (heap s.Tile).AtlasLocation.Height 0) d)).selectedTiles } := by
  simp only [RenderLoop]
  rw [if_neg (by omega)]
  rfl

theorem RenderLoop_IsFull_iff (mesh : LevelMesh) (sz : Nat) (l : List SelectedTile)
    (heap : TileHeap) (d : DrawIndexed) (h0 : d.IsFull = false) :
    (RenderLoop mesh sz l heap d).drawindexed.IsFull = true ↔
      ∃ k, k < l.length ∧ reachesTile mesh d.BufferSize d.Pos l k
        ∧ posAtTile mesh d.Pos l k + surfacesAt mesh l k ≥ d.BufferSize := by
  induction l generalizing d with
  | nil => simp [RenderLoop, h0]
  | cons s l ih =>
    by_cases hfull : d.Pos + (mesh.GetVisibleSurfaces s.Tile).length ≥ d.BufferSize
    · rw [RenderLoop_cons_full mesh sz s l heap d hfull]
      simp only [true_iff]
      refine ⟨0, by simp, reachesTile_zero _ _ _ _, ?_⟩
      rw [posAtTile_zero, surfacesAt_zero]
      exact hfull
    · have hfit : d.Pos + (mesh.GetVisibleSurfaces s.Tile).length < d.BufferSize := by omega
      rw [RenderLoop_cons_fits mesh sz s l heap d hfit]
      simp only
      rw [ih _ (by rw [RenderSurfaces_IsFull]; exact h0), RenderSurfaces_Pos,
        RenderSurfaces_BufferSize]
      constructor
      · rintro ⟨k, hk, hr, ho⟩
        refine ⟨k + 1, by simp; omega, ?_, ?_⟩
        · rw [reachesTile_succ]; exact ⟨hfit, hr⟩
        · rw [posAtTile_succ, surfacesAt_succ]; exact ho
      · rintro ⟨k, hk, hr, ho⟩
        cases k with
        | zero =>
          rw [posAtTile_zero, surfacesAt_zero] at ho
          omega
        | succ k =>
          rw [reachesTile_succ] at hr
          rw [posAtTile_succ, surfacesAt_succ] at ho
          exact ⟨k, by simp at hk; omega, hr.2, ho⟩

/-- C3, as amended: for every call of `Render` that starts with
`drawindexed.IsFull = false`, `IsFull` is set on return if and only if for some
selected tile that the loop reaches, `drawindexed.Pos + n >= BufferSize` at the
moment that tile is processed, `n` being its number of visible surfaces. -/
theorem Render_IsFull_iff {σ : Type} (env : LightmapperEnv σ) (mesh : LevelMesh)
    (st : VkLightmapper σ) (h0 : st.drawindexed.IsFull = false) :
    (Render env mesh st).drawindexed.IsFull = true ↔
      ∃ k, k < st.selectedTiles.length
        ∧ reachesTile mesh st.drawindexed.BufferSize st.drawindexed.Pos st.selectedTiles k
        ∧ posAtTile mesh st.drawindexed.Pos st.selectedTiles k
            + surfacesAt mesh st.selectedTiles k ≥ st.drawindexed.BufferSize :=
  RenderLoop_IsFull_iff mesh env.bakeImageSize st.selectedTiles st.heap st.drawindexed h0

/-- C3, witness: with capacity 2 and one selected tile of two surfaces the
flag is set, and tile 0 is the tile whose append reaches the capacity. -/
theorem Render_IsFull_iff_witness :
    exactFitState.drawindexed.IsFull = false
    ∧ ((Render exampleEnv exampleMesh exactFitState).drawindexed.IsFull = true ↔
      ∃ k, k < exactFitState.selectedTiles.length
        ∧ reachesTile exampleMesh exactFitState.drawindexed.BufferSize
            exactFitState.drawindexed.Pos exactFitState.selectedTiles k
        ∧ posAtTile exampleMesh exactFitState.drawindexed.Pos exactFitState.selectedTiles k
            + surfacesAt exampleMesh exactFitState.selectedTiles k
              ≥ exactFitState.drawindexed.BufferSize) :=
  ⟨by decide, Render_IsFull_iff exampleEnv exampleMesh exactFitState (by decide)⟩

/-- C3, counterexample: with capacity 2, cursor 0 and one selected tile of two
surfaces, `Render` sets `IsFull` although no tile has `Pos + n > BufferSize`:
the append would fill the buffer exactly. -/
theorem Render_IsFull_without_exceeding :
    exactFitState.drawindexed.IsFull = false
    ∧ (Render exampleEnv exampleMesh exactFitState).drawindexed.IsFull = true
    ∧ ¬ ∃ k, k < exactFitState.selectedTiles.length
        ∧ posAtTile exampleMesh exactFitState.drawindexed.Pos exactFitState.selectedTiles k
            + surfacesAt exampleMesh exactFitState.selectedTiles k
              > exactFitState.drawindexed.BufferSize := by
  refine ⟨by decide, by decide, ?_⟩
  rintro ⟨k, hk, h⟩
  have hk0 : k = 0 := by
    have : exactFitState.selectedTiles.length = 1 := by decide
    omega
  subst hk0
  revert h
  decide

/-- The counterexample of C3 does not depend on the capacity: whatever
`BufferSize` is, a selected tile whose surfaces would fill the buffer exactly
sets `IsFull`, and `Pos + n > BufferSize` does not hold for it. -/
theorem Render_IsFull_at_exact_fit {σ : Type} (env : LightmapperEnv σ) (mesh : LevelMesh)
    (st : VkLightmapper σ) (s : SelectedTile) (rest : List SelectedTile)
    (hsel : st.selectedTiles = s :: rest)
    (hfit : st.drawindexed.Pos + (mesh.GetVisibleSurfaces s.Tile).length
      = st.drawindexed.BufferSize) :
    (Render env mesh st).drawindexed.IsFull = true
    ∧ ¬ posAtTile mesh st.drawindexed.Pos st.selectedTiles 0
          + surfacesAt mesh st.selectedTiles 0 > st.drawindexed.BufferSize := by
  refine ⟨?_, ?_⟩
  · show (RenderLoop mesh env.bakeImageSize st.selectedTiles st.heap
      st.drawindexed).drawindexed.IsFull = true
    rw [hsel, RenderLoop_cons_full mesh env.bakeImageSize s rest st.heap st.drawindexed
      (by omega)]
  · rw [hsel, posAtTile_zero, surfacesAt_zero]
    omega

theorem MarkNotRendered_apply (l : List SelectedTile) (heap : TileHeap) (t : TileId) :
    MarkNotRendered l heap t
      = if t ∈ l.map SelectedTile.Tile then { heap t with ReceivedNewLight := true } else heap t := by
  induction l generalizing heap with
  | nil => simp [MarkNotRendered]
  | cons s l ih =>
    simp only [MarkNotRendered, ih, List.map_cons, List.mem_cons]
    by_cases hts : t = s.Tile
    · subst hts
      simp
    · have hne : (Function.update heap s.Tile
          { heap s.Tile with ReceivedNewLight := true }) t = heap t :=
        Function.update_noteq hts _ _
      simp [hts, hne]

theorem RenderSurfaces_writes_length (mesh : LevelMesh) (l : List Nat) (pc : LightmapRaytracePC)
    (d : DrawIndexed) :
    (RenderSurfaces mesh l pc d).writes.length = d.writes.length + l.length := by
  induction l generalizing pc d with
  | nil => simp [RenderSurfaces]
  | cons a l ih => simp [RenderSurfaces, ih]; omega

theorem RenderLoop_backpressure (mesh : LevelMesh) (sz : Nat) (l : List SelectedTile)
    (heap : TileHeap) (d : DrawIndexed) (i : Nat) (hi : i < l.length)
    (hr : reachesTile mesh d.BufferSize d.Pos l i)
    (ho : posAtTile mesh d.Pos l i + surfacesAt mesh l i ≥ d.BufferSize) :
    (RenderLoop mesh sz l heap d).selectedTiles
        = (l.take i).map SelectedTile.markRendered ++ l.drop i
    ∧ (RenderLoop mesh sz l heap d).heap = MarkNotRendered (l.drop i) heap
    ∧ (RenderLoop mesh sz l heap d).drawindexed
        = { (RenderLoop mesh sz (l.take i) heap d).drawindexed with IsFull := true }
    ∧ (RenderLoop mesh sz l heap d).drawindexed.Pos = posAtTile mesh d.Pos l i
    ∧ (RenderLoop mesh sz l heap d).drawindexed.writes.length
        = d.writes.length + surfaceCount mesh (l.take i) := by
  induction l generalizing d i with
  | nil => simp at hi
  | cons s l ih =>
    cases i with
    | zero =>
      rw [posAtTile_zero, surfacesAt_zero] at ho
      rw [RenderLoop_cons_full mesh sz s l heap d ho]
      simp [RenderLoop, posAtTile_zero, surfaceCount_nil]
    | succ i =>
      rw [reachesTile_succ] at hr
      rw [posAtTile_succ, surfacesAt_succ] at ho
      have hi2 : i < l.length := by simp at hi; omega
      rw [RenderLoop_cons_fits mesh sz s l heap d hr.1]
      have hd := RenderSurfaces_Pos mesh (mesh.GetVisibleSurfaces s.Tile)
        (LightmapRaytracePC.mk s.X s.Y sz (heap s.Tile).AtlasLocation.Width
          (heap s.Tile).AtlasLocation.Height 0) d
      have hb := RenderSurfaces_BufferSize mesh (mesh.GetVisibleSurfaces s.Tile)
        (LightmapRaytracePC.mk s.X s.Y sz (heap s.Tile).AtlasLocation.Width
          (heap s.Tile).AtlasLocation.Height 0) d
      have hwl := RenderSurfaces_writes_length mesh (mesh.GetVisibleSurfaces s.Tile)
        (LightmapRaytracePC.mk s.X s.Y sz (heap s.Tile).AtlasLocation.Width
          (heap s.Tile).AtlasLocation.Height 0) d
      obtain ⟨h1, h2, h3, h4, h5⟩ := ih _ i hi2 (by rw [hd, hb]; exact hr.2)
        (by rw [hd, hb]; exact ho)
      refine ⟨?_, ?_, ?_, ?_, ?_⟩
      · simp [h1]
      · simpa using h2
      · simp only [List.take_succ_cons]
        rw [RenderLoop_cons_fits mesh sz s (l.take i) heap d hr.1]
        simpa using h3
      · rw [posAtTile_succ]
        simpa [hd] using h4
      · simp only [List.take_succ_cons, surfaceCount_cons]
        show (RenderLoop mesh sz l heap _).drawindexed.writes.length = _
        rw [h5, hwl]; omega

/-- C8: if, when the selected tile with index `i` is reached, appending its
visible surfaces would overflow the indirect-draw buffer (`Pos + n >=
BufferSize`, which holds in particular when `Pos + n > BufferSize`), then
`Render` stores exactly what it stores for the first `i` tiles alone, so
nothing for tile `i` or a later tile; it sets `ReceivedNewLight` on every
selected tile with index `>= i`, leaves those tiles as they were and so not
`Rendered`, sets `drawindexed.IsFull`, and marks every selected tile with
index `< i` as `Rendered`. -/
theorem Render_backpressure {σ : Type} (env : LightmapperEnv σ) (mesh : LevelMesh)
    (st : VkLightmapper σ) (i : Nat) (hi : i < st.selectedTiles.length)
    (hR : ∀ s ∈ st.selectedTiles, s.Rendered = false)
    (hr : reachesTile mesh st.drawindexed.BufferSize st.drawindexed.Pos st.selectedTiles i)
    (ho : posAtTile mesh st.drawindexed.Pos st.selectedTiles i
            + surfacesAt mesh st.selectedTiles i ≥ st.drawindexed.BufferSize) :
    (Render env mesh st).drawindexed.writes
        = (Render env mesh { st with selectedTiles := st.selectedTiles.take i }).drawindexed.writes
    ∧ (Render env mesh st).drawindexed.writes.length
        = st.drawindexed.writes.length + surfaceCount mesh (st.selectedTiles.take i)
    ∧ (Render env mesh st).drawindexed.Pos
        = posAtTile mesh st.drawindexed.Pos st.selectedTiles i
    ∧ (∀ s ∈ st.selectedTiles.drop i, ((Render env mesh st).heap s.Tile).ReceivedNewLight = true)
    ∧ (Render env mesh st).selectedTiles.drop i = st.selectedTiles.drop i
    ∧ (∀ s ∈ (Render env mesh st).selectedTiles.drop i, s.Rendered = false)
    ∧ (Render env mesh st).drawindexed.IsFull = true
    ∧ (Render env mesh st).selectedTiles.take i
        = (st.selectedTiles.take i).map SelectedTile.markRendered
    ∧ (∀ s ∈ (Render env mesh st).selectedTiles.take i, s.Rendered = true) := by
  obtain ⟨h1, h2, h3, h4, h5⟩ :=
    RenderLoop_backpressure mesh env.bakeImageSize st.selectedTiles st.heap st.drawindexed i hi hr ho
  have hlen : ((st.selectedTiles.take i).map SelectedTile.markRendered).length = i := by
    simp; omega
  have hdrop : (Render env mesh st).selectedTiles.drop i = st.selectedTiles.drop i := by
    show (RenderLoop mesh env.bakeImageSize st.selectedTiles st.heap st.drawindexed).selectedTiles.drop i = _
    rw [h1, List.drop_append_eq_append_drop, hlen]
    simp
  have htake : (Render env mesh st).selectedTiles.take i
      = (st.selectedTiles.take i).map SelectedTile.markRendered := by
    show (RenderLoop mesh env.bakeImageSize st.selectedTiles st.heap st.drawindexed).selectedTiles.take i = _
    rw [h1, List.take_append_eq_append_take, hlen]
    simp
  refine ⟨?_, h5, h4, ?_, hdrop, ?_, ?_, htake, ?_⟩
  · show (RenderLoop mesh env.bakeImageSize st.selectedTiles st.heap st.drawindexed).drawindexed.writes = _
    rw [h3]
    rfl
  · intro s hs
    show ((RenderLoop mesh env.bakeImageSize st.selectedTiles st.heap st.drawindexed).heap s.Tile).ReceivedNewLight = true
    rw [h2, MarkNotRendered_apply, if_pos (List.mem_map_of_mem _ hs)]
  · intro s hs
    rw [hdrop] at hs
    exact hR s (List.mem_of_mem_drop hs)
  · show (RenderLoop mesh env.bakeImageSize st.selectedTiles st.heap st.drawindexed).drawindexed.IsFull = true
    rw [h3]
  · intro s hs
    rw [htake] at hs
    obtain ⟨a, _, rfl⟩ := List.mem_map.1 hs
    rfl

theorem backpressureState_reaches :
    reachesTile exampleMesh backpressureState.drawindexed.BufferSize
      backpressureState.drawindexed.Pos backpressureState.selectedTiles 3 := by
  intro j hj
  interval_cases j <;> decide

/-- C8, witness: with capacity 5 and selected tiles seeing 0, 1, 2 and 3
surfaces, tile 3 is reached at cursor 3 and does not fit. -/
theorem Render_backpressure_witness :
    3 < backpressureState.selectedTiles.length
    ∧ (∀ s ∈ backpressureState.selectedTiles, s.Rendered = false)
    ∧ reachesTile exampleMesh backpressureState.drawindexed.BufferSize
        backpressureState.drawindexed.Pos backpressureState.selectedTiles 3
    ∧ posAtTile exampleMesh backpressureState.drawindexed.Pos backpressureState.selectedTiles 3
        + surfacesAt exampleMesh backpressureState.selectedTiles 3
          ≥ backpressureState.drawindexed.BufferSize
    ∧ ((Render exampleEnv exampleMesh backpressureState).drawindexed.writes
        = (Render exampleEnv exampleMesh
            { backpressureState with
              selectedTiles := backpressureState.selectedTiles.take 3 }).drawindexed.writes
      ∧ (Render exampleEnv exampleMesh backpressureState).drawindexed.writes.length
          = backpressureState.drawindexed.writes.length
            + surfaceCount exampleMesh (backpressureState.selectedTiles.take 3)
      ∧ (Render exampleEnv exampleMesh backpressureState).drawindexed.Pos
          = posAtTile exampleMesh backpressureState.drawindexed.Pos
              backpressureState.selectedTiles 3
      ∧ (∀ s ∈ backpressureState.selectedTiles.drop 3,
          ((Render exampleEnv exampleMesh backpressureState).heap s.Tile).ReceivedNewLight = true)
      ∧ (Render exampleEnv exampleMesh backpressureState).selectedTiles.drop 3
          = backpressureState.selectedTiles.drop 3
      ∧ (∀ s ∈ (Render exampleEnv exampleMesh backpressureState).selectedTiles.drop 3,
          s.Rendered = false)
      ∧ (Render exampleEnv exampleMesh backpressureState).drawindexed.IsFull = true
      ∧ (Render exampleEnv exampleMesh backpressureState).selectedTiles.take 3
          = (backpressureState.selectedTiles.take 3).map SelectedTile.markRendered
      ∧ (∀ s ∈ (Render exampleEnv exampleMesh backpressureState).selectedTiles.take 3,
          s.Rendered = true)) :=
  ⟨by decide, by decide, backpressureState_reaches, by decide,
    Render_backpressure exampleEnv exampleMesh backpressureState 3 (by decide) (by decide)
      backpressureState_reaches (by decide)⟩

/-! ## Tile selection -/

theorem selectedOfLog_cons_page0 (e : AllocRecord) (log : List AllocRecord)
    (h : e.Item.PageIndex = 0) :
    selectedOfLog (e :: log) = SelectedTile.mk e.Tile e.Item.X e.Item.Y false :: selectedOfLog log := by
  simp [selectedOfLog, h]

theorem selectedOfLog_cons_other (e : AllocRecord) (log : List AllocRecord)
    (h : ¬ e.Item.PageIndex = 0) :
    selectedOfLog (e :: log) = selectedOfLog log := by
  simp [selectedOfLog, h]

theorem mem_selectedOfLog_tile {log : List AllocRecord} {t : TileId}
    (h : t ∈ (selectedOfLog log).map SelectedTile.Tile) : t ∈ log.map AllocRecord.Tile := by
  simp only [selectedOfLog, List.mem_map, List.mem_filter] at h ⊢
  obtain ⟨s, ⟨e, ⟨he, _⟩, rfl⟩, rfl⟩ := h
  exact ⟨e, he, rfl⟩

theorem selectedOfLog_Rendered {log : List AllocRecord} {s : SelectedTile}
    (h : s ∈ selectedOfLog log) : s.Rendered = false := by
  simp only [selectedOfLog, List.mem_map, List.mem_filter] at h
  obtain ⟨e, _, rfl⟩ := h
  rfl

theorem SelectTilesLoop_cons_clean {σ : Type} (P : RectPacker σ) (t : TileId) (ts : List TileId)
    (p : σ) (st : VkLightmapper σ) (h : (st.heap t).ReceivedNewLight = false) :
    SelectTilesLoop P (t :: ts) p st = SelectTilesLoop P ts p st := by
  simp only [SelectTilesLoop, h, if_true]

theorem SelectTilesLoop_cons_page0 {σ : Type} (P : RectPacker σ) (t : TileId) (ts : List TileId)
    (p : σ) (st : VkLightmapper σ) (h : (st.heap t).ReceivedNewLight = true)
    (hpage : (P.Alloc p (st.heap t).AtlasLocation.Width
      (st.heap t).AtlasLocation.Height).2.PageIndex = 0) :
    SelectTilesLoop P (t :: ts) p st
      = SelectTilesLoop P ts
          (P.Alloc p (st.heap t).AtlasLocation.Width (st.heap t).AtlasLocation.Height).1
          ((st.logAlloc t (P.Alloc p (st.heap t).AtlasLocation.Width
              (st.heap t).AtlasLocation.Height).2).pushSelected t
            (P.Alloc p (st.heap t).AtlasLocation.Width (st.heap t).AtlasLocation.Height).2) := by
  simp only [SelectTilesLoop, h, hpage, if_true]
  simp

theorem SelectTilesLoop_cons_other {σ : Type} (P : RectPacker σ) (t : TileId) (ts : List TileId)
    (p : σ) (st : VkLightmapper σ) (h : (st.heap t).ReceivedNewLight = true)
    (hpage : ¬ (P.Alloc p (st.heap t).AtlasLocation.Width
      (st.heap t).AtlasLocation.Height).2.PageIndex = 0) :
    SelectTilesLoop P (t :: ts) p st
      = SelectTilesLoop P ts
          (P.Alloc p (st.heap t).AtlasLocation.Width (st.heap t).AtlasLocation.Height).1
          (st.logAlloc t (P.Alloc p (st.heap t).AtlasLocation.Width
              (st.heap t).AtlasLocation.Height).2) := by
  simp only [SelectTilesLoop, h, hpage, if_false]
  simp

theorem clearFlags_ReceivedNewLight (tile : LightmapTile) :
    tile.clearFlags.ReceivedNewLight = false := rfl

/-- What the loop of `SelectTiles` does, in terms of the packer calls it makes. -/
theorem SelectTilesLoop_spec {σ : Type} (P : RectPacker σ) (tiles : List TileId) (p : σ)
    (st : VkLightmapper σ) :
    ∃ newlog : List AllocRecord,
      (SelectTilesLoop P tiles p st).2.allocLog = st.allocLog ++ newlog
      ∧ (SelectTilesLoop P tiles p st).2.selectedTiles = st.selectedTiles ++ selectedOfLog newlog
      ∧ (newlog.map AllocRecord.Tile).Sublist tiles
      ∧ (∀ e ∈ newlog, (st.heap e.Tile).ReceivedNewLight = true
          ∧ e.Width = (st.heap e.Tile).AtlasLocation.Width
          ∧ e.Height = (st.heap e.Tile).AtlasLocation.Height)
      ∧ ((selectedOfLog newlog).map SelectedTile.Tile).Nodup
      ∧ (∀ t, (SelectTilesLoop P tiles p st).2.heap t
          = if t ∈ (selectedOfLog newlog).map SelectedTile.Tile then (st.heap t).clearFlags
            else st.heap t)
      ∧ (∀ t ∈ tiles, (st.heap t).ReceivedNewLight = true → t ∈ newlog.map AllocRecord.Tile) := by
  induction tiles generalizing p st with
  | nil =>
    refine ⟨[], ?_⟩
    simp [SelectTilesLoop, selectedOfLog]
  | cons t ts ih =>
    by_cases hd : (st.heap t).ReceivedNewLight = false
    · obtain ⟨newlog, h1, h2, h3, h4, h5, h6, h7⟩ := ih p st
      rw [SelectTilesLoop_cons_clean P t ts p st hd]
      refine ⟨newlog, h1, h2, h3.cons t, h4, h5, h6, ?_⟩
      intro t' ht' hdirty
      rcases List.mem_cons.1 ht' with rfl | ht'
      · rw [hd] at hdirty; exact absurd hdirty (by simp)
      · exact h7 t' ht' hdirty
    · have hdt : (st.heap t).ReceivedNewLight = true := by simpa using hd
      generalize hres : P.Alloc p (st.heap t).AtlasLocation.Width
        (st.heap t).AtlasLocation.Height = res
      by_cases hpage : res.2.PageIndex = 0
      · -- the tile is selected
        rw [SelectTilesLoop_cons_page0 P t ts p st hdt (by rw [hres]; exact hpage), hres]
        obtain ⟨newlog, h1, h2, h3, h4, h5, h6, h7⟩ := ih res.1
          ((st.logAlloc t res.2).pushSelected t res.2)
        have hheap : ∀ t', ((st.logAlloc t res.2).pushSelected t res.2).heap t'
            = if t' = t then (st.heap t).clearFlags else st.heap t' := by
          intro t'
          show Function.update st.heap t (st.heap t).clearFlags t' = _
          by_cases htt : t' = t
          · subst htt; simp
          · simp [htt, Function.update_noteq htt]
        have hne : ∀ e ∈ newlog, e.Tile ≠ t := by
          intro e he heq
          have := (h4 e he).1
          rw [hheap, if_pos heq, clearFlags_ReceivedNewLight] at this
          exact absurd this (by simp)
        have hnotin : t ∉ (selectedOfLog newlog).map SelectedTile.Tile := by
          intro hmem
          obtain ⟨e, he, heq⟩ := List.mem_map.1 (mem_selectedOfLog_tile hmem)
          exact hne e he heq
        refine ⟨AllocRecord.mk t (st.heap t).AtlasLocation.Width (st.heap t).AtlasLocation.Height
          res.2 :: newlog, ?_, ?_, ?_, ?_, ?_, ?_, ?_⟩
        · rw [h1]
          show (st.allocLog ++ [_]) ++ newlog = _
          simp
        · rw [h2, selectedOfLog_cons_page0 _ _ hpage]
          show (st.selectedTiles ++ [_]) ++ _ = _
          simp
        · simpa using h3.cons₂ t
        · intro e he
          rcases List.mem_cons.1 he with rfl | he
          · exact ⟨hdt, rfl, rfl⟩
          · have := h4 e he
            rw [hheap, if_neg (hne e he)] at this
            exact this
        · rw [selectedOfLog_cons_page0 _ _ hpage]
          simp only [List.map_cons, List.nodup_cons]
          exact ⟨hnotin, h5⟩
        · intro t'
          rw [h6 t', selectedOfLog_cons_page0 _ _ hpage, hheap]
          by_cases htt : t' = t
          · subst htt
            simp [hnotin]
          · simp [htt]
        · intro t' ht' hdirty
          by_cases htt : t' = t
          · subst htt; simp
          · rcases List.mem_cons.1 ht' with rfl | ht'
            · exact absurd rfl htt
            · have := h7 t' ht' (by rw [hheap, if_neg htt]; exact hdirty)
              simp only [List.map_cons, List.mem_cons]
              exact Or.inr this
      · -- the tile does not fit on page 0
        rw [SelectTilesLoop_cons_other P t ts p st hdt (by rw [hres]; exact hpage), hres]
        obtain ⟨newlog, h1, h2, h3, h4, h5, h6, h7⟩ := ih res.1 (st.logAlloc t res.2)
        refine ⟨AllocRecord.mk t (st.heap t).AtlasLocation.Width (st.heap t).AtlasLocation.Height
          res.2 :: newlog, ?_, ?_, ?_, ?_, ?_, ?_, ?_⟩
        · rw [h1]
          show (st.allocLog ++ [_]) ++ newlog = _
          simp
        · rw [h2, selectedOfLog_cons_other _ _ hpage]
          rfl
        · simpa using h3.cons₂ t
        · intro e he
          rcases List.mem_cons.1 he with rfl | he
          · exact ⟨hdt, rfl, rfl⟩
          · exact h4 e he
        · rw [selectedOfLog_cons_other _ _ hpage]; exact h5
        · intro t'
          rw [h6 t', selectedOfLog_cons_other _ _ hpage]
          rfl
        · intro t' ht' hdirty
          rcases List.mem_cons.1 ht' with rfl | ht'
          · simp
          · simp only [List.map_cons, List.mem_cons]
            exact Or.inr (h7 t' ht' hdirty)

theorem SelectTilesLoop_frame {σ : Type} (P : RectPacker σ) (tiles : List TileId) (p : σ)
    (st : VkLightmapper σ) :
    (SelectTilesLoop P tiles p st).2.drawindexed = st.drawindexed
    ∧ (SelectTilesLoop P tiles p st).2.copytiles = st.copytiles
    ∧ (SelectTilesLoop P tiles p st).2.cmds = st.cmds
    ∧ (SelectTilesLoop P tiles p st).2.copylists = st.copylists := by
  induction tiles generalizing p st with
  | nil => simp [SelectTilesLoop]
  | cons t ts ih =>
    by_cases hd : (st.heap t).ReceivedNewLight = false
    · rw [SelectTilesLoop_cons_clean P t ts p st hd]; exact ih p st
    · have hdt : (st.heap t).ReceivedNewLight = true := by simpa using hd
      by_cases hpage : (P.Alloc p (st.heap t).AtlasLocation.Width
          (st.heap t).AtlasLocation.Height).2.PageIndex = 0
      · rw [SelectTilesLoop_cons_page0 P t ts p st hdt hpage]
        exact ih _ _
      · rw [SelectTilesLoop_cons_other P t ts p st hdt hpage]
        exact ih _ _

theorem SelectTiles_frame {σ : Type} (env : LightmapperEnv σ) (tiles : List TileId)
    (st : VkLightmapper σ) :
    (SelectTiles env tiles st).drawindexed = st.drawindexed
    ∧ (SelectTiles env tiles st).copytiles = st.copytiles
    ∧ (SelectTiles env tiles st).cmds = st.cmds
    ∧ (SelectTiles env tiles st).copylists = st.copylists := by
  exact SelectTilesLoop_frame env.packer tiles (SelectTilesInit env st).1 (SelectTilesInit env st).2

theorem selectedOfLog_tiles_sublist (log : List AllocRecord) :
    ((selectedOfLog log).map SelectedTile.Tile).Sublist (log.map AllocRecord.Tile) := by
  have h : (selectedOfLog log).map SelectedTile.Tile
      = (log.filter fun e => e.Item.PageIndex = 0).map AllocRecord.Tile := by
    simp [selectedOfLog, List.map_map, Function.comp_def]
  rw [h]
  exact (List.filter_sublist log).map _

theorem SelectTiles_spec {σ : Type} (env : LightmapperEnv σ) (tiles : List TileId)
    (st : VkLightmapper σ) :
    (SelectTiles env tiles st).selectedTiles = selectedOfLog (SelectTiles env tiles st).allocLog
    ∧ ((SelectTiles env tiles st).allocLog.map AllocRecord.Tile).Sublist tiles
    ∧ (∀ e ∈ (SelectTiles env tiles st).allocLog, (st.heap e.Tile).ReceivedNewLight = true
        ∧ e.Width = (st.heap e.Tile).AtlasLocation.Width
        ∧ e.Height = (st.heap e.Tile).AtlasLocation.Height)
    ∧ ((SelectTiles env tiles st).selectedTiles.map SelectedTile.Tile).Nodup
    ∧ (∀ t, (SelectTiles env tiles st).heap t
        = if t ∈ (SelectTiles env tiles st).selectedTiles.map SelectedTile.Tile
          then (st.heap t).clearFlags else st.heap t)
    ∧ (∀ t ∈ tiles, (st.heap t).ReceivedNewLight = true
        → t ∈ (SelectTiles env tiles st).allocLog.map AllocRecord.Tile) := by
  obtain ⟨newlog, h1, h2, h3, h4, h5, h6, h7⟩ := SelectTilesLoop_spec env.packer tiles
    (SelectTilesInit env st).1 (SelectTilesInit env st).2
  have e1 : (SelectTiles env tiles st).allocLog = newlog := by
    show (SelectTilesLoop env.packer tiles (SelectTilesInit env st).1
      (SelectTilesInit env st).2).2.allocLog = _
    rw [h1]; rfl
  have e2 : (SelectTiles env tiles st).selectedTiles = selectedOfLog newlog := by
    show (SelectTilesLoop env.packer tiles (SelectTilesInit env st).1
      (SelectTilesInit env st).2).2.selectedTiles = _
    rw [h2]; rfl
  rw [e1, e2]
  exact ⟨rfl, h3, h4, h5, h6, h7⟩

theorem clearFlags_AtlasLocation (tile : LightmapTile) :
    tile.clearFlags.AtlasLocation = tile.AtlasLocation := rfl

theorem SelectTiles_AtlasLocation {σ : Type} (env : LightmapperEnv σ) (tiles : List TileId)
    (st : VkLightmapper σ) (t : TileId) :
    ((SelectTiles env tiles st).heap t).AtlasLocation = (st.heap t).AtlasLocation := by
  rw [(SelectTiles_spec env tiles st).2.2.2.2.1 t]
  split
  · rfl
  · rfl

/-! ## The log of `SelectTiles` is the transcript of the packer -/

/-- The calls that the loop of `SelectTiles` logs are calls of `P.Alloc`, made
one after the other from the packer state the loop starts with: the logged
answers are the packer's answers to the logged requests, and the packer state
the loop ends with is the one after these requests. For a tile list without
repetition the tiles offered are the dirty tiles of the list. -/
theorem SelectTilesLoop_transcript {σ : Type} (P : RectPacker σ) (tiles : List TileId) (p : σ)
    (st : VkLightmapper σ) :
    ∃ newlog : List AllocRecord,
      (SelectTilesLoop P tiles p st).2.allocLog = st.allocLog ++ newlog
      ∧ newlog.map AllocRecord.Item = P.answers p (newlog.map AllocRecord.request)
      ∧ (SelectTilesLoop P tiles p st).1 = P.after p (newlog.map AllocRecord.request)
      ∧ (tiles.Nodup → newlog.map AllocRecord.Tile = dirtyTiles st.heap tiles) := by
  induction tiles generalizing p st with
  | nil =>
    exact ⟨[], by simp [SelectTilesLoop], rfl, rfl, fun _ => rfl⟩
  | cons t ts ih =>
    by_cases hd : (st.heap t).ReceivedNewLight = false
    · obtain ⟨newlog, h1, h2, h3, h4⟩ := ih p st
      rw [SelectTilesLoop_cons_clean P t ts p st hd]
      refine ⟨newlog, h1, h2, h3, ?_⟩
      intro hnd
      rw [h4 (List.nodup_cons.1 hnd).2]
      simp [dirtyTiles, List.filter_cons, hd]
    · have hdt : (st.heap t).ReceivedNewLight = true := by simpa using hd
      have hfilter : ∀ heap' : TileHeap, (∀ u, u ≠ t → heap' u = st.heap u) →
          (t :: ts).Nodup → dirtyTiles st.heap (t :: ts) = t :: dirtyTiles heap' ts := by
        intro heap' hsame hnd
        have hnot : t ∉ ts := (List.nodup_cons.1 hnd).1
        simp only [dirtyTiles, List.filter_cons, hdt, if_true]
        congr 1
        apply List.filter_congr
        intro u hu
        rw [hsame u (fun h => hnot (h ▸ hu))]
      generalize hres : P.Alloc p (st.heap t).AtlasLocation.Width
        (st.heap t).AtlasLocation.Height = res
      by_cases hpage : res.2.PageIndex = 0
      · rw [SelectTilesLoop_cons_page0 P t ts p st hdt (by rw [hres]; exact hpage), hres]
        obtain ⟨newlog, h1, h2, h3, h4⟩ :=
          ih res.1 ((st.logAlloc t res.2).pushSelected t res.2)
        refine ⟨AllocRecord.mk t (st.heap t).AtlasLocation.Width
          (st.heap t).AtlasLocation.Height res.2 :: newlog, ?_, ?_, ?_, ?_⟩
        · rw [h1]
          simp [VkLightmapper.logAlloc, VkLightmapper.pushSelected]
        · simp only [List.map_cons, AllocRecord.request, RectPacker.answers, hres]
          rw [h2]
        · simp only [List.map_cons, AllocRecord.request, RectPacker.after, hres]
          exact h3
        · intro hnd
          rw [List.map_cons, h4 (List.nodup_cons.1 hnd).2]
          symm
          apply hfilter _ _ hnd
          intro u hu
          simp [VkLightmapper.logAlloc, VkLightmapper.pushSelected, Function.update_noteq hu]
      · rw [SelectTilesLoop_cons_other P t ts p st hdt (by rw [hres]; exact hpage), hres]
        obtain ⟨newlog, h1, h2, h3, h4⟩ := ih res.1 (st.logAlloc t res.2)
        refine ⟨AllocRecord.mk t (st.heap t).AtlasLocation.Width
          (st.heap t).AtlasLocation.Height res.2 :: newlog, ?_, ?_, ?_, ?_⟩
        · rw [h1]
          simp [VkLightmapper.logAlloc]
        · simp only [List.map_cons, AllocRecord.request, RectPacker.answers, hres]
          rw [h2]
        · simp only [List.map_cons, AllocRecord.request, RectPacker.after, hres]
          exact h3
        · intro hnd
          rw [List.map_cons, h4 (List.nodup_cons.1 hnd).2]
          symm
          apply hfilter _ _ hnd
          intro u _
          simp [VkLightmapper.logAlloc]

theorem SelectTiles_transcript {σ : Type} (env : LightmapperEnv σ) (tiles : List TileId)
    (st : VkLightmapper σ) :
    (SelectTiles env tiles st).allocLog.map AllocRecord.Item
        = env.packer.answers (PackerInit env st.packer)
            ((SelectTiles env tiles st).allocLog.map AllocRecord.request)
    ∧ (SelectTiles env tiles st).packer
        = some (env.packer.after (PackerInit env st.packer)
            ((SelectTiles env tiles st).allocLog.map AllocRecord.request))
    ∧ (tiles.Nodup →
        (SelectTiles env tiles st).allocLog.map AllocRecord.Tile = dirtyTiles st.heap tiles) := by
  obtain ⟨newlog, h1, h2, h3, h4⟩ := SelectTilesLoop_transcript env.packer tiles
    (SelectTilesInit env st).1 (SelectTilesInit env st).2
  have e1 : (SelectTiles env tiles st).allocLog = newlog := by
    show (SelectTilesLoop env.packer tiles (SelectTilesInit env st).1
      (SelectTilesInit env st).2).2.allocLog = _
    rw [h1]; rfl
  have e2 : (SelectTiles env tiles st).packer
      = some (SelectTilesLoop env.packer tiles (SelectTilesInit env st).1
          (SelectTilesInit env st).2).1 := rfl
  rw [e1, e2, h3]
  exact ⟨h2, rfl, h4⟩

theorem log_requests_of_tiles (heap : TileHeap) (log : List AllocRecord)
    (h : ∀ e ∈ log, e.Width = (heap e.Tile).AtlasLocation.Width
      ∧ e.Height = (heap e.Tile).AtlasLocation.Height) :
    log.map AllocRecord.request = tileRequests heap (log.map AllocRecord.Tile) := by
  simp only [tileRequests, List.map_map]
  apply List.map_congr_left
  intro e he
  obtain ⟨hw, hh⟩ := h e he
  simp [AllocRecord.request, hw, hh]

theorem selectedOfLog_eq_zip (log : List AllocRecord) :
    selectedOfLog log
      = (((log.map AllocRecord.Tile).zip (log.map AllocRecord.Item)).filter
          fun ta => ta.2.PageIndex = 0).map fun ta => SelectedTile.mk ta.1 ta.2.X ta.2.Y false := by
  induction log with
  | nil => rfl
  | cons e log ih =>
    simp only [selectedOfLog, List.map_cons, List.zip_cons_cons, List.filter_cons] at ih ⊢
    by_cases h : e.Item.PageIndex = 0
    · simp only [h, decide_True, if_true, List.map_cons, ih]
    · simp only [h, decide_False, Bool.false_eq_true, if_false, ih]

theorem log_page0_rects_eq_zip (log : List AllocRecord) :
    (log.filter fun e => e.Item.PageIndex = 0).map AllocRecord.rect
      = (((log.map AllocRecord.request).zip (log.map AllocRecord.Item)).filter
          fun ra => ra.2.PageIndex = 0).map fun ra => Rect.mk ra.2.X ra.2.Y ra.1.1 ra.1.2 := by
  induction log with
  | nil => rfl
  | cons e log ih =>
    simp only [List.map_cons, List.zip_cons_cons, List.filter_cons] at ih ⊢
    by_cases h : e.Item.PageIndex = 0
    · simp only [h, decide_True, if_true, List.map_cons, ih]
      rfl
    · simp only [h, decide_False, Bool.false_eq_true, if_false, ih]

/-- The rectangles of the selected tiles are the rectangles that the packer
places on page 0 when asked for the logged sizes. -/
theorem SelectTiles_rects_eq_page0Rects {σ : Type} (env : LightmapperEnv σ)
    (tiles : List TileId) (st : VkLightmapper σ) :
    (SelectTiles env tiles st).selectedTiles.map
        (SelectedTile.rect (SelectTiles env tiles st).heap)
      = env.packer.page0Rects (PackerInit env st.packer)
          ((SelectTiles env tiles st).allocLog.map AllocRecord.request) := by
  obtain ⟨h1, _, h3, _, _, _⟩ := SelectTiles_spec env tiles st
  obtain ⟨t1, _, _⟩ := SelectTiles_transcript env tiles st
  have hrect : ∀ e ∈ (SelectTiles env tiles st).allocLog,
      (SelectedTile.mk e.Tile e.Item.X e.Item.Y false).rect (SelectTiles env tiles st).heap
        = e.rect := by
    intro e he
    obtain ⟨_, hw, hh⟩ := h3 e he
    simp only [SelectedTile.rect, AllocRecord.rect, SelectTiles_AtlasLocation, hw, hh]
  have hmap : (SelectTiles env tiles st).selectedTiles.map
        (SelectedTile.rect (SelectTiles env tiles st).heap)
      = ((SelectTiles env tiles st).allocLog.filter fun e => e.Item.PageIndex = 0).map
          AllocRecord.rect := by
    conv_lhs => rw [h1]
    rw [selectedOfLog, List.map_map]
    apply List.map_congr_left
    intro e he
    exact hrect e (List.mem_of_mem_filter he)
  rw [hmap, log_page0_rects_eq_zip, t1]
  rfl

theorem selectedTiles_eq_selectedByPacker {σ : Type} (env : LightmapperEnv σ)
    (tiles : List TileId) (st : VkLightmapper σ) (hnd : tiles.Nodup) :
    (SelectTiles env tiles st).selectedTiles
      = selectedByPacker env.packer (PackerInit env st.packer) st.heap tiles := by
  obtain ⟨h1, _, h3, _, _, _⟩ := SelectTiles_spec env tiles st
  obtain ⟨t1, _, t3⟩ := SelectTiles_transcript env tiles st
  have hreq := log_requests_of_tiles st.heap (SelectTiles env tiles st).allocLog
    (fun e he => (h3 e he).2)
  conv_lhs => rw [h1]
  rw [selectedOfLog_eq_zip, t1, hreq, t3 hnd]
  rfl

theorem RectPacker.page0Rects_cons {σ : Type} (P : RectPacker σ) (p : σ) (request : Nat × Nat)
    (rest : List (Nat × Nat)) :
    P.page0Rects p (request :: rest)
      = (if (P.Alloc p request.1 request.2).2.PageIndex = 0 then
          [Rect.mk (P.Alloc p request.1 request.2).2.X (P.Alloc p request.1 request.2).2.Y
            request.1 request.2]
         else [])
        ++ P.page0Rects (P.Alloc p request.1 request.2).1 rest := by
  simp only [RectPacker.page0Rects, RectPacker.answers, List.zip_cons_cons, List.filter_cons]
  by_cases h : (P.Alloc p request.1 request.2).2.PageIndex = 0
  · simp only [h, decide_True, if_true, List.map_cons, List.singleton_append]
  · simp only [h, decide_False, Bool.false_eq_true, if_false, List.nil_append]

/-- The one-row packer keeps its guarantee from every state on: a rectangle
it places on page 0 starts at or after the next free column, ends inside the
row, and is followed by the spacing. -/
theorem RowPacker_page0Rects (requests : List (Nat × Nat)) (p : RowPackerState) :
    (∀ r ∈ RowPacker.page0Rects p requests,
      p.nextX ≤ r.X ∧ r.X + r.Width ≤ p.width ∧ r.Y + r.Height ≤ p.height)
    ∧ (RowPacker.page0Rects p requests).Pairwise (PaddedDisjoint p.spacing) := by
  induction requests generalizing p with
  | nil => exact ⟨fun r hr => by simp [RectPacker.page0Rects] at hr, List.Pairwise.nil⟩
  | cons request rest ih =>
    rw [RectPacker.page0Rects_cons]
    by_cases hfit : p.nextX + request.1 ≤ p.width ∧ request.2 ≤ p.height
    · have hal : RowPacker.Alloc p request.1 request.2
          = ({ p with nextX := p.nextX + request.1 + p.spacing },
              RectPackerItem.mk p.nextX 0 0) := by
        simp only [RowPacker, hfit, and_self, if_true]
      obtain ⟨ih1, ih2⟩ := ih { p with nextX := p.nextX + request.1 + p.spacing }
      rw [hal]
      simp only [if_true, List.singleton_append]
      refine ⟨?_, ?_⟩
      · intro r hr
        rcases List.mem_cons.1 hr with rfl | hr
        · exact ⟨Nat.le_refl _, hfit.1, by simpa using hfit.2⟩
        · obtain ⟨a, b, c⟩ := ih1 r hr
          exact ⟨by simp only at a; omega, b, c⟩
      · refine List.Pairwise.cons ?_ ih2
        intro r hr
        obtain ⟨a, _, _⟩ := ih1 r hr
        left
        simpa using a
    · have hal : RowPacker.Alloc p request.1 request.2 = (p, RectPackerItem.mk 0 0 1) := by
        simp only [RowPacker, hfit, if_false]
      rw [hal]
      simp only [Nat.succ_ne_zero, if_false, List.nil_append, OfNat.one_ne_ofNat]
      exact ih p

/-- The one-row packer on a square page keeps the guarantee that `SelectTiles`
relies on, from its initial state and from every cleared state. -/
theorem RowPacker_Sound (size pad nextX : Nat) :
    RowPacker.Sound (RowPackerState.mk size size pad nextX) size pad := by
  intro requests
  obtain ⟨h1, h2⟩ := RowPacker_page0Rects requests (RowPackerState.mk size size pad nextX)
  refine ⟨?_, h2⟩
  intro r hr
  obtain ⟨_, b, c⟩ := h1 r hr
  exact ⟨b, c⟩

/-- C10: `SelectTiles` offers to the packer, by `Alloc` calls made one after
the other from the created or cleared packer on, only tiles that are dirty,
each with its size, in input order, and every dirty tile of the list is
offered; it selects exactly the tiles whose call `Alloc` answers with page 0,
in the order of the calls and at the place answered, each at most once. For a
tile list without repetition the tiles offered are the dirty tiles of the
list, and the selection is the one of the specification. A selected tile has
its three flags cleared and every other tile, in particular a dirty one that
was answered with another page, is unchanged. -/
theorem SelectTiles_selects_dirty_on_page0 {σ : Type} (env : LightmapperEnv σ)
    (tiles : List TileId) (st : VkLightmapper σ) :
    (SelectTiles env tiles st).selectedTiles = selectedOfLog (SelectTiles env tiles st).allocLog
    ∧ (SelectTiles env tiles st).allocLog.map AllocRecord.Item
        = env.packer.answers (PackerInit env st.packer)
            ((SelectTiles env tiles st).allocLog.map AllocRecord.request)
    ∧ (SelectTiles env tiles st).packer
        = some (env.packer.after (PackerInit env st.packer)
            ((SelectTiles env tiles st).allocLog.map AllocRecord.request))
    ∧ (SelectTiles env tiles st).allocLog.map AllocRecord.request
        = tileRequests st.heap ((SelectTiles env tiles st).allocLog.map AllocRecord.Tile)
    ∧ ((SelectTiles env tiles st).allocLog.map AllocRecord.Tile).Sublist tiles
    ∧ (∀ e ∈ (SelectTiles env tiles st).allocLog, (st.heap e.Tile).ReceivedNewLight = true
        ∧ e.Width = (st.heap e.Tile).AtlasLocation.Width
        ∧ e.Height = (st.heap e.Tile).AtlasLocation.Height)
    ∧ (∀ t ∈ tiles, (st.heap t).ReceivedNewLight = true
        → t ∈ (SelectTiles env tiles st).allocLog.map AllocRecord.Tile)
    ∧ ((SelectTiles env tiles st).selectedTiles.map SelectedTile.Tile).Sublist tiles
    ∧ ((SelectTiles env tiles st).selectedTiles.map SelectedTile.Tile).Nodup
    ∧ (∀ t, t ∈ (SelectTiles env tiles st).selectedTiles.map SelectedTile.Tile
        → (SelectTiles env tiles st).heap t = (st.heap t).clearFlags)
    ∧ (∀ t, t ∉ (SelectTiles env tiles st).selectedTiles.map SelectedTile.Tile
        → (SelectTiles env tiles st).heap t = st.heap t)
    ∧ (tiles.Nodup →
        (SelectTiles env tiles st).allocLog.map AllocRecord.Tile = dirtyTiles st.heap tiles
        ∧ (SelectTiles env tiles st).selectedTiles
            = selectedByPacker env.packer (PackerInit env st.packer) st.heap tiles) := by
  obtain ⟨h1, h2, h3, h4, h5, h6⟩ := SelectTiles_spec env tiles st
  obtain ⟨t1, t2, t3⟩ := SelectTiles_transcript env tiles st
  refine ⟨h1, t1, t2, ?_, h2, h3, h6, ?_, h4, ?_, ?_, ?_⟩
  · exact log_requests_of_tiles st.heap _ (fun e he => (h3 e he).2)
  · rw [h1]
    exact (selectedOfLog_tiles_sublist _).trans h2
  · intro t ht
    rw [h5 t, if_pos ht]
  · intro t ht
    rw [h5 t, if_neg ht]
  · intro hnd
    exact ⟨t3 hnd, selectedTiles_eq_selectedByPacker env tiles st hnd⟩

/-- C10, witness: six dirty tiles offered to the one-row packer; the sixth
does not fit on page 0 and stays dirty. -/
theorem SelectTiles_selects_dirty_on_page0_witness :
    [0, 1, 2, 3, 4, 5].Nodup
    ∧ (SelectTiles exampleEnv [0, 1, 2, 3, 4, 5] allDirtyState).selectedTiles
        = selectedByPacker exampleEnv.packer (PackerInit exampleEnv allDirtyState.packer)
            allDirtyState.heap [0, 1, 2, 3, 4, 5]
    ∧ (SelectTiles exampleEnv [0, 1, 2, 3, 4, 5] allDirtyState).allocLog.map AllocRecord.Item
        = exampleEnv.packer.answers (PackerInit exampleEnv allDirtyState.packer)
            ((SelectTiles exampleEnv [0, 1, 2, 3, 4, 5] allDirtyState).allocLog.map
              AllocRecord.request) :=
  ⟨by decide,
    ((SelectTiles_selects_dirty_on_page0 exampleEnv [0, 1, 2, 3, 4, 5]
      allDirtyState).2.2.2.2.2.2.2.2.2.2.2 (by decide)).2,
    (SelectTiles_selects_dirty_on_page0 exampleEnv [0, 1, 2, 3, 4, 5] allDirtyState).2.1⟩

/-- An example for C10: the packer's answers to the six requests, the five
tiles selected and the flags of the sixth. -/
theorem SelectTiles_packer_example :
    exampleEnv.packer.answers (PackerInit exampleEnv allDirtyState.packer)
        (tileRequests allDirtyState.heap (dirtyTiles allDirtyState.heap [0, 1, 2, 3, 4, 5]))
      = [RectPackerItem.mk 0 0 0, RectPackerItem.mk 13 0 0, RectPackerItem.mk 26 0 0,
         RectPackerItem.mk 39 0 0, RectPackerItem.mk 52 0 0, RectPackerItem.mk 0 0 1]
    ∧ (SelectTiles exampleEnv [0, 1, 2, 3, 4, 5] allDirtyState).selectedTiles
      = [SelectedTile.mk 0 0 0 false, SelectedTile.mk 1 13 0 false, SelectedTile.mk 2 26 0 false,
         SelectedTile.mk 3 39 0 false, SelectedTile.mk 4 52 0 false]
    ∧ ((SelectTiles exampleEnv [0, 1, 2, 3, 4, 5] allDirtyState).heap 5).ReceivedNewLight = true
    ∧ ((SelectTiles exampleEnv [0, 1, 2, 3, 4, 5] allDirtyState).heap 4).ReceivedNewLight
        = false := by
  decide

/-- C5: `SelectTiles` copies the packer's placement unchanged and accepts only
page 0. Provided the packer keeps its guarantee from the created or cleared
state on, that is, whatever sizes are requested, every rectangle that `Alloc`
returns on page 0 lies inside the `bakeImageSize` square and no two of them,
padded by the 3-texel spacing, overlap, then after `SelectTiles` no two
selected tiles' padded rectangles `(X, Y, AtlasLocation.Width,
AtlasLocation.Height)` overlap and each lies inside the bake image; the
selected rectangles are the rectangles that `Alloc` placed on page 0 for the
requested sizes, in order. -/
theorem SelectTiles_rectangles {σ : Type} (env : LightmapperEnv σ) (tiles : List TileId)
    (st : VkLightmapper σ)
    (hsound : env.packer.Sound (PackerInit env st.packer) env.bakeImageSize 3) :
    (SelectTiles env tiles st).selectedTiles.Pairwise (fun a b =>
        PaddedDisjoint 3 (a.rect (SelectTiles env tiles st).heap)
          (b.rect (SelectTiles env tiles st).heap))
    ∧ (∀ s ∈ (SelectTiles env tiles st).selectedTiles,
        InsideAtlas env.bakeImageSize (s.rect (SelectTiles env tiles st).heap))
    ∧ (SelectTiles env tiles st).selectedTiles.map (SelectedTile.rect (SelectTiles env tiles st).heap)
        = env.packer.page0Rects (PackerInit env st.packer)
            ((SelectTiles env tiles st).allocLog.map AllocRecord.request)
    ∧ (SelectTiles env tiles st).allocLog.map AllocRecord.Item
        = env.packer.answers (PackerInit env st.packer)
            ((SelectTiles env tiles st).allocLog.map AllocRecord.request)
    ∧ (tiles.Nodup →
        (SelectTiles env tiles st).selectedTiles.map
            (SelectedTile.rect (SelectTiles env tiles st).heap)
          = env.packer.page0Rects (PackerInit env st.packer)
              (tileRequests st.heap (dirtyTiles st.heap tiles))) := by
  have hrects := SelectTiles_rects_eq_page0Rects env tiles st
  obtain ⟨hin, hdis⟩ := hsound ((SelectTiles env tiles st).allocLog.map AllocRecord.request)
  obtain ⟨t1, _, t3⟩ := SelectTiles_transcript env tiles st
  obtain ⟨_, _, h3, _, _, _⟩ := SelectTiles_spec env tiles st
  refine ⟨?_, ?_, hrects, t1, ?_⟩
  · rw [← hrects, List.pairwise_map] at hdis
    exact hdis
  · intro s hs
    apply hin
    rw [← hrects]
    exact List.mem_map_of_mem _ hs
  · intro hnd
    rw [hrects, log_requests_of_tiles st.heap _ (fun e he => (h3 e he).2), t3 hnd]

/-- The same with the guarantee asked only of the rectangles that `Alloc`
places on page 0 for the sizes requested in this call. -/
theorem SelectTiles_rectangles_of_run {σ : Type} (env : LightmapperEnv σ) (tiles : List TileId)
    (st : VkLightmapper σ)
    (hin : ∀ r ∈ env.packer.page0Rects (PackerInit env st.packer)
        ((SelectTiles env tiles st).allocLog.map AllocRecord.request),
      InsideAtlas env.bakeImageSize r)
    (hdis : (env.packer.page0Rects (PackerInit env st.packer)
        ((SelectTiles env tiles st).allocLog.map AllocRecord.request)).Pairwise
      (PaddedDisjoint 3)) :
    (SelectTiles env tiles st).selectedTiles.Pairwise (fun a b =>
        PaddedDisjoint 3 (a.rect (SelectTiles env tiles st).heap)
          (b.rect (SelectTiles env tiles st).heap))
    ∧ (∀ s ∈ (SelectTiles env tiles st).selectedTiles,
        InsideAtlas env.bakeImageSize (s.rect (SelectTiles env tiles st).heap)) := by
  have hrects := SelectTiles_rects_eq_page0Rects env tiles st
  refine ⟨?_, ?_⟩
  · rw [← hrects, List.pairwise_map] at hdis
    exact hdis
  · intro s hs
    apply hin
    rw [← hrects]
    exact List.mem_map_of_mem _ hs

/-- C5, witness: six dirty 10 x 10 tiles offered to the one-row packer on a
64 x 64 bake image, which keeps the guarantee; five are placed on page 0 with
3 texels between them. -/
theorem SelectTiles_rectangles_witness :
    exampleEnv.packer.Sound (PackerInit exampleEnv allDirtyState.packer)
      exampleEnv.bakeImageSize 3
    ∧ ((SelectTiles exampleEnv [0, 1, 2, 3, 4, 5] allDirtyState).selectedTiles.Pairwise (fun a b =>
        PaddedDisjoint 3 (a.rect (SelectTiles exampleEnv [0, 1, 2, 3, 4, 5] allDirtyState).heap)
          (b.rect (SelectTiles exampleEnv [0, 1, 2, 3, 4, 5] allDirtyState).heap))
      ∧ (∀ s ∈ (SelectTiles exampleEnv [0, 1, 2, 3, 4, 5] allDirtyState).selectedTiles,
          InsideAtlas exampleEnv.bakeImageSize
            (s.rect (SelectTiles exampleEnv [0, 1, 2, 3, 4, 5] allDirtyState).heap))) :=
  ⟨RowPacker_Sound 64 3 0,
    (SelectTiles_rectangles exampleEnv [0, 1, 2, 3, 4, 5] allDirtyState
      (RowPacker_Sound 64 3 0)).1,
    (SelectTiles_rectangles exampleEnv [0, 1, 2, 3, 4, 5] allDirtyState
      (RowPacker_Sound 64 3 0)).2.1⟩

theorem SelectTiles_example_selection :
    (SelectTiles exampleEnv [0, 1, 2, 3, 4, 5] allDirtyState).selectedTiles.length = 5
    ∧ (SelectTiles exampleEnv [0, 1, 2, 3, 4, 5] allDirtyState).allocLog.length = 6
    ∧ (SelectTiles exampleEnv [0, 1, 2, 3, 4, 5] allDirtyState).selectedTiles.map
        (SelectedTile.rect (SelectTiles exampleEnv [0, 1, 2, 3, 4, 5] allDirtyState).heap)
      = [Rect.mk 0 0 10 10, Rect.mk 13 0 10 10, Rect.mk 26 0 10 10, Rect.mk 39 0 10 10,
         Rect.mk 52 0 10 10] := by
  decide

/-! ## Selection followed by rendering -/

theorem RenderLoop_shape (mesh : LevelMesh) (sz : Nat) (l : List SelectedTile)
    (heap : TileHeap) (d : DrawIndexed) :
    ∃ i, i ≤ l.length
      ∧ (RenderLoop mesh sz l heap d).selectedTiles
          = (l.take i).map SelectedTile.markRendered ++ l.drop i
      ∧ (RenderLoop mesh sz l heap d).heap = MarkNotRendered (l.drop i) heap := by
  induction l generalizing d with
  | nil => exact ⟨0, by simp, by simp [RenderLoop], by simp [RenderLoop, MarkNotRendered]⟩
  | cons s l ih =>
    by_cases hfull : d.Pos + (mesh.GetVisibleSurfaces s.Tile).length ≥ d.BufferSize
    · rw [RenderLoop_cons_full mesh sz s l heap d hfull]
      exact ⟨0, by simp, by simp, by simp⟩
    · have hfit : d.Pos + (mesh.GetVisibleSurfaces s.Tile).length < d.BufferSize := by omega
      rw [RenderLoop_cons_fits mesh sz s l heap d hfit]
      obtain ⟨i, hi, h1, h2⟩ := ih (RenderSurfaces mesh (mesh.GetVisibleSurfaces s.Tile)
        (LightmapRaytracePC.mk s.X s.Y sz (heap s.Tile).AtlasLocation.Width
          (heap s.Tile).AtlasLocation.Height 0) d)
      refine ⟨i + 1, by simp; omega, ?_, ?_⟩
      · simp [h1]
      · simpa using h2

theorem Render_shape {σ : Type} (env : LightmapperEnv σ) (mesh : LevelMesh)
    (st : VkLightmapper σ) :
    ∃ i, i ≤ st.selectedTiles.length
      ∧ (Render env mesh st).selectedTiles
          = (st.selectedTiles.take i).map SelectedTile.markRendered ++ st.selectedTiles.drop i
      ∧ (Render env mesh st).heap = MarkNotRendered (st.selectedTiles.drop i) st.heap :=
  RenderLoop_shape mesh env.bakeImageSize st.selectedTiles st.heap st.drawindexed

theorem markRendered_Tile (s : SelectedTile) : s.markRendered.Tile = s.Tile := rfl

theorem Render_selected_tiles {σ : Type} (env : LightmapperEnv σ) (mesh : LevelMesh)
    (st : VkLightmapper σ) :
    (Render env mesh st).selectedTiles.map SelectedTile.Tile
      = st.selectedTiles.map SelectedTile.Tile := by
  obtain ⟨i, _, h1, _⟩ := Render_shape env mesh st
  rw [h1, List.map_append, List.map_map]
  have : (SelectedTile.Tile ∘ SelectedTile.markRendered) = SelectedTile.Tile := by
    funext s; rfl
  rw [this, ← List.map_append, List.take_append_drop]

theorem SelectTiles_Rendered {σ : Type} (env : LightmapperEnv σ) (tiles : List TileId)
    (st : VkLightmapper σ) : ∀ s ∈ (SelectTiles env tiles st).selectedTiles, s.Rendered = false := by
  intro s hs
  rw [(SelectTiles_spec env tiles st).1] at hs
  exact selectedOfLog_Rendered hs

theorem SelectTiles_selected_dirty {σ : Type} (env : LightmapperEnv σ) (tiles : List TileId)
    (st : VkLightmapper σ) (t : TileId)
    (ht : t ∈ (SelectTiles env tiles st).selectedTiles.map SelectedTile.Tile) :
    (st.heap t).ReceivedNewLight = true ∧ t ∈ tiles := by
  obtain ⟨h1, h2, h3, _, _, _⟩ := SelectTiles_spec env tiles st
  rw [h1] at ht
  obtain ⟨e, he, rfl⟩ := List.mem_map.1 (mem_selectedOfLog_tile ht)
  exact ⟨(h3 e he).1, h2.subset (List.mem_map_of_mem _ he)⟩

/-- C9: for every tile that had `ReceivedNewLight = true` before an iteration,
after `SelectTiles` followed by `Render` its `ReceivedNewLight` is false if
and only if the tile is among the selected tiles and marked `Rendered`; a tile
that was not dirty is not among the selected tiles, before or after `Render`. -/
theorem dirty_cleared_iff_rendered {σ : Type} (env : LightmapperEnv σ) (mesh : LevelMesh)
    (tiles : List TileId) (st : VkLightmapper σ) (t : TileId)
    (hdirty : (st.heap t).ReceivedNewLight = true) :
    (((Render env mesh (SelectTiles env tiles st)).heap t).ReceivedNewLight = false ↔
      ∃ s ∈ (Render env mesh (SelectTiles env tiles st)).selectedTiles,
        s.Tile = t ∧ s.Rendered = true)
    ∧ (∀ t', (st.heap t').ReceivedNewLight = false →
        (∀ s ∈ (SelectTiles env tiles st).selectedTiles, s.Tile ≠ t')
        ∧ ∀ s ∈ (Render env mesh (SelectTiles env tiles st)).selectedTiles, s.Tile ≠ t') := by
  obtain ⟨i, hi, hsel, hheap⟩ := Render_shape env mesh (SelectTiles env tiles st)
  obtain ⟨_, _, _, hnodup, hh, _⟩ := SelectTiles_spec env tiles st
  have hR := SelectTiles_Rendered env tiles st
  have hsplit : (SelectTiles env tiles st).selectedTiles.map SelectedTile.Tile
      = ((SelectTiles env tiles st).selectedTiles.take i).map SelectedTile.Tile
        ++ ((SelectTiles env tiles st).selectedTiles.drop i).map SelectedTile.Tile := by
    rw [← List.map_append, List.take_append_drop]
  refine ⟨⟨?_, ?_⟩, ?_⟩
  · intro hclean
    rw [hheap, MarkNotRendered_apply] at hclean
    by_cases hdrop : t ∈ ((SelectTiles env tiles st).selectedTiles.drop i).map SelectedTile.Tile
    · rw [if_pos hdrop] at hclean
      exact absurd hclean (by simp)
    · rw [if_neg hdrop, hh t] at hclean
      by_cases hmem : t ∈ (SelectTiles env tiles st).selectedTiles.map SelectedTile.Tile
      · rw [hsplit, List.mem_append] at hmem
        rcases hmem with hmem | hmem
        · obtain ⟨s, hs, rfl⟩ := List.mem_map.1 hmem
          refine ⟨s.markRendered, ?_, rfl, rfl⟩
          rw [hsel]
          exact List.mem_append_left _ (List.mem_map_of_mem _ hs)
        · exact absurd hmem hdrop
      · rw [if_neg hmem, hdirty] at hclean
        exact absurd hclean (by simp)
  · rintro ⟨s, hs, hst, hsr⟩
    rw [hsel, List.mem_append] at hs
    rcases hs with hs | hs
    · obtain ⟨s0, hs0, rfl⟩ := List.mem_map.1 hs
      have htake : t ∈ ((SelectTiles env tiles st).selectedTiles.take i).map SelectedTile.Tile := by
        have hst' : s0.Tile = t := hst
        rw [← hst']
        exact List.mem_map_of_mem _ hs0
      have hnd := hnodup
      rw [hsplit] at hnd
      have hdrop : t ∉ ((SelectTiles env tiles st).selectedTiles.drop i).map SelectedTile.Tile :=
        fun hmem => (List.nodup_append.1 hnd).2.2 htake hmem
      have hmem : t ∈ (SelectTiles env tiles st).selectedTiles.map SelectedTile.Tile := by
        rw [hsplit]; exact List.mem_append_left _ htake
      rw [hheap, MarkNotRendered_apply, if_neg hdrop, hh t, if_pos hmem]
      rfl
    · have := hR s (List.mem_of_mem_drop hs)
      rw [this] at hsr
      exact absurd hsr (by simp)
  · intro t' hclean
    have hnot : t' ∉ (SelectTiles env tiles st).selectedTiles.map SelectedTile.Tile := by
      intro hmem
      have := (SelectTiles_selected_dirty env tiles st t' hmem).1
      rw [hclean] at this
      exact absurd this (by simp)
    refine ⟨?_, ?_⟩
    · intro s hs heq
      exact hnot (heq ▸ List.mem_map_of_mem _ hs)
    · intro s hs heq
      apply hnot
      rw [← Render_selected_tiles env mesh (SelectTiles env tiles st)]
      exact heq ▸ List.mem_map_of_mem _ hs

/-- C9, witness: tile 2 of the all-dirty example is selected and rendered and
so ends clean. -/
theorem dirty_cleared_iff_rendered_witness :
    (allDirtyState.heap 2).ReceivedNewLight = true
    ∧ ((((Render exampleEnv exampleMesh
          (SelectTiles exampleEnv [0, 1, 2, 3, 4, 5] allDirtyState)).heap 2).ReceivedNewLight = false ↔
        ∃ s ∈ (Render exampleEnv exampleMesh
            (SelectTiles exampleEnv [0, 1, 2, 3, 4, 5] allDirtyState)).selectedTiles,
          s.Tile = 2 ∧ s.Rendered = true)
      ∧ (∀ t', (allDirtyState.heap t').ReceivedNewLight = false →
          (∀ s ∈ (SelectTiles exampleEnv [0, 1, 2, 3, 4, 5] allDirtyState).selectedTiles, s.Tile ≠ t')
          ∧ ∀ s ∈ (Render exampleEnv exampleMesh
              (SelectTiles exampleEnv [0, 1, 2, 3, 4, 5] allDirtyState)).selectedTiles,
            s.Tile ≠ t')) :=
  ⟨by decide,
    dirty_cleared_iff_rendered exampleEnv exampleMesh [0, 1, 2, 3, 4, 5] allDirtyState 2 (by decide)⟩

theorem dirty_example_outcome :
    ((Render exampleEnv exampleMesh
        (SelectTiles exampleEnv [0, 1, 2, 3, 4, 5] allDirtyState)).heap 2).ReceivedNewLight = false
    ∧ ((Render exampleEnv exampleMesh
        (SelectTiles exampleEnv [0, 1, 2, 3, 4, 5] allDirtyState)).heap 3).ReceivedNewLight = true
    ∧ ((Render exampleEnv exampleMesh
        (SelectTiles exampleEnv [0, 1, 2, 3, 4, 5] allDirtyState)).heap 5).ReceivedNewLight = true := by
  decide

/-! ## An iteration without dirty tiles -/

theorem SelectTilesLoop_clean {σ : Type} (P : RectPacker σ) (tiles : List TileId) (p : σ)
    (st : VkLightmapper σ) (h : ∀ t ∈ tiles, (st.heap t).ReceivedNewLight = false) :
    SelectTilesLoop P tiles p st = (p, st) := by
  induction tiles with
  | nil => rfl
  | cons t ts ih =>
    rw [SelectTilesLoop_cons_clean P t ts p st (h t (List.mem_cons_self _ _))]
    exact ih fun t' ht' => h t' (List.mem_cons_of_mem _ ht')

theorem SelectTiles_clean {σ : Type} (env : LightmapperEnv σ) (tiles : List TileId)
    (st : VkLightmapper σ) (h : ∀ t ∈ tiles, (st.heap t).ReceivedNewLight = false) :
    (SelectTiles env tiles st).selectedTiles = []
    ∧ (SelectTiles env tiles st).allocLog = []
    ∧ (SelectTiles env tiles st).heap = st.heap
    ∧ (SelectTiles env tiles st).bakeImage = BakeImage.mk 3 3 := by
  have hl := SelectTilesLoop_clean env.packer tiles (SelectTilesInit env st).1
    (SelectTilesInit env st).2 h
  simp only [SelectTiles, hl]
  exact ⟨rfl, rfl, rfl, rfl⟩

theorem recordedDraws_append (a b : List Command) :
    recordedDraws (a ++ b) = recordedDraws a ++ recordedDraws b := by
  simp [recordedDraws]

theorem Render_nothing_selected {σ : Type} (env : LightmapperEnv σ) (mesh : LevelMesh)
    (st : VkLightmapper σ) (h : st.selectedTiles = []) :
    recordedDraws (Render env mesh st).cmds = recordedDraws st.cmds
    ∧ (Render env mesh st).drawindexed = st.drawindexed
    ∧ (Render env mesh st).copytiles = st.copytiles
    ∧ (Render env mesh st).selectedTiles = []
    ∧ (Render env mesh st).heap = st.heap := by
  refine ⟨?_, ?_, ?_, ?_, ?_⟩ <;>
    simp [Render, h, RenderLoop, recordedDraws, Command.isDraw]

theorem Resolve_draws {σ : Type} (st : VkLightmapper σ) :
    recordedDraws (Resolve st).cmds = recordedDraws st.cmds ++ [Command.draw 3 1 0 0]
    ∧ (Resolve st).drawindexed = st.drawindexed
    ∧ (Resolve st).copytiles = st.copytiles
    ∧ (Resolve st).selectedTiles = st.selectedTiles
    ∧ (Resolve st).heap = st.heap := by
  refine ⟨?_, rfl, rfl, rfl, rfl⟩
  simp [Resolve, recordedDraws, Command.isDraw]

theorem CopyResult_nothing_selected {σ : Type} (env : LightmapperEnv σ)
    (st : VkLightmapper σ) (h : st.selectedTiles = []) :
    (CopyResult env st).cmds = st.cmds
    ∧ (CopyResult env st).drawindexed = st.drawindexed
    ∧ (CopyResult env st).copytiles = st.copytiles := by
  simp [CopyResult, h, CopyResultSort]

/-- C4, as amended: for every tile list in which no tile has
`ReceivedNewLight` set, `SelectTiles` followed by `Render`, `Resolve` and
`CopyResult` selects nothing; `Render` and `CopyResult` record no draw command
and `Resolve` records exactly its one full-screen `draw(3, 1, 0, 0)`; the
indirect-draw and copy buffers, with `drawindexed.Pos` and `copytiles.Pos`,
are unchanged. -/
theorem empty_selection_records_only_resolve_draw {σ : Type} (env : LightmapperEnv σ)
    (mesh : LevelMesh) (tiles : List TileId) (st : VkLightmapper σ)
    (hclean : ∀ t ∈ tiles, (st.heap t).ReceivedNewLight = false) :
    (SelectTiles env tiles st).selectedTiles = []
    ∧ recordedDraws (Render env mesh (SelectTiles env tiles st)).cmds = recordedDraws st.cmds
    ∧ recordedDraws (Resolve (Render env mesh (SelectTiles env tiles st))).cmds
        = recordedDraws st.cmds ++ [Command.draw 3 1 0 0]
    ∧ (CopyResult env (Resolve (Render env mesh (SelectTiles env tiles st)))).cmds
        = (Resolve (Render env mesh (SelectTiles env tiles st))).cmds
    ∧ (CopyResult env (Resolve (Render env mesh (SelectTiles env tiles st)))).drawindexed
        = st.drawindexed
    ∧ (CopyResult env (Resolve (Render env mesh (SelectTiles env tiles st)))).copytiles
        = st.copytiles
    ∧ (CopyResult env (Resolve (Render env mesh (SelectTiles env tiles st)))).drawindexed.Pos
        = st.drawindexed.Pos
    ∧ (CopyResult env (Resolve (Render env mesh (SelectTiles env tiles st)))).copytiles.Pos
        = st.copytiles.Pos := by
  obtain ⟨hs, _, _, _⟩ := SelectTiles_clean env tiles st hclean
  obtain ⟨f1, f2, f3, _⟩ := SelectTiles_frame env tiles st
  obtain ⟨r1, r2, r3, r4, _⟩ := Render_nothing_selected env mesh (SelectTiles env tiles st) hs
  obtain ⟨v1, v2, v3, v4, _⟩ := Resolve_draws (Render env mesh (SelectTiles env tiles st))
  obtain ⟨c1, c2, c3⟩ := CopyResult_nothing_selected env
    (Resolve (Render env mesh (SelectTiles env tiles st))) (by rw [v4, r4])
  have hd : (CopyResult env (Resolve (Render env mesh (SelectTiles env tiles st)))).drawindexed
      = st.drawindexed := by rw [c2, v2, r2, f1]
  have hc : (CopyResult env (Resolve (Render env mesh (SelectTiles env tiles st)))).copytiles
      = st.copytiles := by rw [c3, v3, r3, f2]
  refine ⟨hs, ?_, ?_, c1, hd, hc, by rw [hd], by rw [hc]⟩
  · rw [r1, f3]
  · rw [v1, r1, f3]

/-- C4, witness: a freshly constructed lightmapper with clean tiles. -/
theorem empty_selection_records_only_resolve_draw_witness :
    (∀ t ∈ [0, 1, 2], (allCleanState.heap t).ReceivedNewLight = false)
    ∧ ((SelectTiles exampleEnv [0, 1, 2] allCleanState).selectedTiles = []
      ∧ recordedDraws (Render exampleEnv exampleMesh
          (SelectTiles exampleEnv [0, 1, 2] allCleanState)).cmds = recordedDraws allCleanState.cmds
      ∧ recordedDraws (Resolve (Render exampleEnv exampleMesh
          (SelectTiles exampleEnv [0, 1, 2] allCleanState))).cmds
          = recordedDraws allCleanState.cmds ++ [Command.draw 3 1 0 0]
      ∧ (CopyResult exampleEnv (Resolve (Render exampleEnv exampleMesh
          (SelectTiles exampleEnv [0, 1, 2] allCleanState)))).cmds
          = (Resolve (Render exampleEnv exampleMesh
              (SelectTiles exampleEnv [0, 1, 2] allCleanState))).cmds
      ∧ (CopyResult exampleEnv (Resolve (Render exampleEnv exampleMesh
          (SelectTiles exampleEnv [0, 1, 2] allCleanState)))).drawindexed
          = allCleanState.drawindexed
      ∧ (CopyResult exampleEnv (Resolve (Render exampleEnv exampleMesh
          (SelectTiles exampleEnv [0, 1, 2] allCleanState)))).copytiles
          = allCleanState.copytiles
      ∧ (CopyResult exampleEnv (Resolve (Render exampleEnv exampleMesh
          (SelectTiles exampleEnv [0, 1, 2] allCleanState)))).drawindexed.Pos
          = allCleanState.drawindexed.Pos
      ∧ (CopyResult exampleEnv (Resolve (Render exampleEnv exampleMesh
          (SelectTiles exampleEnv [0, 1, 2] allCleanState)))).copytiles.Pos
          = allCleanState.copytiles.Pos) :=
  ⟨by decide,
    empty_selection_records_only_resolve_draw exampleEnv exampleMesh [0, 1, 2] allCleanState
      (by decide)⟩

/-- C4, counterexample: with no dirty tile, `SelectTiles`, `Render`, `Resolve`
and `CopyResult` on a fresh lightmapper do record a draw command, the
full-screen triangle of `Resolve`; the number of recorded draws is 1, not 0. -/
theorem empty_selection_still_draws :
    (∀ t ∈ [0, 1, 2], (allCleanState.heap t).ReceivedNewLight = false)
    ∧ recordedDraws allCleanState.cmds = []
    ∧ recordedDraws (CopyResult exampleEnv (Resolve (Render exampleEnv exampleMesh
        (SelectTiles exampleEnv [0, 1, 2] allCleanState)))).cmds = [Command.draw 3 1 0 0]
    ∧ recordedDraws (CopyResult exampleEnv (Resolve (Render exampleEnv exampleMesh
        (SelectTiles exampleEnv [0, 1, 2] allCleanState)))).cmds ≠ [] := by
  decide

/-! ## Probe arrays -/

theorem EnsureProbe_spec (probes : List (Option VulkanImage)) (K : Nat) (fresh : VulkanImage) :
    (EnsureProbe probes K fresh).1.length = max probes.length (K + 1)
    ∧ (∀ j, j ≠ K → (EnsureProbe probes K fresh).1.getD j none = probes.getD j none)
    ∧ (∀ image, probes.getD K none = some image →
        (EnsureProbe probes K fresh).1.getD K none = some image
        ∧ (EnsureProbe probes K fresh).2 = false)
    ∧ (probes.getD K none = none →
        (EnsureProbe probes K fresh).1.getD K none = some fresh
        ∧ (EnsureProbe probes K fresh).2 = true)
    ∧ ((EnsureProbe probes K fresh).1.getD K none).isSome = true := by
  -- the array after `resize`
  have hres : ∀ j, (if probes.length ≤ K then
        probes ++ List.replicate (K + 1 - probes.length) none else probes).getD j none
      = probes.getD j none := by
    intro j
    split
    · simp only [List.getD_eq_getElem?_getD]
      by_cases hj : j < probes.length
      · rw [List.getElem?_append_left hj]
      · have hjl : probes.length ≤ j := by omega
        rw [List.getElem?_append_right hjl, List.getElem?_replicate,
          List.getElem?_eq_none hjl]
        split <;> rfl
    · rfl
  have hlen : (if probes.length ≤ K then
        probes ++ List.replicate (K + 1 - probes.length) none else probes).length
      = max probes.length (K + 1) := by
    split
    · simp; omega
    · omega
  generalize hr : (if probes.length ≤ K then
    probes ++ List.replicate (K + 1 - probes.length) none else probes) = resized at hres hlen
  have hK : K < resized.length := by omega
  have hdef : EnsureProbe probes K fresh
      = match resized.getD K none with
        | none => (resized.set K (some fresh), true)
        | some _ => (resized, false) := by
    simp only [EnsureProbe, hr]
  cases hget : resized.getD K none with
  | none =>
    rw [hdef, hget]
    have hp : probes.getD K none = none := by rw [← hres K, hget]
    refine ⟨by simp [hlen], ?_, ?_, ?_, ?_⟩
    · intro j hj
      simp only [List.getD_eq_getElem?_getD]
      rw [List.getElem?_set_ne (Ne.symm hj)]
      simpa [List.getD_eq_getElem?_getD] using hres j
    · intro image himg
      rw [hp] at himg
      exact absurd himg (by simp)
    · intro _
      simp [List.getD_eq_getElem?_getD, List.getElem?_set_self hK]
    · simp [List.getD_eq_getElem?_getD, List.getElem?_set_self hK]
  | some image0 =>
    rw [hdef, hget]
    have hp : probes.getD K none = some image0 := by rw [← hres K, hget]
    refine ⟨hlen, fun j _ => hres j, ?_, ?_, ?_⟩
    · intro image himg
      rw [hp] at himg
      exact ⟨by rw [hget]; exact himg, rfl⟩
    · intro hnone
      rw [hp] at hnone
      exact absurd hnone (by simp)
    · rw [hget]; rfl

/-- C7: in `GenerateIrradianceMap` and in `GeneratePrefilterMap`, for every
probe index `K`, the probes array has `max(size, K + 1)` entries afterwards (so
exactly `K + 1` if it held fewer and its old size otherwise, never fewer than
before); every entry other than entry `K` is as before (entries added by the
growth are null); an image already at entry `K` stays that very image and no
image is created; entry `K` is non-null afterwards; and neither call touches
the other map. -/
theorem probes_grow_monotonic (K : Nat) (st : VkLightprober) :
    ((GenerateIrradianceMap K st).irradianceMap.probes.length
        = max st.irradianceMap.probes.length (K + 1)
      ∧ st.irradianceMap.probes.length ≤ (GenerateIrradianceMap K st).irradianceMap.probes.length
      ∧ (∀ j, j ≠ K → (GenerateIrradianceMap K st).irradianceMap.probes.getD j none
          = st.irradianceMap.probes.getD j none)
      ∧ (∀ image, st.irradianceMap.probes.getD K none = some image →
          (GenerateIrradianceMap K st).irradianceMap.probes.getD K none = some image
          ∧ (GenerateIrradianceMap K st).nextHandle = st.nextHandle)
      ∧ ((GenerateIrradianceMap K st).irradianceMap.probes.getD K none).isSome = true
      ∧ (GenerateIrradianceMap K st).prefilterMap = st.prefilterMap)
    ∧ ((GeneratePrefilterMap K st).prefilterMap.probes.length
        = max st.prefilterMap.probes.length (K + 1)
      ∧ st.prefilterMap.probes.length ≤ (GeneratePrefilterMap K st).prefilterMap.probes.length
      ∧ (∀ j, j ≠ K → (GeneratePrefilterMap K st).prefilterMap.probes.getD j none
          = st.prefilterMap.probes.getD j none)
      ∧ (∀ image, st.prefilterMap.probes.getD K none = some image →
          (GeneratePrefilterMap K st).prefilterMap.probes.getD K none = some image
          ∧ (GeneratePrefilterMap K st).nextHandle = st.nextHandle)
      ∧ ((GeneratePrefilterMap K st).prefilterMap.probes.getD K none).isSome = true
      ∧ (GeneratePrefilterMap K st).irradianceMap = st.irradianceMap) := by
  constructor
  · obtain ⟨h1, h2, h3, _, h5⟩ := EnsureProbe_spec st.irradianceMap.probes K
      (VulkanImage.mk st.nextHandle 32 32 1 6)
    refine ⟨h1, ?_, h2, ?_, h5, rfl⟩
    · show _ ≤ (EnsureProbe st.irradianceMap.probes K (VulkanImage.mk st.nextHandle 32 32 1 6)).1.length
      rw [h1]; exact le_max_left _ _
    · intro image himg
      obtain ⟨g1, g2⟩ := h3 image himg
      refine ⟨g1, ?_⟩
      show (if (EnsureProbe st.irradianceMap.probes K (VulkanImage.mk st.nextHandle 32 32 1 6)).2
        = true then st.nextHandle + 1 else st.nextHandle) = st.nextHandle
      rw [g2]; rfl
  · obtain ⟨h1, h2, h3, _, h5⟩ := EnsureProbe_spec st.prefilterMap.probes K
      (VulkanImage.mk st.nextHandle 128 128 st.prefilterMap.maxlevels 6)
    refine ⟨h1, ?_, h2, ?_, h5, rfl⟩
    · show _ ≤ (EnsureProbe st.prefilterMap.probes K
        (VulkanImage.mk st.nextHandle 128 128 st.prefilterMap.maxlevels 6)).1.length
      rw [h1]; exact le_max_left _ _
    · intro image himg
      obtain ⟨g1, g2⟩ := h3 image himg
      refine ⟨g1, ?_⟩
      show (if (EnsureProbe st.prefilterMap.probes K
        (VulkanImage.mk st.nextHandle 128 128 st.prefilterMap.maxlevels 6)).2
        = true then st.nextHandle + 1 else st.nextHandle) = st.nextHandle
      rw [g2]; rfl

/-! ## The loop of `Raytrace` -/

theorem CopyResult_frame {σ : Type} (env : LightmapperEnv σ) (st : VkLightmapper σ) :
    (CopyResult env st).heap = st.heap
    ∧ (CopyResult env st).drawindexed = st.drawindexed
    ∧ (CopyResult env st).selectedTiles = st.selectedTiles
    ∧ (CopyResult env st).copytiles.BufferSize = st.copytiles.BufferSize := by
  simp only [CopyResult]
  split
  · exact ⟨rfl, rfl, rfl, rfl⟩
  · exact ⟨rfl, rfl, rfl, rfl⟩

theorem RaytracePass_frame {σ : Type} (env : LightmapperEnv σ) (mesh : LevelMesh)
    (st : VkLightmapper σ) :
    (RaytracePass env mesh st).heap = (Render env mesh st).heap
    ∧ (RaytracePass env mesh st).drawindexed.BufferSize = st.drawindexed.BufferSize
    ∧ (RaytracePass env mesh st).selectedTiles = (Render env mesh st).selectedTiles := by
  have hb : (Render env mesh st).drawindexed.BufferSize = st.drawindexed.BufferSize :=
    RenderLoop_BufferSize mesh env.bakeImageSize st.selectedTiles st.heap st.drawindexed
  simp only [RaytracePass]
  cases env.lm_blur <;>
    simp only [Bool.false_eq_true, if_false, if_true] <;>
    split <;>
    simp [RaytraceReset, (CopyResult_frame env _).1, (CopyResult_frame env _).2.1,
      (CopyResult_frame env _).2.2.1, Resolve, Blur, hb]

theorem RaytracePass_resets_when_full {σ : Type} (env : LightmapperEnv σ) (mesh : LevelMesh)
    (st : VkLightmapper σ) (h : (Render env mesh st).drawindexed.IsFull = true) :
    (RaytracePass env mesh st).drawindexed.Pos = 0 := by
  simp only [RaytracePass]
  cases env.lm_blur <;>
    simp only [Bool.false_eq_true, if_false, if_true] <;>
    rw [if_pos (Or.inl (by
      rw [(CopyResult_frame env _).2.1]
      exact h))] <;>
    rfl

theorem RaytraceLoop_succ {σ : Type} (env : LightmapperEnv σ) (mesh : LevelMesh)
    (tiles : List TileId) (fuel : Nat) (st : VkLightmapper σ) :
    RaytraceLoop env mesh tiles (fuel + 1) st
      = if (SelectTiles env tiles st).selectedTiles.length = 0 then some (SelectTiles env tiles st)
        else RaytraceLoop env mesh tiles fuel (RaytracePass env mesh (SelectTiles env tiles st)) :=
  rfl

theorem SelectTiles_single_page0 {σ : Type} (env : LightmapperEnv σ) (t : TileId)
    (st : VkLightmapper σ) (hdirty : (st.heap t).ReceivedNewLight = true)
    (hpage : (env.packer.Alloc (PackerInit env st.packer) (st.heap t).AtlasLocation.Width
      (st.heap t).AtlasLocation.Height).2.PageIndex = 0) :
    (SelectTiles env [t] st).selectedTiles
        = [SelectedTile.mk t
            (env.packer.Alloc (PackerInit env st.packer) (st.heap t).AtlasLocation.Width
              (st.heap t).AtlasLocation.Height).2.X
            (env.packer.Alloc (PackerInit env st.packer) (st.heap t).AtlasLocation.Width
              (st.heap t).AtlasLocation.Height).2.Y false]
    ∧ (SelectTiles env [t] st).heap = Function.update st.heap t (st.heap t).clearFlags
    ∧ (SelectTiles env [t] st).drawindexed = st.drawindexed
    ∧ (SelectTiles env [t] st).packer
        = some (env.packer.Alloc (PackerInit env st.packer) (st.heap t).AtlasLocation.Width
            (st.heap t).AtlasLocation.Height).1 := by
  have hl := SelectTilesLoop_cons_page0 env.packer t [] (SelectTilesInit env st).1
    (SelectTilesInit env st).2 hdirty hpage
  refine ⟨?_, ?_, ?_, ?_⟩
  · show (SelectTilesLoop env.packer [t] (SelectTilesInit env st).1
      (SelectTilesInit env st).2).2.selectedTiles = _
    rw [hl]; rfl
  · show (SelectTilesLoop env.packer [t] (SelectTilesInit env st).1
      (SelectTilesInit env st).2).2.heap = _
    rw [hl]; rfl
  · show (SelectTilesLoop env.packer [t] (SelectTilesInit env st).1
      (SelectTilesInit env st).2).2.drawindexed = _
    rw [hl]; rfl
  · show some (SelectTilesLoop env.packer [t] (SelectTilesInit env st).1
      (SelectTilesInit env st).2).1 = _
    rw [hl]; rfl

theorem RaytracePass_packer {σ : Type} (env : LightmapperEnv σ) (mesh : LevelMesh)
    (st : VkLightmapper σ) : (RaytracePass env mesh st).packer = st.packer := by
  simp only [RaytracePass, CopyResult]
  cases env.lm_blur <;>
    simp only [Bool.false_eq_true, if_false, if_true] <;>
    split <;> split <;> rfl

/-- C6, the defect: a dirty tile that the packer places on page 0 whenever it
is the first to be offered, and that sees at least `drawindexed.BufferSize`
surfaces, is selected, found not to fit, marked dirty again and selected
again, for ever: whatever the number of iterations allowed, the loop of
`Raytrace` on the list of that one tile has not left. `Good` is any property
of the packer that the calls preserve. -/
theorem RaytraceLoop_never_leaves {σ : Type} (env : LightmapperEnv σ) (mesh : LevelMesh)
    (t : TileId) (Good : Option σ → Prop) (st : VkLightmapper σ) (fuel : Nat)
    (hgood : Good st.packer)
    (hdirty : (st.heap t).ReceivedNewLight = true)
    (hpage : ∀ po, Good po →
      (env.packer.Alloc (PackerInit env po) (st.heap t).AtlasLocation.Width
        (st.heap t).AtlasLocation.Height).2.PageIndex = 0
      ∧ Good (some (env.packer.Alloc (PackerInit env po) (st.heap t).AtlasLocation.Width
        (st.heap t).AtlasLocation.Height).1))
    (hmany : (mesh.GetVisibleSurfaces t).length ≥ st.drawindexed.BufferSize) :
    RaytraceLoop env mesh [t] fuel st = none := by
  induction fuel generalizing st with
  | zero => rfl
  | succ fuel ih =>
    obtain ⟨s1, s2, s3, s4⟩ := SelectTiles_single_page0 env t st hdirty (hpage _ hgood).1
    rw [RaytraceLoop_succ, if_neg (by rw [s1]; simp)]
    obtain ⟨f1, f2, _⟩ := RaytracePass_frame env mesh (SelectTiles env [t] st)
    have hfull : (SelectTiles env [t] st).drawindexed.Pos
        + (mesh.GetVisibleSurfaces t).length ≥ (SelectTiles env [t] st).drawindexed.BufferSize := by
      rw [s3]; omega
    have hheap : (RaytracePass env mesh (SelectTiles env [t] st)).heap t
        = { (st.heap t).clearFlags with ReceivedNewLight := true } := by
      rw [f1]
      show (RenderLoop mesh env.bakeImageSize (SelectTiles env [t] st).selectedTiles
        (SelectTiles env [t] st).heap (SelectTiles env [t] st).drawindexed).heap t = _
      rw [s1, RenderLoop_cons_full mesh env.bakeImageSize _ [] _ _ hfull]
      simp [MarkNotRendered, s2]
    apply ih
    · rw [RaytracePass_packer, s4]
      exact (hpage _ hgood).2
    · rw [hheap]
    · intro po hpo
      rw [hheap]
      exact hpage po hpo
    · rw [f2, s3]
      exact hmany

/-- C6, the failing input: with capacity 2 and the list of the single dirty
tile 2, which sees two surfaces, `Raytrace` has not returned after any number
of iterations. -/
theorem Raytrace_never_returns_on_oversized_tile :
    (oversizedTileState.heap 2).ReceivedNewLight = true
    ∧ (exampleMesh.GetVisibleSurfaces 2).length ≥ oversizedTileState.drawindexed.BufferSize
    ∧ ∀ fuel, Raytrace exampleEnv (some exampleMesh) [2] fuel oversizedTileState = none := by
  refine ⟨by decide, by decide, fun fuel => ?_⟩
  show RaytraceLoop exampleEnv exampleMesh [2] fuel (UploadUniforms oversizedTileState) = none
  refine RaytraceLoop_never_leaves exampleEnv exampleMesh 2
    (fun po => ∀ p, po = some p → p.width = 64 ∧ p.height = 64)
    (UploadUniforms oversizedTileState) fuel ?_ (by decide) ?_ (by decide)
  · intro p hp
    exact Option.noConfusion hp
  · intro po hpo
    have hinit : (PackerInit exampleEnv po).width = 64 ∧ (PackerInit exampleEnv po).height = 64
        ∧ (PackerInit exampleEnv po).nextX = 0 := by
      cases po with
      | none => exact ⟨rfl, rfl, rfl⟩
      | some p =>
        obtain ⟨hw, hh⟩ := hpo p rfl
        exact ⟨hw, hh, rfl⟩
    obtain ⟨hw, hh, hx⟩ := hinit
    have hfit : (PackerInit exampleEnv po).nextX + 10 ≤ (PackerInit exampleEnv po).width
        ∧ 10 ≤ (PackerInit exampleEnv po).height := by
      rw [hx, hw, hh]; decide
    have halloc : exampleEnv.packer.Alloc (PackerInit exampleEnv po) 10 10
        = ({ PackerInit exampleEnv po with
              nextX := (PackerInit exampleEnv po).nextX + 10 + (PackerInit exampleEnv po).spacing },
            RectPackerItem.mk (PackerInit exampleEnv po).nextX 0 0) := by
      show (if (PackerInit exampleEnv po).nextX + 10 ≤ (PackerInit exampleEnv po).width
        ∧ 10 ≤ (PackerInit exampleEnv po).height then _ else _) = _
      rw [if_pos hfit]
    refine ⟨?_, ?_⟩
    · show (exampleEnv.packer.Alloc (PackerInit exampleEnv po) 10 10).2.PageIndex = 0
      rw [halloc]
    · intro p hp
      have : (exampleEnv.packer.Alloc (PackerInit exampleEnv po) 10 10).1 = p :=
        Option.some.inj hp
      rw [halloc] at this
      subst this
      exact ⟨hw, hh⟩

/-! ## Termination of the loop when every tile fits the empty buffer -/

theorem Render_heap_dirty_was_dirty {σ : Type} (env : LightmapperEnv σ) (mesh : LevelMesh)
    (tiles : List TileId) (st : VkLightmapper σ) (t : TileId)
    (h : ((Render env mesh (SelectTiles env tiles st)).heap t).ReceivedNewLight = true) :
    (st.heap t).ReceivedNewLight = true := by
  obtain ⟨i, _, _, hheap⟩ := Render_shape env mesh (SelectTiles env tiles st)
  obtain ⟨_, _, _, _, hh, _⟩ := SelectTiles_spec env tiles st
  rw [hheap, MarkNotRendered_apply] at h
  by_cases hdrop : t ∈ ((SelectTiles env tiles st).selectedTiles.drop i).map SelectedTile.Tile
  · obtain ⟨s, hs, rfl⟩ := List.mem_map.1 hdrop
    exact (SelectTiles_selected_dirty env tiles st s.Tile
      (List.mem_map_of_mem _ (List.mem_of_mem_drop hs))).1
  · rw [if_neg hdrop, hh t] at h
    split at h
    · rw [clearFlags_ReceivedNewLight] at h
      exact absurd h (by simp)
    · exact h

theorem dirtyCount_le_of_imp (tiles : List TileId) (heap heap' : TileHeap)
    (h : ∀ t, (heap' t).ReceivedNewLight = true → (heap t).ReceivedNewLight = true) :
    dirtyCount tiles heap' ≤ dirtyCount tiles heap := by
  apply Finset.card_le_card
  intro t ht
  simp only [Finset.mem_filter] at ht ⊢
  exact ⟨ht.1, h t ht.2⟩

theorem dirtyCount_lt_of_imp (tiles : List TileId) (heap heap' : TileHeap) (t0 : TileId)
    (h : ∀ t, (heap' t).ReceivedNewLight = true → (heap t).ReceivedNewLight = true)
    (hmem : t0 ∈ tiles) (hwas : (heap t0).ReceivedNewLight = true)
    (hnow : (heap' t0).ReceivedNewLight = false) :
    dirtyCount tiles heap' < dirtyCount tiles heap := by
  apply Finset.card_lt_card
  rw [Finset.ssubset_iff_of_subset]
  · refine ⟨t0, ?_, ?_⟩
    · simp only [Finset.mem_filter, List.mem_toFinset]
      exact ⟨hmem, hwas⟩
    · simp only [Finset.mem_filter, List.mem_toFinset, not_and]
      intro _
      rw [hnow]
      simp
  · intro t ht
    simp only [Finset.mem_filter] at ht ⊢
    exact ⟨ht.1, h t ht.2⟩

/-- One iteration with a non-empty selection makes the measure smaller. -/
theorem RaytracePass_decreases {σ : Type} (env : LightmapperEnv σ) (mesh : LevelMesh)
    (tiles : List TileId) (st : VkLightmapper σ)
    (hvis : ∀ t ∈ tiles, (mesh.GetVisibleSurfaces t).length < st.drawindexed.BufferSize)
    (hne : (SelectTiles env tiles st).selectedTiles ≠ []) :
    loopMeasure tiles (RaytracePass env mesh (SelectTiles env tiles st)) < loopMeasure tiles st := by
  obtain ⟨f1, _, _⟩ := RaytracePass_frame env mesh (SelectTiles env tiles st)
  obtain ⟨d1, _, _, _⟩ := SelectTiles_frame env tiles st
  obtain ⟨_, _, _, hnodup, hh, _⟩ := SelectTiles_spec env tiles st
  have himp : ∀ t, ((RaytracePass env mesh (SelectTiles env tiles st)).heap t).ReceivedNewLight
      = true → (st.heap t).ReceivedNewLight = true := by
    intro t ht
    rw [f1] at ht
    exact Render_heap_dirty_was_dirty env mesh tiles st t ht
  cases hsel : (SelectTiles env tiles st).selectedTiles with
  | nil => exact absurd hsel hne
  | cons s rest =>
    have hsmem : s.Tile ∈ (SelectTiles env tiles st).selectedTiles.map SelectedTile.Tile := by
      rw [hsel]; simp
    obtain ⟨hsdirty, hstiles⟩ := SelectTiles_selected_dirty env tiles st s.Tile hsmem
    by_cases hfull : (SelectTiles env tiles st).drawindexed.Pos
        + (mesh.GetVisibleSurfaces s.Tile).length ≥ (SelectTiles env tiles st).drawindexed.BufferSize
    · -- nothing is rendered: the cursor was not at the start and is reset
      have hIsFull : (Render env mesh (SelectTiles env tiles st)).drawindexed.IsFull = true := by
        show (RenderLoop mesh env.bakeImageSize (SelectTiles env tiles st).selectedTiles
          (SelectTiles env tiles st).heap (SelectTiles env tiles st).drawindexed).drawindexed.IsFull
          = true
        rw [hsel, RenderLoop_cons_full mesh env.bakeImageSize s rest _ _ hfull]
      have hpos0 := RaytracePass_resets_when_full env mesh (SelectTiles env tiles st) hIsFull
      have hposne : st.drawindexed.Pos ≠ 0 := by
        have := hvis s.Tile hstiles
        rw [d1] at hfull
        omega
      have hle := dirtyCount_le_of_imp tiles st.heap
        (RaytracePass env mesh (SelectTiles env tiles st)).heap himp
      simp only [loopMeasure, hpos0, if_true, if_neg hposne]
      omega
    · -- the first tile is rendered and ends clean
      have hfit : (SelectTiles env tiles st).drawindexed.Pos
          + (mesh.GetVisibleSurfaces s.Tile).length
            < (SelectTiles env tiles st).drawindexed.BufferSize := by omega
      have hnotrest : s.Tile ∉ rest.map SelectedTile.Tile := by
        have := hnodup
        rw [hsel, List.map_cons, List.nodup_cons] at this
        exact this.1
      have hclean : ((RaytracePass env mesh (SelectTiles env tiles st)).heap s.Tile).ReceivedNewLight
          = false := by
        rw [f1]
        show ((RenderLoop mesh env.bakeImageSize (SelectTiles env tiles st).selectedTiles
          (SelectTiles env tiles st).heap (SelectTiles env tiles st).drawindexed).heap
            s.Tile).ReceivedNewLight = false
        rw [hsel, RenderLoop_cons_fits mesh env.bakeImageSize s rest _ _ hfit]
        obtain ⟨i, _, _, hheap⟩ := RenderLoop_shape mesh env.bakeImageSize rest
          (SelectTiles env tiles st).heap
          (RenderSurfaces mesh (mesh.GetVisibleSurfaces s.Tile)
            (LightmapRaytracePC.mk s.X s.Y env.bakeImageSize
              ((SelectTiles env tiles st).heap s.Tile).AtlasLocation.Width
              ((SelectTiles env tiles st).heap s.Tile).AtlasLocation.Height 0)
            (SelectTiles env tiles st).drawindexed)
        show ((RenderLoop mesh env.bakeImageSize rest (SelectTiles env tiles st).heap _).heap
          s.Tile).ReceivedNewLight = false
        rw [hheap, MarkNotRendered_apply]
        have hnotdrop : s.Tile ∉ (rest.drop i).map SelectedTile.Tile := by
          intro hmem
          obtain ⟨a, ha, hat⟩ := List.mem_map.1 hmem
          exact hnotrest (hat ▸ List.mem_map_of_mem _ (List.mem_of_mem_drop ha))
        rw [if_neg hnotdrop, hh s.Tile, if_pos hsmem]
        rfl
      have hlt := dirtyCount_lt_of_imp tiles st.heap
        (RaytracePass env mesh (SelectTiles env tiles st)).heap s.Tile himp hstiles hsdirty hclean
      simp only [loopMeasure]
      split <;> split <;> omega

theorem RaytraceLoop_returns_within {σ : Type} (env : LightmapperEnv σ) (mesh : LevelMesh)
    (tiles : List TileId) (n : Nat) (st : VkLightmapper σ)
    (hn : loopMeasure tiles st ≤ n)
    (hvis : ∀ t ∈ tiles, (mesh.GetVisibleSurfaces t).length < st.drawindexed.BufferSize) :
    ∃ st', RaytraceLoop env mesh tiles (n + 1) st = some st' ∧ st'.selectedTiles = [] := by
  induction n generalizing st with
  | zero =>
    rw [RaytraceLoop_succ]
    by_cases hsel : (SelectTiles env tiles st).selectedTiles = []
    · rw [if_pos (by rw [hsel]; rfl)]
      exact ⟨_, rfl, hsel⟩
    · have := RaytracePass_decreases env mesh tiles st hvis hsel
      omega
  | succ n ih =>
    rw [RaytraceLoop_succ]
    by_cases hsel : (SelectTiles env tiles st).selectedTiles = []
    · rw [if_pos (by rw [hsel]; rfl)]
      exact ⟨_, rfl, hsel⟩
    · rw [if_neg (by simpa using hsel)]
      have hdec := RaytracePass_decreases env mesh tiles st hvis hsel
      apply ih
      · omega
      · rw [(RaytracePass_frame env mesh _).2.1, (SelectTiles_frame env tiles st).1]
        exact hvis

/-- C6, the extent of the defect: when every tile of the list sees fewer than
`drawindexed.BufferSize` surfaces, `Raytrace` returns, within
`2 * (number of dirty tiles) + 2` iterations of its loop, and the last
selection is empty. -/
theorem Raytrace_returns_when_tiles_fit {σ : Type} (env : LightmapperEnv σ)
    (mesh : Option LevelMesh) (tiles : List TileId) (st : VkLightmapper σ)
    (hvis : ∀ m, mesh = some m →
      ∀ t ∈ tiles, (m.GetVisibleSurfaces t).length < st.drawindexed.BufferSize) :
    ∃ st', Raytrace env mesh tiles (2 * dirtyCount tiles st.heap + 2) st = some st' := by
  cases mesh with
  | none => exact ⟨st, rfl⟩
  | some m =>
    by_cases ht : tiles.length > 0
    · have hm : loopMeasure tiles (UploadUniforms st) ≤ 2 * dirtyCount tiles st.heap + 1 := by
        simp only [loopMeasure, UploadUniforms]
        split <;> omega
      obtain ⟨st', h, _⟩ := RaytraceLoop_returns_within env m tiles
        (2 * dirtyCount tiles st.heap + 1) (UploadUniforms st) hm (hvis m rfl)
      refine ⟨st', ?_⟩
      simp only [Raytrace, if_pos ht]
      exact h
    · refine ⟨st, ?_⟩
      simp only [Raytrace, if_neg ht]

/-- C6, an instance of the terminating case: four dirty tiles seeing 0, 1, 2
and 3 surfaces and capacity 5. -/
theorem Raytrace_returns_when_tiles_fit_witness :
    (∀ t ∈ [0, 1, 2, 3],
      (exampleMesh.GetVisibleSurfaces t).length < allDirtyState.drawindexed.BufferSize)
    ∧ ∃ st', Raytrace exampleEnv (some exampleMesh) [0, 1, 2, 3]
        (2 * dirtyCount [0, 1, 2, 3] allDirtyState.heap + 2) allDirtyState = some st' :=
  ⟨by decide,
    Raytrace_returns_when_tiles_fit exampleEnv (some exampleMesh) [0, 1, 2, 3] allDirtyState
      (fun m hm => by
        cases hm
        decide)⟩

/-! ## Tool mode, cube faces and barrier defaults -/

/-- C11: when `RunningAsTool` is true in both, two settings that differ in the
runtime toggles `lm_softshadows`, `lm_ao`, `lm_sunlight`, `lm_bounce` and in
`useRayQuery` give the same pipeline index for the same mesh data; the index
is `1 + 2*AmbientOcclusion + 4*(SunColor != 0) + 8*LightBounce`, a function of
the scene-authored settings alone. -/
theorem tool_mode_ignores_toggles (s₁ s₂ : RaytraceSettings) (mesh : MeshLighting)
    (h₁ : s₁.RunningAsTool = true) (h₂ : s₂.RunningAsTool = true) :
    GetRaytracePipelineIndex s₁ mesh = GetRaytracePipelineIndex s₂ mesh
    ∧ GetRaytracePipelineIndex s₁ mesh = ToolModeIndex mesh := by
  have key : ∀ s : RaytraceSettings, s.RunningAsTool = true →
      GetRaytracePipelineIndex s mesh = ToolModeIndex mesh := by
    intro s hs
    obtain ⟨a, b, c, d, e, f⟩ := s
    obtain ⟨g, v, h⟩ := mesh
    simp only at hs
    subst hs
    by_cases hv : v = FVector3.mk 0 0 0
    · subst hv
      cases b <;> cases c <;> cases d <;> cases e <;> cases f <;> cases g <;> cases h <;> decide
    · have hb : (v != FVector3.mk 0 0 0) = true := by simpa using hv
      simp only [GetRaytracePipelineIndex, ToolModeIndex, hb]
      cases b <;> cases c <;> cases d <;> cases e <;> cases f <;> cases g <;> cases h <;> decide
  exact ⟨(key s₁ h₁).trans (key s₂ h₂).symm, key s₁ h₁⟩

/-- C11, witness: all toggles on with ray queries against all toggles off
without, both in tool mode. -/
theorem tool_mode_ignores_toggles_witness :
    (RaytraceSettings.mk true true true true true true).RunningAsTool = true
    ∧ (RaytraceSettings.mk true false false false false false).RunningAsTool = true
    ∧ (GetRaytracePipelineIndex (RaytraceSettings.mk true true true true true true)
          (MeshLighting.mk true (FVector3.mk 1 1 1) false)
        = GetRaytracePipelineIndex (RaytraceSettings.mk true false false false false false)
          (MeshLighting.mk true (FVector3.mk 1 1 1) false)
      ∧ GetRaytracePipelineIndex (RaytraceSettings.mk true true true true true true)
          (MeshLighting.mk true (FVector3.mk 1 1 1) false)
        = ToolModeIndex (MeshLighting.mk true (FVector3.mk 1 1 1) false)) :=
  ⟨rfl, rfl, tool_mode_ignores_toggles _ _ _ rfl rfl⟩

/-- C13, as amended: the direction table of `GenerateIrradianceMap` and of
`GeneratePrefilterMap` lists, for face index 0..5, (1,0,0), (-1,0,0),
(0,-1,0), (0,1,0), (0,0,1), (0,0,-1): the unit vectors of +x, -x, +y, -y, +z,
-z mirrored in the y axis, so that face 2 looks along -y and face 3 along +y.
The two tables are equal and the six dispatches of `GenerateIrradianceMap`
carry these directions in this order. -/
theorem cube_face_directions (K : Nat) (st : VkLightprober) :
    irradianceDir = [FVector3.mk 1 0 0, FVector3.mk (-1) 0 0, FVector3.mk 0 (-1) 0,
      FVector3.mk 0 1 0, FVector3.mk 0 0 1, FVector3.mk 0 0 (-1)]
    ∧ prefilterDir = irradianceDir
    ∧ irradianceDir = axisDirections.map FVector3.flipY
    ∧ dispatchDirs (GenerateIrradianceMap K st).cmds = dispatchDirs st.cmds ++ irradianceDir := by
  refine ⟨rfl, rfl, by decide, ?_⟩
  simp [GenerateIrradianceMap, dispatchDirs, List.filterMap_append, List.range, List.range.loop,
    tableAt, irradianceDir]

/-- C13, counterexample: entry 2 of the direction table is (0,-1,0) and entry
3 is (0,1,0), not the +y and -y unit vectors in that order, in both
functions. -/
theorem cube_face_directions_y_mirrored :
    tableAt irradianceDir 2 = FVector3.mk 0 (-1) 0
    ∧ tableAt irradianceDir 3 = FVector3.mk 0 1 0
    ∧ tableAt prefilterDir 2 = FVector3.mk 0 (-1) 0
    ∧ tableAt prefilterDir 3 = FVector3.mk 0 1 0
    ∧ tableAt irradianceDir 2 ≠ tableAt axisDirections 2
    ∧ tableAt irradianceDir 3 ≠ tableAt axisDirections 3
    ∧ irradianceDir ≠ axisDirections
    ∧ prefilterDir ≠ axisDirections := by
  decide

/-- C16, as amended: `PipelineBarrier::AddImage` called with the aspect and
subresource-range arguments omitted records an image barrier for the color
aspect with `baseMipLevel = 0, levelCount = 1, baseArrayLayer = 0, layerCount
= 1`: it covers mip level 0 of array layer 0 and nothing else, which is the
full resource exactly when the image has at most one mip level and one array
layer or is empty. -/
theorem AddImage_default_range {ι : Type} (image : ι) (oldLayout newLayout : VkImageLayout)
    (target : VulkanImage) (level layer : Nat) :
    (AddImageDefault image oldLayout newLayout).aspectMask = VK_IMAGE_ASPECT_COLOR_BIT
    ∧ (AddImageDefault image oldLayout newLayout).baseMipLevel = 0
    ∧ (AddImageDefault image oldLayout newLayout).levelCount = 1
    ∧ (AddImageDefault image oldLayout newLayout).baseArrayLayer = 0
    ∧ (AddImageDefault image oldLayout newLayout).layerCount = 1
    ∧ ((AddImageDefault image oldLayout newLayout).covers level layer ↔ level = 0 ∧ layer = 0)
    ∧ ((AddImageDefault image oldLayout newLayout).coversAll target ↔
        (target.mipLevels ≤ 1 ∧ target.layerCount ≤ 1)
          ∨ target.mipLevels = 0 ∨ target.layerCount = 0) := by
  have hc : ∀ l a, (AddImageDefault image oldLayout newLayout).covers l a ↔ l = 0 ∧ a = 0 := by
    intro l a
    simp only [ImageBarrier.covers, AddImageDefault, AddImage]
    omega
  refine ⟨rfl, rfl, rfl, rfl, rfl, hc level layer, ?_⟩
  simp only [ImageBarrier.coversAll, hc]
  constructor
  · intro h
    by_cases hm : target.mipLevels = 0
    · exact Or.inr (Or.inl hm)
    · by_cases hl : target.layerCount = 0
      · exact Or.inr (Or.inr hl)
      · left
        constructor
        · by_contra hgt
          have := h 1 0 (by omega) (by omega)
          omega
        · by_contra hgt
          have := h 0 1 (by omega) (by omega)
          omega
  · intro h l a hl ha
    omega

/-- C16, counterexample: for the prefilter probe image, which has two mip
levels and six array layers, the barrier that `AddImage` records when the
range arguments are omitted does not cover mip level 1 nor array layer 1, so
it does not cover the full resource. -/
theorem AddImage_default_not_full_resource :
    ¬ (AddImageDefault (ProbeImage.prefilterProbe 0) VkImageLayout.UNDEFINED
        VkImageLayout.GENERAL).covers 1 0
    ∧ ¬ (AddImageDefault (ProbeImage.prefilterProbe 0) VkImageLayout.UNDEFINED
        VkImageLayout.GENERAL).covers 0 1
    ∧ ¬ (AddImageDefault (ProbeImage.prefilterProbe 0) VkImageLayout.UNDEFINED
        VkImageLayout.GENERAL).coversAll (VulkanImage.mk 0 128 128 2 6) := by
  refine ⟨?_, ?_, ?_⟩
  · simp [ImageBarrier.covers, AddImageDefault, AddImage]
  · simp [ImageBarrier.covers, AddImageDefault, AddImage]
  · intro h
    have := h 1 0 (by decide) (by decide)
    simp [ImageBarrier.covers, AddImageDefault, AddImage] at this

/-! ## Include resolution -/

theorem LoadPrivateShaderLump_eq (fs : FileSystem) (h : String) :
    LoadPrivateShaderLump fs h
      = match ResolveHeader fs h true with
        | none => Except.error (FatalError.unableToLoad h)
        | some lump => Except.ok (fs.GetStringFromLump lump) := by
  simp only [LoadPrivateShaderLump, ResolveHeader, if_true]
  split <;> rfl

theorem LoadPublicShaderLump_eq (fs : FileSystem) (h : String) :
    LoadPublicShaderLump fs h
      = match ResolveHeader fs h false with
        | none => Except.error (FatalError.unableToLoad h)
        | some lump => Except.ok (fs.GetStringFromLump lump) := by
  simp only [LoadPublicShaderLump, ResolveHeader, Bool.false_eq_true, if_false]
  by_cases h0 : fs.CheckNumForFullNameIn0 h = -1
  · simp only [h0, if_true, ne_eq, not_true_eq_false, if_false]
    split <;> rfl
  · simp only [h0, if_false, ne_eq, not_false_eq_true, if_true]

theorem OnInclude_eq (fs : FileSystem) (headerName includerName : String) (depth : Nat)
    (system : Bool) :
    OnInclude fs headerName includerName depth system
      = if depth > 8 then Except.error FatalError.tooMuchIncludeRecursion
        else match ResolveHeader fs headerName system with
          | none => Except.error (FatalError.unableToLoad headerName)
          | some lump =>
            Except.ok (ShaderIncludeResult.mk headerName
              (WrapHeader headerName (fs.GetStringFromLump lump))) := by
  simp only [OnInclude]
  split
  · rfl
  · cases system with
    | true =>
      simp only [if_true, LoadPrivateShaderLump_eq]
      cases ResolveHeader fs headerName true with
      | none => rfl
      | some lump => simp [WrapHeader, String.append_assoc]
    | false =>
      simp only [Bool.false_eq_true, if_false, LoadPublicShaderLump_eq]
      cases ResolveHeader fs headerName false with
      | none => rfl
      | some lump => simp [WrapHeader, String.append_assoc]

/-- C12: `OnInclude` fails fatally if and only if the inclusion depth is
greater than 8 or the header lump cannot be found (in the first container for
a system include; there or anywhere for a local include); the depth is tested
first. For every depth `<= 8` with a header that resolves to a lump it returns
a `ShaderIncludeResult` whose name is the header name and whose text is the
source of that lump between the include guard lines and `#endif`. -/
theorem OnInclude_fails_iff (fs : FileSystem) (headerName includerName : String) (depth : Nat)
    (system : Bool) :
    ((∃ e, OnInclude fs headerName includerName depth system = Except.error e) ↔
        depth > 8 ∨ ResolveHeader fs headerName system = none)
    ∧ (depth > 8 → OnInclude fs headerName includerName depth system
        = Except.error FatalError.tooMuchIncludeRecursion)
    ∧ (∀ lump, depth ≤ 8 → ResolveHeader fs headerName system = some lump →
        OnInclude fs headerName includerName depth system
          = Except.ok (ShaderIncludeResult.mk headerName
              (WrapHeader headerName (fs.GetStringFromLump lump)))) := by
  rw [OnInclude_eq]
  refine ⟨?_, ?_, ?_⟩
  · by_cases hd : depth > 8
    · simp [hd]
    · cases hres : ResolveHeader fs headerName system with
      | none => simp [hd]
      | some lump => simp [hd]
  · intro hd
    rw [if_pos hd]
  · intro lump hd hres
    rw [if_neg (by omega), hres]

/-- C12, examples: a system include at depth 8 succeeds, the same include at
depth 9 fails, a local include found outside the first container succeeds and
the same header as a system include fails. -/
theorem OnInclude_examples :
    OnInclude exampleFileSystem "shaders/a.glsl" "main.glsl" 8 true
      = Except.ok (ShaderIncludeResult.mk "shaders/a.glsl"
          "#ifndef _HEADERGUARD_shaders_a_glsl\n#define _HEADERGUARD_shaders_a_glsl\n#line 1\nvoid a();\n#endif\n")
    ∧ OnInclude exampleFileSystem "shaders/a.glsl" "main.glsl" 9 true
      = Except.error FatalError.tooMuchIncludeRecursion
    ∧ OnInclude exampleFileSystem "b.glsl" "main.glsl" 0 false
      = Except.ok (ShaderIncludeResult.mk "b.glsl"
          "#ifndef _HEADERGUARD_b_glsl\n#define _HEADERGUARD_b_glsl\n#line 1\nvoid b();\n#endif\n")
    ∧ OnInclude exampleFileSystem "b.glsl" "main.glsl" 0 true
      = Except.error (FatalError.unableToLoad "b.glsl") :=
  ⟨by rfl, by rfl, by rfl, by rfl⟩

/-- C12, witness: a system include at depth 9 fails on the depth test, and a
local include at depth 0 that resolves to lump 9 outside the first container
returns the wrapped source of that lump. -/
theorem OnInclude_fails_iff_witness :
    9 > 8
    ∧ ResolveHeader exampleFileSystem "b.glsl" false = some 9
    ∧ OnInclude exampleFileSystem "shaders/a.glsl" "main.glsl" 9 true
        = Except.error FatalError.tooMuchIncludeRecursion
    ∧ OnInclude exampleFileSystem "b.glsl" "main.glsl" 0 false
        = Except.ok (ShaderIncludeResult.mk "b.glsl"
            (WrapHeader "b.glsl" (exampleFileSystem.GetStringFromLump 9))) :=
  ⟨by decide, by rfl,
    (OnInclude_fails_iff exampleFileSystem "shaders/a.glsl" "main.glsl" 9 true).2.1 (by decide),
    (OnInclude_fails_iff exampleFileSystem "b.glsl" "main.glsl" 0 false).2.2 9 (by decide)
      (by rfl)⟩

/-! ## The tail of the loop and the run without dirty tiles -/

theorem RaytracePass_eq_stages {σ : Type} (env : LightmapperEnv σ) (mesh : LevelMesh)
    (st : VkLightmapper σ) :
    RaytracePass env mesh st
      = if (RaytraceStages env mesh st).drawindexed.IsFull = true
          ∨ (RaytraceStages env mesh st).copytiles.Pos
              = (RaytraceStages env mesh st).drawindexed.BufferSize
        then RaytraceReset (RaytraceStages env mesh st)
        else RaytraceStages env mesh st := by
  simp only [RaytracePass, RaytraceStages]

/-- Examples for the loop tail: the iteration of the backpressure example ends with the
wait and both cursors at 0; an iteration that fills nothing records no wait
and keeps its cursors. -/
theorem loop_tail_examples :
    (RaytracePass exampleEnv exampleMesh backpressureState).cmds.getLast? = some Command.waitForCommands
    ∧ (RaytraceStages exampleEnv exampleMesh backpressureState).drawindexed.Pos = 3
    ∧ (RaytraceStages exampleEnv exampleMesh backpressureState).copytiles.Pos = 3
    ∧ (RaytracePass exampleEnv exampleMesh backpressureState).drawindexed.Pos = 0
    ∧ (RaytracePass exampleEnv exampleMesh backpressureState).copytiles.Pos = 0
    ∧ (RaytracePass exampleEnv exampleMesh
        (SelectTiles exampleEnv [1, 2] allDirtyState)).drawindexed.Pos = 3
    ∧ (RaytracePass exampleEnv exampleMesh
        (SelectTiles exampleEnv [1, 2] allDirtyState)).copytiles.Pos = 2
    ∧ Command.waitForCommands ∉ (RaytracePass exampleEnv exampleMesh
        (SelectTiles exampleEnv [1, 2] allDirtyState)).cmds := by
  decide

/-- C20: for every tile list with no dirty tile, the empty list and a null
mesh included, `Raytrace` returns after at most one selection. The only
commands it records are the two of `UploadUniforms`, and those only when the
mesh is not null and the list is not empty: no render pass, no draw, no wait.
The indirect-draw buffer with `Pos` and `IsFull`, the copy buffer with `Pos`
and every tile are unchanged, and nothing is selected. -/
theorem Raytrace_without_dirty_tiles {σ : Type} (env : LightmapperEnv σ)
    (mesh : Option LevelMesh) (tiles : List TileId) (st : VkLightmapper σ) (fuel : Nat)
    (hclean : ∀ t ∈ tiles, (st.heap t).ReceivedNewLight = false) :
    ∃ st', Raytrace env mesh tiles (fuel + 1) st = some st'
      ∧ st'.cmds = st.cmds ++
          (if mesh.isSome = true ∧ tiles ≠ [] then [Command.copyBuffer, Command.pipelineBarrier []]
           else [])
      ∧ st'.drawindexed = st.drawindexed
      ∧ st'.copytiles = st.copytiles
      ∧ st'.heap = st.heap
      ∧ (mesh.isSome = true ∧ tiles ≠ [] → st'.selectedTiles = []) := by
  cases mesh with
  | none =>
    refine ⟨st, rfl, by simp, rfl, rfl, rfl, ?_⟩
    intro h
    simp at h
  | some m =>
    cases tiles with
    | nil =>
      refine ⟨st, ?_, by simp, rfl, rfl, rfl, ?_⟩
      · simp [Raytrace]
      · intro h
        simp at h
    | cons t ts =>
      obtain ⟨hs, _, hh, _⟩ := SelectTiles_clean env (t :: ts) (UploadUniforms st) hclean
      obtain ⟨f1, f2, f3, _⟩ := SelectTiles_frame env (t :: ts) (UploadUniforms st)
      refine ⟨SelectTiles env (t :: ts) (UploadUniforms st), ?_, ?_, ?_, ?_, ?_, fun _ => hs⟩
      · simp only [Raytrace, List.length_cons, gt_iff_lt, Nat.zero_lt_succ, if_true,
          RaytraceLoop_succ]
        rw [if_pos (by rw [hs]; rfl)]
      · rw [f3]
        simp [UploadUniforms]
      · rw [f1]; rfl
      · rw [f2]; rfl
      · rw [hh]; rfl

/-- C20, witness: three clean tiles and a mesh. -/
theorem Raytrace_without_dirty_tiles_witness :
    (∀ t ∈ [0, 1, 2], (allCleanState.heap t).ReceivedNewLight = false)
    ∧ ∃ st', Raytrace exampleEnv (some exampleMesh) [0, 1, 2] (0 + 1) allCleanState = some st'
      ∧ st'.cmds = allCleanState.cmds ++
          (if (some exampleMesh).isSome = true ∧ [0, 1, 2] ≠ []
            then [Command.copyBuffer, Command.pipelineBarrier []] else [])
      ∧ st'.drawindexed = allCleanState.drawindexed
      ∧ st'.copytiles = allCleanState.copytiles
      ∧ st'.heap = allCleanState.heap
      ∧ ((some exampleMesh).isSome = true ∧ [0, 1, 2] ≠ [] → st'.selectedTiles = []) :=
  ⟨by decide,
    Raytrace_without_dirty_tiles exampleEnv (some exampleMesh) [0, 1, 2] allCleanState 0
      (by decide)⟩

/-! ## The bounding box of the selection -/

theorem foldl_max_ge_init (l : List Nat) (m : Nat) : m ≤ l.foldl max m := by
  induction l generalizing m with
  | nil => exact Nat.le_refl _
  | cons a l ih => exact Nat.le_trans (Nat.le_max_left m a) (ih (max m a))

theorem foldl_max_ge_mem (l : List Nat) (m x : Nat) (hx : x ∈ l) : x ≤ l.foldl max m := by
  induction l generalizing m with
  | nil => simp at hx
  | cons a l ih =>
    rcases List.mem_cons.1 hx with rfl | hx
    · exact Nat.le_trans (Nat.le_max_right m x) (foldl_max_ge_init l (max m x))
    · exact ih (max m a) hx

theorem foldl_max_mem_or_init (l : List Nat) (m : Nat) : l.foldl max m = m ∨ l.foldl max m ∈ l := by
  induction l generalizing m with
  | nil => exact Or.inl rfl
  | cons a l ih =>
    have e : (a :: l).foldl max m = l.foldl max (max m a) := rfl
    rw [e]
    rcases ih (max m a) with h | h
    · rcases Nat.le_total m a with hma | ham
      · right
        rw [h, Nat.max_eq_right hma]
        exact List.mem_cons_self _ _
      · left
        rw [h, Nat.max_eq_left ham]
    · exact Or.inr (List.mem_cons_of_mem _ h)

theorem foldl_max_mod_eq (l : List Nat) (m : Nat) (h : ∀ x ∈ l, x < 2 ^ 16) :
    l.foldl (fun acc x => max acc (x % 2 ^ 16)) m = l.foldl max m := by
  induction l generalizing m with
  | nil => rfl
  | cons a l ih =>
    simp only [List.foldl_cons]
    rw [Nat.mod_eq_of_lt (h a (List.mem_cons_self _ _))]
    exact ih _ fun x hx => h x (List.mem_cons_of_mem _ hx)

/-- The bounding box after the loop of `SelectTiles`, in terms of the packer
calls answered with page 0. -/
theorem SelectTilesLoop_bakeImage {σ : Type} (P : RectPacker σ) (tiles : List TileId) (p : σ)
    (st : VkLightmapper σ) :
    (SelectTilesLoop P tiles p st).2.bakeImage.maxX
        = ((((SelectTilesLoop P tiles p st).2.allocLog.drop st.allocLog.length).filter
              fun e => e.Item.PageIndex = 0).map fun e => e.Item.X + e.Width).foldl
            (fun acc x => max acc (x % 2 ^ 16)) st.bakeImage.maxX
    ∧ (SelectTilesLoop P tiles p st).2.bakeImage.maxY
        = ((((SelectTilesLoop P tiles p st).2.allocLog.drop st.allocLog.length).filter
              fun e => e.Item.PageIndex = 0).map fun e => e.Item.Y + e.Height).foldl
            (fun acc x => max acc (x % 2 ^ 16)) st.bakeImage.maxY := by
  induction tiles generalizing p st with
  | nil => simp [SelectTilesLoop]
  | cons t ts ih =>
    by_cases hd : (st.heap t).ReceivedNewLight = false
    · rw [SelectTilesLoop_cons_clean P t ts p st hd]
      exact ih p st
    · have hdt : (st.heap t).ReceivedNewLight = true := by simpa using hd
      generalize hres : P.Alloc p (st.heap t).AtlasLocation.Width
        (st.heap t).AtlasLocation.Height = res
      by_cases hpage : res.2.PageIndex = 0
      · rw [SelectTilesLoop_cons_page0 P t ts p st hdt (by rw [hres]; exact hpage), hres]
        obtain ⟨newlog, h1, _⟩ := SelectTilesLoop_spec P ts res.1
          ((st.logAlloc t res.2).pushSelected t res.2)
        obtain ⟨i1, i2⟩ := ih res.1 ((st.logAlloc t res.2).pushSelected t res.2)
        have hlog : ((st.logAlloc t res.2).pushSelected t res.2).allocLog
            = st.allocLog ++ [AllocRecord.mk t (st.heap t).AtlasLocation.Width
                (st.heap t).AtlasLocation.Height res.2] := rfl
        rw [h1, hlog] at i1 i2
        rw [h1, hlog]
        simp only [List.append_assoc, List.drop_left, List.length_append, List.length_singleton,
          List.singleton_append] at i1 i2 ⊢
        have hd1 : (st.allocLog ++ AllocRecord.mk t (st.heap t).AtlasLocation.Width
            (st.heap t).AtlasLocation.Height res.2 :: newlog).drop (st.allocLog.length + 1)
            = newlog := by
          rw [List.drop_append_eq_append_drop]
          simp
        rw [hd1] at i1 i2
        rw [i1, i2]
        simp only [List.filter_cons, hpage, decide_True, if_true, List.map_cons, List.foldl_cons]
        exact ⟨rfl, rfl⟩
      · rw [SelectTilesLoop_cons_other P t ts p st hdt (by rw [hres]; exact hpage), hres]
        obtain ⟨newlog, h1, _⟩ := SelectTilesLoop_spec P ts res.1 (st.logAlloc t res.2)
        obtain ⟨i1, i2⟩ := ih res.1 (st.logAlloc t res.2)
        have hlog : (st.logAlloc t res.2).allocLog
            = st.allocLog ++ [AllocRecord.mk t (st.heap t).AtlasLocation.Width
                (st.heap t).AtlasLocation.Height res.2] := rfl
        rw [h1, hlog] at i1 i2
        rw [h1, hlog]
        simp only [List.append_assoc, List.drop_left, List.length_append, List.length_singleton,
          List.singleton_append] at i1 i2 ⊢
        have hd1 : (st.allocLog ++ AllocRecord.mk t (st.heap t).AtlasLocation.Width
            (st.heap t).AtlasLocation.Height res.2 :: newlog).drop (st.allocLog.length + 1)
            = newlog := by
          rw [List.drop_append_eq_append_drop]
          simp
        rw [hd1] at i1 i2
        rw [i1, i2]
        simp only [List.filter_cons, hpage, decide_False, Bool.false_eq_true, if_false]
        exact ⟨rfl, rfl⟩

theorem SelectTiles_selected_rects {σ : Type} (env : LightmapperEnv σ) (tiles : List TileId)
    (st : VkLightmapper σ) :
    (SelectTiles env tiles st).selectedTiles.map (SelectedTile.rect (SelectTiles env tiles st).heap)
      = ((SelectTiles env tiles st).allocLog.filter fun e => e.Item.PageIndex = 0).map
          AllocRecord.rect := by
  obtain ⟨h1, _, h3, _, _, _⟩ := SelectTiles_spec env tiles st
  rw [h1, selectedOfLog, List.map_map]
  apply List.map_congr_left
  intro e he
  obtain ⟨_, hw, hh⟩ := h3 e (List.mem_of_mem_filter he)
  simp only [Function.comp, SelectedTile.rect, AllocRecord.rect, SelectTiles_AtlasLocation, hw, hh]

theorem SelectTiles_bakeImage {σ : Type} (env : LightmapperEnv σ) (tiles : List TileId)
    (st : VkLightmapper σ) :
    (SelectTiles env tiles st).bakeImage.maxX
        = (((SelectTiles env tiles st).selectedTiles.map fun s =>
              s.X + ((SelectTiles env tiles st).heap s.Tile).AtlasLocation.Width).foldl
            (fun acc x => max acc (x % 2 ^ 16)) 0 + 3) % 2 ^ 16
    ∧ (SelectTiles env tiles st).bakeImage.maxY
        = (((SelectTiles env tiles st).selectedTiles.map fun s =>
              s.Y + ((SelectTiles env tiles st).heap s.Tile).AtlasLocation.Height).foldl
            (fun acc x => max acc (x % 2 ^ 16)) 0 + 3) % 2 ^ 16 := by
  obtain ⟨i1, i2⟩ := SelectTilesLoop_bakeImage env.packer tiles (SelectTilesInit env st).1
    (SelectTilesInit env st).2
  have hrects := SelectTiles_selected_rects env tiles st
  have hx : (SelectTiles env tiles st).selectedTiles.map (fun s =>
      s.X + ((SelectTiles env tiles st).heap s.Tile).AtlasLocation.Width)
      = ((SelectTiles env tiles st).allocLog.filter fun e => e.Item.PageIndex = 0).map
          fun e => e.Item.X + e.Width := by
    have := congrArg (List.map fun r : Rect => r.X + r.Width) hrects
    simpa [List.map_map, Function.comp_def, SelectedTile.rect, AllocRecord.rect] using this
  have hy : (SelectTiles env tiles st).selectedTiles.map (fun s =>
      s.Y + ((SelectTiles env tiles st).heap s.Tile).AtlasLocation.Height)
      = ((SelectTiles env tiles st).allocLog.filter fun e => e.Item.PageIndex = 0).map
          fun e => e.Item.Y + e.Height := by
    have := congrArg (List.map fun r : Rect => r.Y + r.Height) hrects
    simpa [List.map_map, Function.comp_def, SelectedTile.rect, AllocRecord.rect] using this
  rw [hx, hy]
  refine ⟨?_, ?_⟩
  · show ((SelectTilesLoop env.packer tiles (SelectTilesInit env st).1
      (SelectTilesInit env st).2).2.bakeImage.maxX + 3) % 2 ^ 16 = _
    rw [i1]
    rfl
  · show ((SelectTilesLoop env.packer tiles (SelectTilesInit env st).1
      (SelectTilesInit env st).2).2.bakeImage.maxY + 3) % 2 ^ 16 = _
    rw [i2]
    rfl

theorem bounding_box_of_fitting (l : List Nat) (h : ∀ x ∈ l, x + 3 < 2 ^ 16) :
    (l.foldl (fun acc x => max acc (x % 2 ^ 16)) 0 + 3) % 2 ^ 16 = 3 + l.foldl max 0 := by
  rw [foldl_max_mod_eq l 0 fun x hx => by have := h x hx; omega]
  have hlt : l.foldl max 0 + 3 < 2 ^ 16 := by
    rcases foldl_max_mem_or_init l 0 with h0 | hm
    · rw [h0]; decide
    · exact h _ hm
  rw [Nat.mod_eq_of_lt hlt]
  omega

theorem le_selectedRight (heap : TileHeap) (l : List SelectedTile) (s : SelectedTile)
    (hs : s ∈ l) : s.X + (heap s.Tile).AtlasLocation.Width ≤ selectedRight heap l :=
  foldl_max_ge_mem _ 0 _
    (List.mem_map_of_mem (fun s : SelectedTile => s.X + (heap s.Tile).AtlasLocation.Width) hs)

theorem le_selectedBottom (heap : TileHeap) (l : List SelectedTile) (s : SelectedTile)
    (hs : s ∈ l) : s.Y + (heap s.Tile).AtlasLocation.Height ≤ selectedBottom heap l :=
  foldl_max_ge_mem _ 0 _
    (List.mem_map_of_mem (fun s : SelectedTile => s.Y + (heap s.Tile).AtlasLocation.Height) hs)

theorem selectedRight_attained (heap : TileHeap) (l : List SelectedTile) (hne : l ≠ []) :
    ∃ s ∈ l, s.X + (heap s.Tile).AtlasLocation.Width = selectedRight heap l := by
  rcases foldl_max_mem_or_init (l.map fun s => s.X + (heap s.Tile).AtlasLocation.Width) 0
    with h0 | hm
  · obtain ⟨s0, hs0⟩ := List.exists_mem_of_ne_nil _ hne
    refine ⟨s0, hs0, ?_⟩
    have h1 := le_selectedRight heap l s0 hs0
    have h2 : selectedRight heap l = 0 := h0
    omega
  · obtain ⟨s, hs, he⟩ := List.mem_map.1 hm
    exact ⟨s, hs, he⟩

theorem selectedBottom_attained (heap : TileHeap) (l : List SelectedTile) (hne : l ≠ []) :
    ∃ s ∈ l, s.Y + (heap s.Tile).AtlasLocation.Height = selectedBottom heap l := by
  rcases foldl_max_mem_or_init (l.map fun s => s.Y + (heap s.Tile).AtlasLocation.Height) 0
    with h0 | hm
  · obtain ⟨s0, hs0⟩ := List.exists_mem_of_ne_nil _ hne
    refine ⟨s0, hs0, ?_⟩
    have h1 := le_selectedBottom heap l s0 hs0
    have h2 : selectedBottom heap l = 0 := h0
    omega
  · obtain ⟨s, hs, he⟩ := List.mem_map.1 hm
    exact ⟨s, hs, he⟩

/-- C18, as amended: provided `X + Width + 3` and `Y + Height + 3` of every
selected tile fit in 16 bits, after `SelectTiles` `maxX = 3 + max (X +
AtlasLocation.Width)` and `maxY = 3 + max (Y + AtlasLocation.Height)` over the
selected tiles, the maximum being 0 when nothing is selected; every selected
rectangle lies inside `[0, maxX - 3] x [0, maxY - 3]`, and when something is
selected some tile reaches `maxX - 3` and some tile reaches `maxY - 3`. -/
theorem SelectTiles_bounding_box {σ : Type} (env : LightmapperEnv σ) (tiles : List TileId)
    (st : VkLightmapper σ)
    (hfit : ∀ s ∈ (SelectTiles env tiles st).selectedTiles,
      s.X + ((SelectTiles env tiles st).heap s.Tile).AtlasLocation.Width + 3 < 2 ^ 16
      ∧ s.Y + ((SelectTiles env tiles st).heap s.Tile).AtlasLocation.Height + 3 < 2 ^ 16) :
    (SelectTiles env tiles st).bakeImage.maxX
        = 3 + selectedRight (SelectTiles env tiles st).heap (SelectTiles env tiles st).selectedTiles
    ∧ (SelectTiles env tiles st).bakeImage.maxY
        = 3 + selectedBottom (SelectTiles env tiles st).heap (SelectTiles env tiles st).selectedTiles
    ∧ (∀ s ∈ (SelectTiles env tiles st).selectedTiles,
        s.X + ((SelectTiles env tiles st).heap s.Tile).AtlasLocation.Width
            ≤ (SelectTiles env tiles st).bakeImage.maxX - 3
        ∧ s.Y + ((SelectTiles env tiles st).heap s.Tile).AtlasLocation.Height
            ≤ (SelectTiles env tiles st).bakeImage.maxY - 3)
    ∧ ((SelectTiles env tiles st).selectedTiles ≠ [] →
        (∃ s ∈ (SelectTiles env tiles st).selectedTiles,
          s.X + ((SelectTiles env tiles st).heap s.Tile).AtlasLocation.Width
            = (SelectTiles env tiles st).bakeImage.maxX - 3)
        ∧ ∃ s ∈ (SelectTiles env tiles st).selectedTiles,
          s.Y + ((SelectTiles env tiles st).heap s.Tile).AtlasLocation.Height
            = (SelectTiles env tiles st).bakeImage.maxY - 3)
    ∧ ((SelectTiles env tiles st).selectedTiles = [] →
        (SelectTiles env tiles st).bakeImage.maxX = 3
        ∧ (SelectTiles env tiles st).bakeImage.maxY = 3) := by
  obtain ⟨bx, by'⟩ := SelectTiles_bakeImage env tiles st
  have hX : (SelectTiles env tiles st).bakeImage.maxX
      = 3 + selectedRight (SelectTiles env tiles st).heap
          (SelectTiles env tiles st).selectedTiles := by
    rw [bx, selectedRight]
    apply bounding_box_of_fitting
    intro x hx
    obtain ⟨s, hs, rfl⟩ := List.mem_map.1 hx
    exact (hfit s hs).1
  have hY : (SelectTiles env tiles st).bakeImage.maxY
      = 3 + selectedBottom (SelectTiles env tiles st).heap
          (SelectTiles env tiles st).selectedTiles := by
    rw [by', selectedBottom]
    apply bounding_box_of_fitting
    intro x hx
    obtain ⟨s, hs, rfl⟩ := List.mem_map.1 hx
    exact (hfit s hs).2
  refine ⟨hX, hY, ?_, ?_, ?_⟩
  · intro s hs
    have h1 := le_selectedRight (SelectTiles env tiles st).heap _ s hs
    have h2 := le_selectedBottom (SelectTiles env tiles st).heap _ s hs
    rw [hX, hY]
    constructor <;> omega
  · intro hne
    obtain ⟨s1, hs1, e1⟩ := selectedRight_attained (SelectTiles env tiles st).heap _ hne
    obtain ⟨s2, hs2, e2⟩ := selectedBottom_attained (SelectTiles env tiles st).heap _ hne
    rw [hX, hY]
    exact ⟨⟨s1, hs1, by omega⟩, ⟨s2, hs2, by omega⟩⟩
  · intro hnil
    rw [hX, hY, hnil]
    exact ⟨rfl, rfl⟩

/-- C18, witness: the five tiles of the example placed in one row. -/
theorem SelectTiles_bounding_box_witness :
    (∀ s ∈ (SelectTiles exampleEnv [0, 1, 2, 3, 4, 5] allDirtyState).selectedTiles,
      s.X + ((SelectTiles exampleEnv [0, 1, 2, 3, 4, 5] allDirtyState).heap
          s.Tile).AtlasLocation.Width + 3 < 2 ^ 16
      ∧ s.Y + ((SelectTiles exampleEnv [0, 1, 2, 3, 4, 5] allDirtyState).heap
          s.Tile).AtlasLocation.Height + 3 < 2 ^ 16)
    ∧ (SelectTiles exampleEnv [0, 1, 2, 3, 4, 5] allDirtyState).bakeImage.maxX
        = 3 + selectedRight (SelectTiles exampleEnv [0, 1, 2, 3, 4, 5] allDirtyState).heap
            (SelectTiles exampleEnv [0, 1, 2, 3, 4, 5] allDirtyState).selectedTiles
    ∧ (SelectTiles exampleEnv [0, 1, 2, 3, 4, 5] allDirtyState).bakeImage.maxY
        = 3 + selectedBottom (SelectTiles exampleEnv [0, 1, 2, 3, 4, 5] allDirtyState).heap
            (SelectTiles exampleEnv [0, 1, 2, 3, 4, 5] allDirtyState).selectedTiles :=
  ⟨by decide,
    (SelectTiles_bounding_box exampleEnv [0, 1, 2, 3, 4, 5] allDirtyState (by decide)).1,
    (SelectTiles_bounding_box exampleEnv [0, 1, 2, 3, 4, 5] allDirtyState (by decide)).2.1⟩

/-- C18, counterexample: a selected tile with `X + Width = 65535`, which fits
in 16 bits, and `Y + Height = 10`. The claim gives `maxX = 65538`; the code
leaves `maxX = 2`, because `maxX += 3` is 16-bit arithmetic, and the tile is
not inside `[0, maxX - 3]`. -/
theorem SelectTiles_bounding_box_wraps :
    (∀ s ∈ (SelectTiles wideEnv [0] wideTileState).selectedTiles,
      s.X + ((SelectTiles wideEnv [0] wideTileState).heap s.Tile).AtlasLocation.Width < 2 ^ 16
      ∧ s.Y + ((SelectTiles wideEnv [0] wideTileState).heap s.Tile).AtlasLocation.Height < 2 ^ 16)
    ∧ (SelectTiles wideEnv [0] wideTileState).selectedTiles = [SelectedTile.mk 0 0 0 false]
    ∧ selectedRight (SelectTiles wideEnv [0] wideTileState).heap
        (SelectTiles wideEnv [0] wideTileState).selectedTiles = 65535
    ∧ (SelectTiles wideEnv [0] wideTileState).bakeImage.maxX = 2
    ∧ (SelectTiles wideEnv [0] wideTileState).bakeImage.maxX
        ≠ 3 + selectedRight (SelectTiles wideEnv [0] wideTileState).heap
            (SelectTiles wideEnv [0] wideTileState).selectedTiles
    ∧ ¬ ∀ s ∈ (SelectTiles wideEnv [0] wideTileState).selectedTiles,
        s.X + ((SelectTiles wideEnv [0] wideTileState).heap s.Tile).AtlasLocation.Width
          ≤ (SelectTiles wideEnv [0] wideTileState).bakeImage.maxX - 3 := by
  decide

/-! ## The stores and the draw of `Render` -/

theorem RenderSurfaces_writes (mesh : LevelMesh) (l : List Nat) (pc : LightmapRaytracePC)
    (d : DrawIndexed) :
    (RenderSurfaces mesh l pc d).writes
      = d.writes ++ (l.enumFrom d.Pos).map fun ks =>
          DrawIndexedWrite.mk ks.1
            (VkDrawIndexedIndirectCommand.mk (mesh.Surfaces ks.2).NumElements 1
              (mesh.Surfaces ks.2).StartElementIndex 0 ks.1)
            { pc with SurfaceIndex := ks.2 } := by
  induction l generalizing pc d with
  | nil => simp [RenderSurfaces]
  | cons a l ih =>
    simp only [RenderSurfaces, ih, List.enumFrom_cons, List.map_cons, List.append_assoc,
      List.singleton_append]

theorem renderPairs_cons (mesh : LevelMesh) (s : SelectedTile) (l : List SelectedTile) :
    renderPairs mesh (s :: l)
      = (mesh.GetVisibleSurfaces s.Tile).map (fun surfaceIndex => (s, surfaceIndex))
        ++ renderPairs mesh l := by
  simp [renderPairs]

theorem renderPairs_length (mesh : LevelMesh) (l : List SelectedTile) :
    (renderPairs mesh l).length = surfaceCount mesh l := by
  induction l with
  | nil => rfl
  | cons s l ih => simp [renderPairs_cons, surfaceCount_cons, ih]

theorem expectedDrawWrites_cons (mesh : LevelMesh) (sz : Nat) (heap : TileHeap) (pos : Nat)
    (s : SelectedTile) (l : List SelectedTile) :
    expectedDrawWrites mesh sz heap pos (s :: l)
      = ((mesh.GetVisibleSurfaces s.Tile).enumFrom pos).map (fun ks =>
          DrawIndexedWrite.mk ks.1
            (VkDrawIndexedIndirectCommand.mk (mesh.Surfaces ks.2).NumElements 1
              (mesh.Surfaces ks.2).StartElementIndex 0 ks.1)
            (LightmapRaytracePC.mk s.X s.Y sz (heap s.Tile).AtlasLocation.Width
              (heap s.Tile).AtlasLocation.Height ks.2))
        ++ expectedDrawWrites mesh sz heap (pos + (mesh.GetVisibleSurfaces s.Tile).length) l := by
  simp only [expectedDrawWrites, renderPairs_cons, List.enumFrom_append, List.map_append,
    List.length_map]
  congr 1
  generalize mesh.GetVisibleSurfaces s.Tile = vis
  induction vis generalizing pos with
  | nil => rfl
  | cons a vis ih =>
    simp only [List.map_cons, List.enumFrom_cons]
    rw [ih (pos + 1)]
    rfl

theorem expectedDrawWrites_markRendered (mesh : LevelMesh) (sz : Nat) (heap : TileHeap)
    (pos : Nat) (l : List SelectedTile) :
    expectedDrawWrites mesh sz heap pos (l.map SelectedTile.markRendered)
      = expectedDrawWrites mesh sz heap pos l := by
  induction l generalizing pos with
  | nil => rfl
  | cons s l ih =>
    rw [List.map_cons, expectedDrawWrites_cons, expectedDrawWrites_cons, ih]
    rfl

theorem surfaceCount_markRendered (mesh : LevelMesh) (l : List SelectedTile) :
    surfaceCount mesh (l.map SelectedTile.markRendered) = surfaceCount mesh l := by
  simp [surfaceCount, List.map_map, Function.comp_def, markRendered_Tile]

/-- The stores of the tile loop of `Render`: those of the tiles it rendered,
a prefix of the selection. -/
theorem RenderLoop_writes (mesh : LevelMesh) (sz : Nat) (l : List SelectedTile)
    (heap : TileHeap) (d : DrawIndexed) :
    ∃ i, i ≤ l.length
      ∧ (RenderLoop mesh sz l heap d).selectedTiles
          = (l.take i).map SelectedTile.markRendered ++ l.drop i
      ∧ (RenderLoop mesh sz l heap d).drawindexed.writes
          = d.writes ++ expectedDrawWrites mesh sz heap d.Pos (l.take i)
      ∧ (RenderLoop mesh sz l heap d).drawindexed.Pos = d.Pos + surfaceCount mesh (l.take i) := by
  induction l generalizing d with
  | nil =>
    exact ⟨0, by simp, by simp [RenderLoop], by simp [RenderLoop, expectedDrawWrites, renderPairs],
      by simp [RenderLoop, surfaceCount]⟩
  | cons s l ih =>
    by_cases hfull : d.Pos + (mesh.GetVisibleSurfaces s.Tile).length ≥ d.BufferSize
    · rw [RenderLoop_cons_full mesh sz s l heap d hfull]
      exact ⟨0, by simp, by simp, by simp [expectedDrawWrites, renderPairs],
        by simp [surfaceCount]⟩
    · have hfit : d.Pos + (mesh.GetVisibleSurfaces s.Tile).length < d.BufferSize := by omega
      rw [RenderLoop_cons_fits mesh sz s l heap d hfit]
      obtain ⟨i, hi, h1, h2, h3⟩ := ih (RenderSurfaces mesh (mesh.GetVisibleSurfaces s.Tile)
        (LightmapRaytracePC.mk s.X s.Y sz (heap s.Tile).AtlasLocation.Width
          (heap s.Tile).AtlasLocation.Height 0) d)
      refine ⟨i + 1, by simp; omega, ?_, ?_, ?_⟩
      · simp [h1]
      · show (RenderLoop mesh sz l heap _).drawindexed.writes = _
        rw [h2, RenderSurfaces_writes, RenderSurfaces_Pos, List.take_succ_cons,
          expectedDrawWrites_cons, List.append_assoc]
      · show (RenderLoop mesh sz l heap _).drawindexed.Pos = _
        rw [h3, RenderSurfaces_Pos, List.take_succ_cons, surfaceCount_cons]
        omega

theorem renderedTiles_after_prefix (l : List SelectedTile) (i : Nat)
    (hR : ∀ s ∈ l, s.Rendered = false) :
    renderedTiles ((l.take i).map SelectedTile.markRendered ++ l.drop i)
      = (l.take i).map SelectedTile.markRendered := by
  have h1 : renderedTiles ((l.take i).map SelectedTile.markRendered)
      = (l.take i).map SelectedTile.markRendered := by
    apply List.filter_eq_self.2
    intro s hs
    obtain ⟨a, _, rfl⟩ := List.mem_map.1 hs
    simp [SelectedTile.markRendered]
  have h2 : renderedTiles (l.drop i) = [] := by
    apply List.filter_eq_nil_iff.2
    intro s hs
    simp [hR s (List.mem_of_mem_drop hs)]
  have happ : renderedTiles ((l.take i).map SelectedTile.markRendered ++ l.drop i)
      = renderedTiles ((l.take i).map SelectedTile.markRendered) ++ renderedTiles (l.drop i) := by
    simp [renderedTiles]
  rw [happ, h1, h2, List.append_nil]

theorem expectedDrawWrites_slots (mesh : LevelMesh) (sz : Nat) (heap : TileHeap) (pos : Nat)
    (l : List SelectedTile) :
    (expectedDrawWrites mesh sz heap pos l).map DrawIndexedWrite.slot
      = List.range' pos (surfaceCount mesh l) := by
  simp only [expectedDrawWrites, List.map_map]
  have : (DrawIndexedWrite.slot ∘ fun kp : Nat × (SelectedTile × Nat) =>
      drawWriteAt mesh sz heap kp.1 kp.2) = Prod.fst := by
    funext kp; rfl
  rw [this, List.enumFrom_map_fst, renderPairs_length]

theorem Render_cmds {σ : Type} (env : LightmapperEnv σ) (mesh : LevelMesh)
    (st : VkLightmapper σ) :
    (Render env mesh st).cmds
      = st.cmds ++
        [ Command.pipelineBarrier [AddImageDefault LMImage.bakeRaytrace
            VkImageLayout.UNDEFINED VkImageLayout.COLOR_ATTACHMENT_OPTIMAL],
          Command.beginRenderPass LMFramebuffer.bakeRaytrace st.bakeImage.maxX st.bakeImage.maxY,
          Command.bindPipeline
            (LMPipeline.raytrace (GetRaytracePipelineIndex env.settings mesh.toMeshLighting)) ]
        ++ (if (Render env mesh st).drawindexed.Pos > st.drawindexed.Pos then
              [Command.drawIndexedIndirect (st.drawindexed.Pos * 20)
                ((Render env mesh st).drawindexed.Pos - st.drawindexed.Pos) 20]
            else [])
        ++ [Command.endRenderPass] := by
  simp only [Render]
  split <;> simp

/-- C19: when no selected tile is marked `Rendered` yet, as after
`SelectTiles`, `Render` appends exactly one indirect-draw command and one
uniform payload per (rendered tile, visible surface) pair, in order: the new
stores are at the slots `startPos, ..., Pos - 1`, `Pos - startPos` is the
number of visible surfaces of the tiles marked `Rendered`, the command at slot
`k` has `firstInstance = k` and `instanceCount = 1`, the constants at slot `k`
carry the tile's placement and the surface index, and `drawIndexedIndirect` is
recorded once, for the commands from slot `startPos` on (byte offset
`startPos * 20`, stride 20) with count `Pos - startPos`, if and only if
`Pos > startPos`, and not at all otherwise. -/
theorem Render_appends_one_per_surface {σ : Type} (env : LightmapperEnv σ) (mesh : LevelMesh)
    (st : VkLightmapper σ) (hR : ∀ s ∈ st.selectedTiles, s.Rendered = false) :
    (Render env mesh st).drawindexed.writes
        = st.drawindexed.writes ++ expectedDrawWrites mesh env.bakeImageSize st.heap
            st.drawindexed.Pos (renderedTiles (Render env mesh st).selectedTiles)
    ∧ (expectedDrawWrites mesh env.bakeImageSize st.heap st.drawindexed.Pos
          (renderedTiles (Render env mesh st).selectedTiles)).map DrawIndexedWrite.slot
        = List.range' st.drawindexed.Pos
            ((Render env mesh st).drawindexed.Pos - st.drawindexed.Pos)
    ∧ (Render env mesh st).drawindexed.Pos
        = st.drawindexed.Pos + surfaceCount mesh (renderedTiles (Render env mesh st).selectedTiles)
    ∧ (∀ w ∈ expectedDrawWrites mesh env.bakeImageSize st.heap st.drawindexed.Pos
          (renderedTiles (Render env mesh st).selectedTiles),
        w.cmd.firstInstance = w.slot ∧ w.cmd.instanceCount = 1)
    ∧ recordedDraws (Render env mesh st).cmds
        = recordedDraws st.cmds ++
          (if (Render env mesh st).drawindexed.Pos > st.drawindexed.Pos then
            [Command.drawIndexedIndirect (st.drawindexed.Pos * 20)
              ((Render env mesh st).drawindexed.Pos - st.drawindexed.Pos) 20]
           else []) := by
  obtain ⟨i, _, h1, h2, h3⟩ :=
    RenderLoop_writes mesh env.bakeImageSize st.selectedTiles st.heap st.drawindexed
  have hsel : renderedTiles (Render env mesh st).selectedTiles
      = (st.selectedTiles.take i).map SelectedTile.markRendered := by
    show renderedTiles (RenderLoop mesh env.bakeImageSize st.selectedTiles st.heap
      st.drawindexed).selectedTiles = _
    rw [h1]
    exact renderedTiles_after_prefix st.selectedTiles i hR
  have hpos : (Render env mesh st).drawindexed.Pos
      = st.drawindexed.Pos + surfaceCount mesh (st.selectedTiles.take i) := h3
  rw [hsel, expectedDrawWrites_markRendered, surfaceCount_markRendered]
  refine ⟨h2, ?_, hpos, ?_, ?_⟩
  · rw [expectedDrawWrites_slots, hpos]
    congr 1
    omega
  · intro w hw
    simp only [expectedDrawWrites, List.mem_map] at hw
    obtain ⟨kp, _, rfl⟩ := hw
    exact ⟨rfl, rfl⟩
  · rw [Render_cmds]
    simp only [recordedDraws_append]
    split <;> simp [recordedDraws, Command.isDraw]

/-- C19, witness: the backpressure example, where three tiles with 0, 1 and 2
surfaces are rendered. -/
theorem Render_appends_one_per_surface_witness :
    (∀ s ∈ backpressureState.selectedTiles, s.Rendered = false)
    ∧ (Render exampleEnv exampleMesh backpressureState).drawindexed.writes
        = backpressureState.drawindexed.writes ++ expectedDrawWrites exampleMesh
            exampleEnv.bakeImageSize backpressureState.heap backpressureState.drawindexed.Pos
            (renderedTiles (Render exampleEnv exampleMesh backpressureState).selectedTiles)
    ∧ (Render exampleEnv exampleMesh backpressureState).drawindexed.Pos
        = backpressureState.drawindexed.Pos + surfaceCount exampleMesh
            (renderedTiles (Render exampleEnv exampleMesh backpressureState).selectedTiles) :=
  ⟨by decide,
    (Render_appends_one_per_surface exampleEnv exampleMesh backpressureState (by decide)).1,
    (Render_appends_one_per_surface exampleEnv exampleMesh backpressureState (by decide)).2.2.1⟩

theorem Render_example_draw :
    recordedDraws (Render exampleEnv exampleMesh backpressureState).cmds
      = [Command.drawIndexedIndirect 0 3 20]
    ∧ (renderedTiles (Render exampleEnv exampleMesh backpressureState).selectedTiles).map
        SelectedTile.Tile = [0, 1, 2]
    ∧ (Render exampleEnv exampleMesh (SelectTiles exampleEnv [0] allDirtyState)).drawindexed.Pos = 0
    ∧ recordedDraws (Render exampleEnv exampleMesh (SelectTiles exampleEnv [0] allDirtyState)).cmds
      = [] := by
  decide

/-! ## `CopyResult`: one copy info per rendered tile, one draw per page -/

theorem CopyResultTiles_eq (heap : TileHeap) (l : List SelectedTile) (pos : Nat)
    (writes : List CopyTileWrite) :
    CopyResultTiles heap l pos writes
      = (pos + l.length, writes ++ expectedCopyWrites heap pos l) := by
  induction l generalizing pos writes with
  | nil => simp [CopyResultTiles, expectedCopyWrites]
  | cons s rest ih =>
    simp only [CopyResultTiles]
    rw [ih]
    simp [expectedCopyWrites, List.enumFrom_cons, copyInfoOf]
    omega

theorem expectedCopyWrites_append (heap : TileHeap) (pos : Nat) (a b : List SelectedTile) :
    expectedCopyWrites heap pos (a ++ b)
      = expectedCopyWrites heap pos a ++ expectedCopyWrites heap (pos + a.length) b := by
  simp [expectedCopyWrites, List.enumFrom_append]

theorem expectedCopyWrites_slots (heap : TileHeap) (pos : Nat) (l : List SelectedTile) :
    (expectedCopyWrites heap pos l).map CopyTileWrite.slot = List.range' pos l.length := by
  induction l generalizing pos with
  | nil => simp [expectedCopyWrites]
  | cons s rest ih =>
    have e : expectedCopyWrites heap pos (s :: rest)
        = CopyTileWrite.mk pos (copyInfoOf heap s) :: expectedCopyWrites heap (pos + 1) rest := by
      simp [expectedCopyWrites, List.enumFrom_cons]
    rw [e, List.map_cons, ih (pos + 1)]
    simp [List.range'_succ]

theorem drawsOfCounts_cons (pos c : Nat) (cs : List Nat) :
    drawsOfCounts pos (c :: cs)
      = (if c = 0 then [] else [Command.draw 4 c 0 pos]) ++ drawsOfCounts (pos + c) cs := by
  simp only [drawsOfCounts, List.length_cons, List.range_succ_eq_map, List.filterMap_cons,
    List.filterMap_map]
  have e : (List.range cs.length).filterMap
        ((fun k => if (c :: cs).getD k 0 = 0 then none
            else some (Command.draw 4 ((c :: cs).getD k 0) 0 (pos + ((c :: cs).take k).sum)))
          ∘ Nat.succ)
      = (List.range cs.length).filterMap (fun k => if cs.getD k 0 = 0 then none
            else some (Command.draw 4 (cs.getD k 0) 0 (pos + c + (cs.take k).sum))) := by
    congr 1
    funext k
    simp [Nat.add_assoc]
  rw [e]
  by_cases hc : c = 0
  · simp [hc]
  · simp [hc]

theorem CopyResultPages_spec (destSize : Nat → Nat) (heap : TileHeap)
    (lists : List (List SelectedTile)) (i : Nat) (r : CopyPagesResult) :
    (CopyResultPages destSize heap i lists r).pos = r.pos + (lists.map List.length).sum
    ∧ (CopyResultPages destSize heap i lists r).writes
        = r.writes ++ expectedCopyWrites heap r.pos lists.flatten
    ∧ recordedDraws (CopyResultPages destSize heap i lists r).cmds
        = recordedDraws r.cmds ++ drawsOfCounts r.pos (lists.map List.length) := by
  induction lists generalizing i r with
  | nil => simp [CopyResultPages, expectedCopyWrites, drawsOfCounts]
  | cons list rest ih =>
    by_cases h : list.length = 0
    · have hl : list = [] := List.length_eq_zero.mp h
      subst hl
      simp only [CopyResultPages, List.length_nil, if_true, List.map_cons, List.sum_cons,
        List.flatten_cons, List.nil_append, drawsOfCounts_cons, Nat.zero_add, Nat.add_zero]
      exact ih (i + 1) r
    · simp only [CopyResultPages, h, if_false, CopyResultTiles_eq, List.map_cons,
        List.sum_cons, List.flatten_cons, drawsOfCounts_cons, expectedCopyWrites_append]
      obtain ⟨h1, h2, h3⟩ := ih (i + 1)
        (CopyPagesResult.mk (r.pos + list.length)
          (r.writes ++ expectedCopyWrites heap r.pos list)
          (r.cmds ++
            [ Command.beginRenderPass (LMFramebuffer.dest i) (destSize i) (destSize i),
              Command.bindPipeline LMPipeline.copy,
              Command.draw 4 (r.pos + list.length - r.pos) 0 r.pos,
              Command.endRenderPass ]))
      refine ⟨?_, ?_, ?_⟩
      · rw [h1]; simp only []; omega
      · rw [h2]; simp only [List.append_assoc]
      · rw [h3]
        simp only [recordedDraws_append, List.append_assoc]
        congr 1
        have e : r.pos + list.length - r.pos = list.length := by omega
        rw [e]
        simp [recordedDraws, Command.isDraw]

/-- The list of lists after `Resize(pageIndex + 1)` when `pageIndex` is out of
range: the new lists are empty, so every `getD` is unchanged. -/
theorem resized_getD (L : List (List SelectedTile)) (q p : Nat) :
    (if q ≥ L.length then L ++ List.replicate (q + 1 - L.length) [] else L).getD p []
      = L.getD p [] := by
  by_cases h : q ≥ L.length
  · simp only [h, if_true, List.getD_eq_getElem?_getD]
    by_cases hp : p < L.length
    · rw [List.getElem?_append_left hp]
    · have hp2 : L.length ≤ p := Nat.le_of_not_lt hp
      rw [List.getElem?_append_right hp2, List.getElem?_eq_none hp2]
      by_cases hq : p - L.length < q + 1 - L.length
      · rw [List.getElem?_replicate, if_pos hq]; rfl
      · rw [List.getElem?_replicate, if_neg hq]
  · simp only [h, if_false]

theorem resized_length (L : List (List SelectedTile)) (q : Nat) :
    q < (if q ≥ L.length then L ++ List.replicate (q + 1 - L.length) [] else L).length := by
  by_cases h : q ≥ L.length
  · simp only [h, if_true, List.length_append, List.length_replicate]; omega
  · simp only [h, if_false]; omega

theorem resized_flatten (L : List (List SelectedTile)) (q : Nat) :
    (if q ≥ L.length then L ++ List.replicate (q + 1 - L.length) [] else L).flatten
      = L.flatten := by
  by_cases h : q ≥ L.length
  · simp only [h, if_true, List.flatten_append, List.flatten_replicate_nil, List.append_nil]
  · simp only [h, if_false]

theorem set_push_flatten (L : List (List SelectedTile)) (q : Nat) (s : SelectedTile)
    (hq : q < L.length) :
    (L.set q (L.getD q [] ++ [s])).flatten.Perm (L.flatten ++ [s]) := by
  induction L generalizing q with
  | nil => simp at hq
  | cons a L ih =>
    cases q with
    | zero =>
      simp only [List.set_cons_zero, List.flatten_cons, List.getD_cons_zero]
      have : a ++ [s] ++ L.flatten = a ++ ([s] ++ L.flatten) := by simp
      rw [this, List.append_assoc]
      exact List.Perm.append_left a List.perm_append_comm
    | succ q =>
      simp only [List.set_cons_succ, List.flatten_cons, List.getD_cons_succ, List.append_assoc]
      exact List.Perm.append_left a (ih q (by simpa using hq))

theorem set_push_getD (L : List (List SelectedTile)) (q p : Nat) (s : SelectedTile)
    (hq : q < L.length) :
    (L.set q (L.getD q [] ++ [s])).getD p []
      = L.getD p [] ++ (if q = p then [s] else []) := by
  simp only [List.getD_eq_getElem?_getD, List.getElem?_set]
  by_cases h : q = p
  · subst h
    simp [hq]
  · simp [h]

theorem pageTiles_cons (heap : TileHeap) (s : SelectedTile) (l : List SelectedTile) (p : Nat) :
    pageTiles heap (s :: l) p
      = (if s.Rendered = true ∧ (heap s.Tile).AtlasLocation.ArrayIndex = p then [s] else [])
          ++ pageTiles heap l p := by
  simp only [pageTiles, List.filter_cons]
  by_cases h1 : s.Rendered = true
  · by_cases h2 : (heap s.Tile).AtlasLocation.ArrayIndex = p
    · simp [h1, h2]
    · simp [h1, h2]
  · simp [h1]

theorem CopyResultSort_cons_skip (heap : TileHeap) (s : SelectedTile) (rest : List SelectedTile)
    (r : CopySortResult) (h : ¬ s.Rendered = true) :
    CopyResultSort heap (s :: rest) r = CopyResultSort heap rest r := by
  simp only [CopyResultSort, h, if_false]
  rfl

theorem CopyResultSort_getD (heap : TileHeap) (l : List SelectedTile) (r : CopySortResult)
    (p : Nat) :
    (CopyResultSort heap l r).copylists.getD p []
      = r.copylists.getD p [] ++ pageTiles heap l p := by
  induction l generalizing r with
  | nil => simp [CopyResultSort, pageTiles]
  | cons s rest ih =>
    by_cases h : s.Rendered = true
    · simp only [CopyResultSort, h, if_true]
      rw [ih, set_push_getD _ _ _ _ (resized_length _ _), resized_getD, pageTiles_cons]
      simp [h]
    · rw [CopyResultSort_cons_skip heap s rest r h]
      rw [ih, pageTiles_cons]
      simp [h]

theorem renderedTiles_cons (s : SelectedTile) (l : List SelectedTile) :
    renderedTiles (s :: l) = (if s.Rendered = true then [s] else []) ++ renderedTiles l := by
  simp only [renderedTiles, List.filter_cons]
  by_cases h : s.Rendered = true
  · simp [h]
  · simp [h]

theorem CopyResultSort_flatten (heap : TileHeap) (l : List SelectedTile) (r : CopySortResult) :
    (CopyResultSort heap l r).copylists.flatten.Perm (r.copylists.flatten ++ renderedTiles l) := by
  induction l generalizing r with
  | nil => simp [CopyResultSort, renderedTiles]
  | cons s rest ih =>
    by_cases h : s.Rendered = true
    · simp only [CopyResultSort, h, if_true]
      refine (ih _).trans ?_
      rw [renderedTiles_cons]
      simp only [h, if_true]
      rw [← List.append_assoc]
      refine List.Perm.append_right _ ?_
      refine (set_push_flatten _ _ _ (resized_length _ _)).trans ?_
      rw [resized_flatten]
    · rw [CopyResultSort_cons_skip heap s rest r h]
      rw [renderedTiles_cons]
      simpa [h] using ih r

theorem CopyResultSort_pixels (heap : TileHeap) (l : List SelectedTile) (r : CopySortResult) :
    (CopyResultSort heap l r).pixels % 2 ^ 32 = (r.pixels + renderedArea heap l) % 2 ^ 32 := by
  induction l generalizing r with
  | nil => simp [CopyResultSort, renderedArea, renderedTiles]
  | cons s rest ih =>
    by_cases h : s.Rendered = true
    · simp only [CopyResultSort, h, if_true]
      rw [ih]
      simp only [renderedArea, renderedTiles_cons, h, if_true, List.singleton_append,
        List.map_cons, List.sum_cons]
      omega
    · rw [CopyResultSort_cons_skip heap s rest r h]
      rw [ih]
      simp [renderedArea, renderedTiles_cons, h]

theorem CopyResultSort_pixels_lt (heap : TileHeap) (l : List SelectedTile) (r : CopySortResult)
    (hr : r.pixels < 2 ^ 32) :
    (CopyResultSort heap l r).pixels < 2 ^ 32 := by
  induction l generalizing r with
  | nil => simpa [CopyResultSort] using hr
  | cons s rest ih =>
    by_cases h : s.Rendered = true
    · simp only [CopyResultSort, h, if_true]
      exact ih _ (Nat.mod_lt _ (by norm_num))
    · rw [CopyResultSort_cons_skip heap s rest r h]
      exact ih r hr

theorem CopyResultSort_lastSurfaceCount (heap : TileHeap) (l : List SelectedTile)
    (r : CopySortResult) :
    (CopyResultSort heap l r).lastSurfaceCount
      = r.lastSurfaceCount + (renderedTiles l).length := by
  induction l generalizing r with
  | nil => simp [CopyResultSort, renderedTiles]
  | cons s rest ih =>
    by_cases h : s.Rendered = true
    · simp only [CopyResultSort, h, if_true]
      rw [ih, renderedTiles_cons]
      simp [h]; omega
    · rw [CopyResultSort_cons_skip heap s rest r h]
      rw [ih, renderedTiles_cons]
      simp [h]

theorem list_eq_range_map_getD (L : List (List SelectedTile)) :
    L = (List.range L.length).map (fun p => L.getD p []) := by
  apply List.ext_getElem
  · simp
  · intro k h1 h2
    simp [List.getD_eq_getElem?_getD, List.getElem?_eq_getElem h1]

theorem cleared_getD (L : List (List SelectedTile)) (p : Nat) :
    (L.map (fun _ => ([] : List SelectedTile))).getD p [] = [] := by
  simp only [List.getD_eq_getElem?_getD, List.getElem?_map]
  cases L[p]? <;> rfl

theorem cleared_flatten (L : List (List SelectedTile)) :
    (L.map (fun _ => ([] : List SelectedTile))).flatten = [] := by
  induction L with
  | nil => rfl
  | cons a L _ => simp

/-- The lists that the sort loop of `CopyResult` leaves, started from cleared
lists: list `p` holds the rendered selected tiles of page `p` in selection
order. -/
theorem CopyResultSort_copylists (heap : TileHeap) (l : List SelectedTile)
    (old : List (List SelectedTile)) :
    (CopyResultSort heap l (CopySortResult.mk (old.map (fun _ => [])) 0 0)).copylists
      = (List.range
            (CopyResultSort heap l (CopySortResult.mk (old.map (fun _ => [])) 0 0)).copylists.length).map
          (pageTiles heap l) := by
  conv_lhs => rw [list_eq_range_map_getD
    (CopyResultSort heap l (CopySortResult.mk (old.map (fun _ => [])) 0 0)).copylists]
  congr 1
  funext p
  rw [CopyResultSort_getD, cleared_getD, List.nil_append]

theorem tilesByPage_perm (heap : TileHeap) (l : List SelectedTile)
    (old : List (List SelectedTile)) :
    (tilesByPage heap l
        (CopyResultSort heap l (CopySortResult.mk (old.map (fun _ => [])) 0 0)).copylists.length).Perm
      (renderedTiles l) := by
  have h := CopyResultSort_flatten heap l (CopySortResult.mk (old.map (fun _ => [])) 0 0)
  rw [CopyResultSort_copylists] at h
  simp only [cleared_flatten, List.nil_append] at h
  simpa [tilesByPage, List.flatMap_def] using h

theorem pageCounts_length (heap : TileHeap) (l : List SelectedTile) (n : Nat) :
    (pageCounts heap l n).length = n := by
  simp [pageCounts]

theorem pageCounts_getD (heap : TileHeap) (l : List SelectedTile) (n p : Nat) (hp : p < n) :
    (pageCounts heap l n).getD p 0 = (pageTiles heap l p).length := by
  simp [pageCounts, List.getD_eq_getElem?_getD, List.getElem?_map, List.getElem?_range hp]

theorem pageCounts_sum (heap : TileHeap) (l : List SelectedTile) (n : Nat) :
    (pageCounts heap l n).sum = (tilesByPage heap l n).length := by
  simp [pageCounts, tilesByPage, List.flatMap_def, List.length_flatten, Function.comp_def]

theorem drawsOfCounts_pageCounts (heap : TileHeap) (l : List SelectedTile) (n pos : Nat) :
    drawsOfCounts pos (pageCounts heap l n) = expectedCopyDraws heap l n pos := by
  simp only [drawsOfCounts, expectedCopyDraws, pageCounts_length, pageStart]
  apply List.filterMap_congr
  intro p hp
  rw [pageCounts_getD heap l n p (List.mem_range.mp hp)]

theorem CopyResult_copylists {σ : Type} (env : LightmapperEnv σ) (st : VkLightmapper σ) :
    (CopyResult env st).copylists
      = (CopyResultSort st.heap st.selectedTiles
          (CopySortResult.mk (st.copylists.map (fun _ => [])) 0 0)).copylists := by
  simp only [CopyResult]
  split <;> rfl

/-- What `CopyResult` does to the copy buffer and the command log when the
32-bit pixel count it tests is not zero, in terms of the lists of the sort
loop. -/
theorem CopyResult_of_pixels {σ : Type} (env : LightmapperEnv σ) (st : VkLightmapper σ)
    (hpix : renderedArea st.heap st.selectedTiles % 2 ^ 32 ≠ 0) :
    (CopyResult env st).copytiles.Pos
        = st.copytiles.Pos + (tilesByPage st.heap st.selectedTiles
            (CopyResult env st).copylists.length).length
    ∧ (CopyResult env st).copytiles.writes
        = st.copytiles.writes ++ expectedCopyWrites st.heap st.copytiles.Pos
            (tilesByPage st.heap st.selectedTiles (CopyResult env st).copylists.length)
    ∧ recordedDraws (CopyResult env st).cmds
        = recordedDraws st.cmds ++ expectedCopyDraws st.heap st.selectedTiles
            (CopyResult env st).copylists.length st.copytiles.Pos := by
  have hp := CopyResultSort_pixels st.heap st.selectedTiles
    (CopySortResult.mk (st.copylists.map (fun _ => [])) 0 0)
  simp only [Nat.zero_add] at hp
  have hne : (CopyResultSort st.heap st.selectedTiles
      (CopySortResult.mk (st.copylists.map (fun _ => [])) 0 0)).pixels ≠ 0 := by
    intro h0
    rw [h0] at hp
    exact hpix hp.symm
  have hl := CopyResultSort_copylists st.heap st.selectedTiles st.copylists
  rw [CopyResult_copylists]
  simp only [CopyResult, hne, if_false]
  obtain ⟨h1, h2, h3⟩ := CopyResultPages_spec env.destSize st.heap
    (CopyResultSort st.heap st.selectedTiles
      (CopySortResult.mk (st.copylists.map (fun _ => [])) 0 0)).copylists 0
    (CopyPagesResult.mk st.copytiles.Pos st.copytiles.writes
      (st.cmds ++ [Command.pipelineBarrier
        (AddImageDefault LMImage.bakeResolve
            VkImageLayout.COLOR_ATTACHMENT_OPTIMAL VkImageLayout.SHADER_READ_ONLY_OPTIMAL ::
          CopyResultBarriers VkImageLayout.SHADER_READ_ONLY_OPTIMAL
            VkImageLayout.COLOR_ATTACHMENT_OPTIMAL 0
            (CopyResultSort st.heap st.selectedTiles
              (CopySortResult.mk (st.copylists.map (fun _ => [])) 0 0)).copylists)]))
  have hflat : (CopyResultSort st.heap st.selectedTiles
        (CopySortResult.mk (st.copylists.map (fun _ => [])) 0 0)).copylists.flatten
      = tilesByPage st.heap st.selectedTiles (CopyResultSort st.heap st.selectedTiles
        (CopySortResult.mk (st.copylists.map (fun _ => [])) 0 0)).copylists.length := by
    conv_lhs => rw [hl]
    rfl
  have hcounts : (CopyResultSort st.heap st.selectedTiles
        (CopySortResult.mk (st.copylists.map (fun _ => [])) 0 0)).copylists.map List.length
      = pageCounts st.heap st.selectedTiles (CopyResultSort st.heap st.selectedTiles
        (CopySortResult.mk (st.copylists.map (fun _ => [])) 0 0)).copylists.length := by
    conv_lhs => rw [hl]
    simp [pageCounts, Function.comp_def]
  refine ⟨?_, ?_, ?_⟩
  · rw [h1, hcounts, pageCounts_sum]
  · rw [h2, hflat]
  · rw [recordedDraws_append, h3, hcounts, drawsOfCounts_pageCounts, recordedDraws_append]
    simp [recordedDraws, Command.isDraw]

theorem renderedArea_pos (heap : TileHeap) (l : List SelectedTile)
    (hne : ∃ s ∈ l, s.Rendered = true ∧ (heap s.Tile).AtlasLocation.Area ≠ 0) :
    0 < renderedArea heap l := by
  induction l with
  | nil => simp at hne
  | cons a l ih =>
    obtain ⟨s, hs, hr, ha⟩ := hne
    simp only [renderedArea, renderedTiles_cons, List.map_append, List.sum_append]
    rcases List.mem_cons.mp hs with h | h
    · subst h
      simp only [hr, if_true, List.map_cons, List.map_nil, List.sum_cons, List.sum_nil]
      omega
    · have := ih ⟨s, h, hr, ha⟩
      simp only [renderedArea] at this
      omega

/-- When the 32-bit pixel count that `CopyResult` tests is zero, `CopyResult`
returns early: it stores nothing, keeps `copytiles.Pos` and records no
command. -/
theorem CopyResult_of_no_pixels {σ : Type} (env : LightmapperEnv σ) (st : VkLightmapper σ)
    (hpix : renderedArea st.heap st.selectedTiles % 2 ^ 32 = 0) :
    (CopyResult env st).copytiles = st.copytiles ∧ (CopyResult env st).cmds = st.cmds := by
  have hp := CopyResultSort_pixels st.heap st.selectedTiles
    (CopySortResult.mk (st.copylists.map (fun _ => [])) 0 0)
  have hlt := CopyResultSort_pixels_lt st.heap st.selectedTiles
    (CopySortResult.mk (st.copylists.map (fun _ => [])) 0 0) (by norm_num)
  rw [Nat.mod_eq_of_lt hlt] at hp
  simp only [Nat.zero_add] at hp
  rw [hpix] at hp
  simp only [CopyResult, hp, if_true]
  exact ⟨trivial, trivial⟩

/-- The pixel count is not zero when a rendered tile has non-zero area and
the areas of the rendered tiles do not add up past 32 bits. -/
theorem pixel_count_ne_zero (heap : TileHeap) (l : List SelectedTile)
    (hne : ∃ s ∈ l, s.Rendered = true ∧ (heap s.Tile).AtlasLocation.Area ≠ 0)
    (hsum : renderedArea heap l < 2 ^ 32) :
    renderedArea heap l % 2 ^ 32 ≠ 0 := by
  have hpos := renderedArea_pos heap l hne
  rw [Nat.mod_eq_of_lt hsum]
  omega

/-- The copy example evaluated: tiles 0, 2, 4 lie on page 0 and tiles 1, 3 on
page 1; the stores go to slots 0 to 4 in that order and the two draws cover
`[0, 3)` and `[3, 5)`. -/
theorem CopyResult_example :
    (CopyResult exampleEnv copyExampleState).copytiles.Pos = 5
    ∧ (tilesByPage copyExampleState.heap copyExampleState.selectedTiles 2).map SelectedTile.Tile
        = [0, 2, 4, 1, 3]
    ∧ (CopyResult exampleEnv copyExampleState).copytiles.writes.map CopyTileWrite.slot
        = [0, 1, 2, 3, 4]
    ∧ (recordedDraws (CopyResult exampleEnv copyExampleState).cmds).drop
          (recordedDraws copyExampleState.cmds).length
        = [Command.draw 4 3 0 0, Command.draw 4 2 0 3] := by
  decide

/-! ## The cursor of the copy buffer is not kept below its size -/

/-- The cursor and the stores of `CopyResult` do not depend on
`copytiles.BufferSize`: the function never reads it. -/
theorem CopyResult_ignores_BufferSize {σ : Type} (env : LightmapperEnv σ)
    (st : VkLightmapper σ) (size : Nat) :
    (CopyResult env { st with copytiles := { st.copytiles with BufferSize := size } }).copytiles.Pos
        = (CopyResult env st).copytiles.Pos
    ∧ (CopyResult env
          { st with copytiles := { st.copytiles with BufferSize := size } }).copytiles.writes
        = (CopyResult env st).copytiles.writes := by
  simp only [CopyResult]
  split
  · exact ⟨rfl, rfl⟩
  · exact ⟨rfl, rfl⟩

/-- C17, failing input: a frame begun on a freshly constructed lightmapper
whose two buffers hold two entries each, three dirty tiles, and a mesh in
which no tile sees a surface. `Raytrace` returns; `Render` marks all three
tiles rendered without advancing `drawindexed.Pos`, `CopyResult` stores copy
infos at slots 0, 1 and 2, the last one outside the buffer of size 2, and
leaves `copytiles.Pos = 3`, which the test `copytiles.Pos ==
drawindexed.BufferSize` does not catch, so no reset follows. -/
theorem copytiles_cursor_overruns :
    (BeginFrame smallCopyBufferState).copytiles.Pos = 0
    ∧ (BeginFrame smallCopyBufferState).copytiles.BufferSize = 2
    ∧ (Raytrace exampleEnv (some blindMesh) [0, 1, 2] 2 (BeginFrame smallCopyBufferState)).map
        (fun st => (st.copytiles.Pos, st.copytiles.BufferSize,
          st.copytiles.writes.map CopyTileWrite.slot, st.drawindexed.Pos,
          st.cmds.filter (fun c => decide (c = Command.waitForCommands))))
      = some (3, 2, [0, 1, 2], 0, []) := by
  decide

/-! ### Where the cursor does stay inside the buffer

When every tile sees at least one surface and the copy buffer is at least as
large as the indirect-draw buffer, the copy cursor never passes the
indirect-draw cursor, which `Render` keeps below its buffer size. -/

theorem CopyResult_bound {σ : Type} (env : LightmapperEnv σ) (st : VkLightmapper σ) :
    (CopyResult env st).copytiles.Pos
        ≤ st.copytiles.Pos + (renderedTiles st.selectedTiles).length
    ∧ ∀ w ∈ (CopyResult env st).copytiles.writes,
        w ∈ st.copytiles.writes
          ∨ w.slot < st.copytiles.Pos + (renderedTiles st.selectedTiles).length := by
  by_cases h0 : (CopyResultSort st.heap st.selectedTiles
      (CopySortResult.mk (st.copylists.map (fun _ => [])) 0 0)).pixels = 0
  · simp only [CopyResult, h0, if_true]
    exact ⟨Nat.le_add_right _ _, fun w hw => Or.inl hw⟩
  · have hp := CopyResultSort_pixels st.heap st.selectedTiles
      (CopySortResult.mk (st.copylists.map (fun _ => [])) 0 0)
    have hlt := CopyResultSort_pixels_lt st.heap st.selectedTiles
      (CopySortResult.mk (st.copylists.map (fun _ => [])) 0 0) (by norm_num)
    rw [Nat.mod_eq_of_lt hlt] at hp
    simp only [Nat.zero_add] at hp
    have hpix : renderedArea st.heap st.selectedTiles % 2 ^ 32 ≠ 0 := by
      rw [← hp]; exact h0
    obtain ⟨h1, h2, _⟩ := CopyResult_of_pixels env st hpix
    have hperm : (tilesByPage st.heap st.selectedTiles (CopyResult env st).copylists.length).Perm
        (renderedTiles st.selectedTiles) := by
      rw [CopyResult_copylists]
      exact tilesByPage_perm st.heap st.selectedTiles st.copylists
    have hlen := hperm.length_eq
    refine ⟨by rw [h1, hlen], ?_⟩
    intro w hw
    rw [h2] at hw
    rcases List.mem_append.mp hw with h | h
    · exact Or.inl h
    · right
      have hs : w.slot ∈ (expectedCopyWrites st.heap st.copytiles.Pos
          (tilesByPage st.heap st.selectedTiles (CopyResult env st).copylists.length)).map
          CopyTileWrite.slot := List.mem_map_of_mem _ h
      rw [expectedCopyWrites_slots, hlen, List.mem_range'_1] at hs
      exact hs.2

theorem length_le_surfaceCount (mesh : LevelMesh) (l : List SelectedTile)
    (hvis : ∀ t, 1 ≤ (mesh.GetVisibleSurfaces t).length) :
    l.length ≤ surfaceCount mesh l := by
  induction l with
  | nil => simp
  | cons s l ih =>
    rw [surfaceCount_cons, List.length_cons]
    have := hvis s.Tile
    omega

theorem Render_Pos_rendered {σ : Type} (env : LightmapperEnv σ) (mesh : LevelMesh)
    (st : VkLightmapper σ) (hR : ∀ s ∈ st.selectedTiles, s.Rendered = false) :
    (Render env mesh st).drawindexed.Pos
      = st.drawindexed.Pos + surfaceCount mesh (renderedTiles (Render env mesh st).selectedTiles) := by
  obtain ⟨i, _, h1, _, h3⟩ :=
    RenderLoop_writes mesh env.bakeImageSize st.selectedTiles st.heap st.drawindexed
  have hsel : renderedTiles (Render env mesh st).selectedTiles
      = (st.selectedTiles.take i).map SelectedTile.markRendered := by
    show renderedTiles (RenderLoop mesh env.bakeImageSize st.selectedTiles st.heap
      st.drawindexed).selectedTiles = _
    rw [h1]
    exact renderedTiles_after_prefix st.selectedTiles i hR
  rw [hsel, surfaceCount_markRendered]
  exact h3

theorem RaytraceStages_CopyFits {σ : Type} (env : LightmapperEnv σ) (mesh : LevelMesh)
    (st : VkLightmapper σ) (hvis : ∀ t, 1 ≤ (mesh.GetVisibleSurfaces t).length)
    (hR : ∀ s ∈ st.selectedTiles, s.Rendered = false) (h : st.CopyFits) :
    (RaytraceStages env mesh st).CopyFits := by
  obtain ⟨hle, hinv, hsz, hw⟩ := h
  have hpos := Render_Pos_rendered env mesh st hR
  have hcount := length_le_surfaceCount mesh (renderedTiles (Render env mesh st).selectedTiles) hvis
  have hinv2 : (Render env mesh st).drawindexed.Inv :=
    RenderLoop_Inv mesh env.bakeImageSize st.selectedTiles st.heap st.drawindexed hinv
  have hb : (Render env mesh st).drawindexed.BufferSize = st.drawindexed.BufferSize :=
    RenderLoop_BufferSize mesh env.bakeImageSize st.selectedTiles st.heap st.drawindexed
  have key : ∀ st4 : VkLightmapper σ, st4.selectedTiles = (Render env mesh st).selectedTiles →
      st4.drawindexed = (Render env mesh st).drawindexed → st4.copytiles = st.copytiles →
      (CopyResult env st4).CopyFits := by
    intro st4 e1 e2 e3
    obtain ⟨b1, b2⟩ := CopyResult_bound env st4
    obtain ⟨f1, f2, f3, f4⟩ := CopyResult_frame env st4
    rw [e1, e3] at b1
    refine ⟨?_, ?_, ?_, ?_⟩
    · rw [f2, e2, hpos]; omega
    · rw [f2, e2]; exact hinv2
    · rw [f2, e2, hb, f4, e3]; exact hsz
    · intro w hmem
      rw [f4, e3]
      rcases b2 w hmem with hmem2 | hlt
      · rw [e3] at hmem2
        exact hw w hmem2
      · rw [e1, e3] at hlt
        have := hinv2.1
        rw [hb] at this
        omega
  simp only [RaytraceStages]
  cases env.lm_blur
  · exact key _ rfl rfl rfl
  · exact key _ rfl rfl rfl

theorem RaytraceReset_CopyFits {σ : Type} (st : VkLightmapper σ) (h : st.CopyFits) :
    (RaytraceReset st).CopyFits := by
  obtain ⟨_, hinv, hsz, hw⟩ := h
  exact ⟨Nat.le_refl 0, ⟨Nat.zero_le _, hinv.2⟩, hsz, hw⟩

theorem RaytraceLoop_CopyFits {σ : Type} (env : LightmapperEnv σ) (mesh : LevelMesh)
    (tiles : List TileId) (hvis : ∀ t, 1 ≤ (mesh.GetVisibleSurfaces t).length) (fuel : Nat)
    (st st' : VkLightmapper σ) (h : st.CopyFits)
    (hret : RaytraceLoop env mesh tiles fuel st = some st') : st'.CopyFits := by
  induction fuel generalizing st with
  | zero => simp [RaytraceLoop] at hret
  | succ fuel ih =>
    rw [RaytraceLoop_succ] at hret
    obtain ⟨g1, g2, _, _⟩ := SelectTiles_frame env tiles st
    have hsel : (SelectTiles env tiles st).CopyFits := by
      simp only [VkLightmapper.CopyFits, g1, g2]
      exact h
    split at hret
    · cases hret
      exact hsel
    · refine ih _ ?_ hret
      have hst := RaytraceStages_CopyFits env mesh (SelectTiles env tiles st) hvis
        (SelectTiles_Rendered env tiles st) hsel
      rw [RaytracePass_eq_stages]
      split
      · exact RaytraceReset_CopyFits _ hst
      · exact hst

/-- The part of C17 that does hold: when every tile of the mesh sees at least
one surface and the copy buffer is at least as large as the indirect-draw
buffer, the cursor of the copy buffer never passes the cursor of the
indirect-draw buffer, so after `BeginFrame` every state that `Raytrace`
returns has `copytiles.Pos <= copytiles.BufferSize` and every store of
`CopyResult` went to a slot below `copytiles.BufferSize`. -/
theorem Raytrace_CopyFits {σ : Type} (env : LightmapperEnv σ) (mesh : LevelMesh)
    (tiles : List TileId) (hvis : ∀ t, 1 ≤ (mesh.GetVisibleSurfaces t).length) (fuel : Nat)
    (st st' : VkLightmapper σ) (h : st.CopyFits)
    (hret : Raytrace env (some mesh) tiles fuel (BeginFrame st) = some st') :
    st'.copytiles.Pos ≤ st'.copytiles.BufferSize
    ∧ ∀ w ∈ st'.copytiles.writes, w.slot < st'.copytiles.BufferSize := by
  obtain ⟨_, hinv, hsz, hw⟩ := h
  have hb : (BeginFrame st).CopyFits :=
    ⟨Nat.le_refl 0, ⟨Nat.zero_le _, hinv.2⟩, hsz, hw⟩
  have hfin : st'.CopyFits := by
    simp only [Raytrace] at hret
    split at hret
    · exact RaytraceLoop_CopyFits env mesh tiles hvis fuel (UploadUniforms (BeginFrame st)) st'
        hb hret
    · cases hret
      exact hb
  obtain ⟨k1, k2, k3, k4⟩ := hfin
  exact ⟨Nat.le_trans k1 (Nat.le_trans k2.1 k3), k4⟩

/-- An example for the case that holds: three dirty tiles that see 1, 2 and 3
surfaces and buffers of 10 entries; `Raytrace` returns with the copy cursor at
3 and the indirect-draw cursor at 6. -/
theorem Raytrace_CopyFits_example :
    (Raytrace exampleEnv (some sightedMesh) [0, 1, 2] 2
        (BeginFrame (freshLightmapper (fun _ => dirtyTile 0) 10))).map
      (fun st => (st.copytiles.Pos, st.drawindexed.Pos, st.copytiles.BufferSize))
      = some (3, 6, 10) := by
  decide

/-! ## The shader table and the index that selects from it -/

theorem GetRaytracePipelineIndex_eq_bits (s : RaytraceSettings) (mesh : MeshLighting) :
    GetRaytracePipelineIndex s mesh = PermutationIndexOfBits
      (s.RunningAsTool || (s.lm_softshadows && s.useRayQuery))
      (mesh.AmbientOcclusion && (s.RunningAsTool || (s.lm_ao && s.useRayQuery)))
      ((mesh.SunColor != FVector3.mk 0 0 0) && (s.RunningAsTool || s.lm_sunlight))
      (mesh.LightBounce && (s.RunningAsTool || s.lm_bounce)) := by
  obtain ⟨a, b, c, d, e, f⟩ := s
  obtain ⟨g, v, h⟩ := mesh
  by_cases hv : v = FVector3.mk 0 0 0
  · subst hv
    cases a <;> cases b <;> cases c <;> cases d <;> cases e <;> cases f <;> cases g <;>
      cases h <;> decide
  · have hb : (v != FVector3.mk 0 0 0) = true := by simpa using hv
    simp only [GetRaytracePipelineIndex, hb]
    cases a <;> cases b <;> cases c <;> cases d <;> cases e <;> cases f <;> cases g <;>
      cases h <;> decide

theorem PermutationIndexOfBits_lt (b0 b1 b2 b3 : Bool) :
    PermutationIndexOfBits b0 b1 b2 b3 < 16 := by
  cases b0 <;> cases b1 <;> cases b2 <;> cases b3 <;> decide

theorem CreateRaytracePipeline_length (fragRaytrace : List FragmentShader) :
    (CreateRaytracePipeline fragRaytrace).length = 16 := by
  simp [CreateRaytracePipeline]

/-- C25: for every combination of `RunningAsTool`, the four toggles,
`useRayQuery` and mesh data, `GetRaytracePipelineIndex` is below 16, the
number of entries of the table that `CreateRaytracePipeline` builds, and the
pipeline that `Render` binds is the one of that index. -/
theorem GetRaytracePipelineIndex_in_table {σ : Type} (env : LightmapperEnv σ) (mesh : LevelMesh)
    (st : VkLightmapper σ) (fragRaytrace : List FragmentShader) :
    GetRaytracePipelineIndex env.settings mesh.toMeshLighting < 16
    ∧ GetRaytracePipelineIndex env.settings mesh.toMeshLighting
        < (CreateRaytracePipeline fragRaytrace).length
    ∧ Command.bindPipeline
          (LMPipeline.raytrace (GetRaytracePipelineIndex env.settings mesh.toMeshLighting))
        ∈ (Render env mesh st).cmds
    ∧ ∀ k, Command.bindPipeline (LMPipeline.raytrace k) ∈ (Render env mesh st).cmds →
        Command.bindPipeline (LMPipeline.raytrace k) ∈ st.cmds
          ∨ k = GetRaytracePipelineIndex env.settings mesh.toMeshLighting := by
  have hlt : GetRaytracePipelineIndex env.settings mesh.toMeshLighting < 16 := by
    rw [GetRaytracePipelineIndex_eq_bits]
    exact PermutationIndexOfBits_lt _ _ _ _
  refine ⟨hlt, by rw [CreateRaytracePipeline_length]; exact hlt, ?_, ?_⟩
  · rw [Render_cmds]
    simp
  · intro k hk
    rw [Render_cmds] at hk
    simp only [List.mem_append, List.mem_cons, List.mem_singleton, List.not_mem_nil,
      or_false] at hk
    rcases hk with ((h | h) | h) | h
    · exact Or.inl h
    · rcases h with h | h | h
      · cases h
      · cases h
      · right
        injection h with h
        injection h
    · split at h
      · simp at h
      · simp at h
    · cases h

/-- An example for C25: all features on gives index 15, the last slot. -/
theorem GetRaytracePipelineIndex_example :
    GetRaytracePipelineIndex (RaytraceSettings.mk true true true true true true)
      (MeshLighting.mk true (FVector3.mk 1 1 1) true) = 15 := by
  decide


theorem raytracePipelineShader_eq (useRayQuery : Bool) (i : Nat) (hi : i < 16) :
    raytracePipelineShader useRayQuery i
      = FragmentShader.mk (fragRaytraceDefines useRayQuery i)
          "shaders/lightmap/frag_raytrace.glsl" := by
  simp only [raytracePipelineShader, CreateRaytracePipeline, CreateShaders,
    List.getD_eq_getElem?_getD, List.getElem?_map, List.getElem?_range hi, Option.map_some',
    Option.getD_some]

set_option maxRecDepth 100000 in
theorem fragRaytraceDefines_table :
    ∀ useRayQuery : Bool, ∀ i, i < 16 →
      (((FragmentShader.mk (fragRaytraceDefines useRayQuery i) "").Defines "USE_SOFTSHADOWS"
          ↔ i.testBit 0 = true)
        ∧ ((FragmentShader.mk (fragRaytraceDefines useRayQuery i) "").Defines "USE_AO"
          ↔ i.testBit 1 = true)
        ∧ ((FragmentShader.mk (fragRaytraceDefines useRayQuery i) "").Defines "USE_SUNLIGHT"
          ↔ i.testBit 2 = true)
        ∧ ((FragmentShader.mk (fragRaytraceDefines useRayQuery i) "").Defines "USE_BOUNCE"
          ↔ i.testBit 3 = true)) := by
  decide

theorem PermutationIndexOfBits_testBit (b0 b1 b2 b3 : Bool) :
    (PermutationIndexOfBits b0 b1 b2 b3).testBit 0 = b0
    ∧ (PermutationIndexOfBits b0 b1 b2 b3).testBit 1 = b1
    ∧ (PermutationIndexOfBits b0 b1 b2 b3).testBit 2 = b2
    ∧ (PermutationIndexOfBits b0 b1 b2 b3).testBit 3 = b3 := by
  cases b0 <;> cases b1 <;> cases b2 <;> cases b3 <;> decide

theorem eq_of_testBit_lt_16 (i : Nat) (hi : i < 16) (j : Nat) (hj : j < 16)
    (h0 : i.testBit 0 = j.testBit 0) (h1 : i.testBit 1 = j.testBit 1)
    (h2 : i.testBit 2 = j.testBit 2) (h3 : i.testBit 3 = j.testBit 3) : i = j := by
  apply Nat.eq_of_testBit_eq
  intro k
  by_cases hk : k < 4
  · interval_cases k
    · exact h0
    · exact h1
    · exact h2
    · exact h3
  · have h16 : (16 : Nat) ≤ 2 ^ k := by
      have : (2 : Nat) ^ 4 ≤ 2 ^ k := Nat.pow_le_pow_right (by norm_num) (by omega)
      simpa using this
    rw [Nat.testBit_lt_two_pow (Nat.lt_of_lt_of_le hi h16),
      Nat.testBit_lt_two_pow (Nat.lt_of_lt_of_le hj h16)]

theorem raytracePipelineShader_Defines (useRayQuery : Bool) (i : Nat) (hi : i < 16) :
    ((raytracePipelineShader useRayQuery i).Defines "USE_SOFTSHADOWS" ↔ i.testBit 0 = true)
    ∧ ((raytracePipelineShader useRayQuery i).Defines "USE_AO" ↔ i.testBit 1 = true)
    ∧ ((raytracePipelineShader useRayQuery i).Defines "USE_SUNLIGHT" ↔ i.testBit 2 = true)
    ∧ ((raytracePipelineShader useRayQuery i).Defines "USE_BOUNCE" ↔ i.testBit 3 = true) := by
  rw [raytracePipelineShader_eq useRayQuery i hi]
  exact fragRaytraceDefines_table useRayQuery i hi

/-- C24: for every slot `i` below 16, the fragment shader of
`raytrace.pipeline[i]` is `shaders.fragRaytrace[i]`, whose version block
defines `USE_SOFTSHADOWS` iff bit 0 of `i` is set, `USE_AO` iff bit 1,
`USE_SUNLIGHT` iff bit 2 and `USE_BOUNCE` iff bit 3; so the pipeline that
`GetRaytracePipelineIndex` selects defines each of the four macros exactly
when the matching one of the four conditions the function tests holds; and
two different slots differ in whether they define at least one of the four
macros, so the 16 version blocks are pairwise distinct. -/
theorem shader_table_agrees_with_index (s : RaytraceSettings) (mesh : MeshLighting) :
    (∀ i, i < 16 →
      raytracePipelineShader s.useRayQuery i
          = (CreateShaders s.useRayQuery).getD i (FragmentShader.mk "" "")
      ∧ ((raytracePipelineShader s.useRayQuery i).Defines "USE_SOFTSHADOWS"
          ↔ i.testBit 0 = true)
      ∧ ((raytracePipelineShader s.useRayQuery i).Defines "USE_AO" ↔ i.testBit 1 = true)
      ∧ ((raytracePipelineShader s.useRayQuery i).Defines "USE_SUNLIGHT" ↔ i.testBit 2 = true)
      ∧ ((raytracePipelineShader s.useRayQuery i).Defines "USE_BOUNCE" ↔ i.testBit 3 = true))
    ∧ ((raytracePipelineShader s.useRayQuery (GetRaytracePipelineIndex s mesh)).Defines
          "USE_SOFTSHADOWS"
        ↔ (s.RunningAsTool || (s.lm_softshadows && s.useRayQuery)) = true)
    ∧ ((raytracePipelineShader s.useRayQuery (GetRaytracePipelineIndex s mesh)).Defines "USE_AO"
        ↔ (mesh.AmbientOcclusion && (s.RunningAsTool || (s.lm_ao && s.useRayQuery))) = true)
    ∧ ((raytracePipelineShader s.useRayQuery (GetRaytracePipelineIndex s mesh)).Defines
          "USE_SUNLIGHT"
        ↔ ((mesh.SunColor != FVector3.mk 0 0 0) && (s.RunningAsTool || s.lm_sunlight)) = true)
    ∧ ((raytracePipelineShader s.useRayQuery (GetRaytracePipelineIndex s mesh)).Defines
          "USE_BOUNCE"
        ↔ (mesh.LightBounce && (s.RunningAsTool || s.lm_bounce)) = true)
    ∧ (∀ i, i < 16 → ∀ j, j < 16 → i ≠ j →
        raytracePipelineShader s.useRayQuery i ≠ raytracePipelineShader s.useRayQuery j
        ∧ ∃ name ∈ ["USE_SOFTSHADOWS", "USE_AO", "USE_SUNLIGHT", "USE_BOUNCE"],
            ¬ ((raytracePipelineShader s.useRayQuery i).Defines name
                ↔ (raytracePipelineShader s.useRayQuery j).Defines name)) := by
  have hidx := GetRaytracePipelineIndex_eq_bits s mesh
  have hlt : GetRaytracePipelineIndex s mesh < 16 := by
    rw [hidx]; exact PermutationIndexOfBits_lt _ _ _ _
  obtain ⟨t0, t1, t2, t3⟩ := PermutationIndexOfBits_testBit
    (s.RunningAsTool || (s.lm_softshadows && s.useRayQuery))
    (mesh.AmbientOcclusion && (s.RunningAsTool || (s.lm_ao && s.useRayQuery)))
    ((mesh.SunColor != FVector3.mk 0 0 0) && (s.RunningAsTool || s.lm_sunlight))
    (mesh.LightBounce && (s.RunningAsTool || s.lm_bounce))
  rw [← hidx] at t0 t1 t2 t3
  obtain ⟨c0, c1, c2, c3⟩ :=
    raytracePipelineShader_Defines s.useRayQuery (GetRaytracePipelineIndex s mesh) hlt
  refine ⟨?_, ?_, ?_, ?_, ?_, ?_⟩
  · intro i hi
    refine ⟨?_, raytracePipelineShader_Defines s.useRayQuery i hi⟩
    simp only [raytracePipelineShader, CreateRaytracePipeline, List.getD_eq_getElem?_getD,
      List.getElem?_map, List.getElem?_range hi, Option.map_some', Option.getD_some]
  · rw [c0, t0]
  · rw [c1, t1]
  · rw [c2, t2]
  · rw [c3, t3]
  · intro i hi j hj hij
    obtain ⟨a0, a1, a2, a3⟩ := raytracePipelineShader_Defines s.useRayQuery i hi
    obtain ⟨b0, b1, b2, b3⟩ := raytracePipelineShader_Defines s.useRayQuery j hj
    have hex : ∃ name ∈ ["USE_SOFTSHADOWS", "USE_AO", "USE_SUNLIGHT", "USE_BOUNCE"],
        ¬ ((raytracePipelineShader s.useRayQuery i).Defines name
            ↔ (raytracePipelineShader s.useRayQuery j).Defines name) := by
      by_contra hno
      have hall : ∀ name ∈ ["USE_SOFTSHADOWS", "USE_AO", "USE_SUNLIGHT", "USE_BOUNCE"],
          ((raytracePipelineShader s.useRayQuery i).Defines name
            ↔ (raytracePipelineShader s.useRayQuery j).Defines name) := by
        intro name hname
        by_contra hn
        exact hno ⟨name, hname, hn⟩
      have e0 := hall "USE_SOFTSHADOWS" (by simp)
      have e1 := hall "USE_AO" (by simp)
      have e2 := hall "USE_SUNLIGHT" (by simp)
      have e3 := hall "USE_BOUNCE" (by simp)
      rw [a0, b0] at e0
      rw [a1, b1] at e1
      rw [a2, b2] at e2
      rw [a3, b3] at e3
      exact hij (eq_of_testBit_lt_16 i hi j hj (Bool.eq_iff_iff.mpr e0) (Bool.eq_iff_iff.mpr e1)
        (Bool.eq_iff_iff.mpr e2) (Bool.eq_iff_iff.mpr e3))
    refine ⟨?_, hex⟩
    intro heq
    obtain ⟨name, _, hn⟩ := hex
    rw [heq] at hn
    exact hn Iff.rfl

/-- An example for C24: slot 5 defines soft shadows and sunlight only, with
and without ray queries. -/
theorem shader_table_example :
    (raytracePipelineShader false 5).versionBlock
      = "#version 460\r\n#extension GL_GOOGLE_include_directive : enable\n#extension GL_EXT_nonuniform_qualifier : enable\r\n#define USE_SOFTSHADOWS\n#define USE_SUNLIGHT\n"
    ∧ (raytracePipelineShader true 5).versionBlock
      = "#version 460\r\n#extension GL_GOOGLE_include_directive : enable\n#extension GL_EXT_nonuniform_qualifier : enable\r\n#extension GL_EXT_ray_query : require\r\n#define USE_RAYQUERY\r\n#define USE_SOFTSHADOWS\n#define USE_SUNLIGHT\n" :=
  ⟨by rfl, by rfl⟩

/-! ## The face bases and the roughness of the prober -/

theorem dispatchPushes_append (a b : List ProbeCommand) :
    dispatchPushes (a ++ b) = dispatchPushes a ++ dispatchPushes b := by
  simp [dispatchPushes, List.filterMap_append]

theorem dispatchPushes_barrier_cons (images : List (ImageBarrier ProbeImage))
    (l : List ProbeCommand) :
    dispatchPushes (ProbeCommand.pipelineBarrier images :: l) = dispatchPushes l := rfl

theorem dispatchPushes_bind_cons (pipeline : ProbePipeline) (l : List ProbeCommand) :
    dispatchPushes (ProbeCommand.bindPipeline pipeline :: l) = dispatchPushes l := rfl

theorem dispatchPushes_nil : dispatchPushes [] = [] := rfl

theorem dispatchPushes_copies {α : Type} (l : List α) (src dst : α → ProbeImage)
    (w h layer level : α → Nat) :
    dispatchPushes (l.map fun i =>
      ProbeCommand.copyImage (src i) (dst i) (w i) (h i) (layer i) (level i)) = [] := by
  induction l with
  | nil => rfl
  | cons a l ih => exact ih

theorem dispatchPushes_dispatches {α : Type} (l : List α) (set : α → Nat)
    (push : α → ConvolutePushConstants) (x y z : α → Nat) :
    dispatchPushes (l.map fun i => ProbeCommand.dispatch (set i) (push i) (x i) (y i) (z i))
      = l.map push := by
  induction l with
  | nil => rfl
  | cons a l ih =>
    show push a :: dispatchPushes (l.map fun i =>
      ProbeCommand.dispatch (set i) (push i) (x i) (y i) (z i)) = push a :: l.map push
    rw [ih]

theorem dispatchPushes_flatMap {α : Type} (l : List α) (f : α → List ProbeCommand) :
    dispatchPushes (l.flatMap f) = l.flatMap fun i => dispatchPushes (f i) := by
  induction l with
  | nil => rfl
  | cons a l ih =>
    simp only [List.flatMap_cons, dispatchPushes_append, ih]

theorem GenerateIrradianceMap_pushes (probeIndex : Nat) (st : VkLightprober) :
    dispatchPushes (GenerateIrradianceMap probeIndex st).cmds
      = dispatchPushes st.cmds ++ (List.range 6).map (faceBasis irradianceDir irradianceUp) := by
  simp only [GenerateIrradianceMap, dispatchPushes_append, dispatchPushes_barrier_cons,
    dispatchPushes_bind_cons, dispatchPushes_nil, dispatchPushes_copies,
    dispatchPushes_dispatches, List.append_nil, List.append_assoc]
  rfl

theorem GeneratePrefilterMap_pushes (probeIndex : Nat) (st : VkLightprober) :
    dispatchPushes (GeneratePrefilterMap probeIndex st).cmds
      = dispatchPushes st.cmds ++ (List.range 6).flatMap fun i =>
          (List.range st.prefilterMap.maxlevels).map fun level : Nat =>
            { faceBasis prefilterDir prefilterUp i with
              roughness := (level : ℚ) / (((st.prefilterMap.maxlevels : Int) - 1 : Int) : ℚ) } := by
  simp only [GeneratePrefilterMap, dispatchPushes_append, dispatchPushes_barrier_cons,
    dispatchPushes_bind_cons, dispatchPushes_nil, dispatchPushes_copies,
    dispatchPushes_dispatches, dispatchPushes_flatMap, List.append_nil, List.append_assoc]
  rfl

theorem faceBasis_table :
    ∀ i, i < 6 →
      (faceBasis irradianceDir irradianceUp i).RightHanded
      ∧ tableAt irradianceDir i ∈ axisDirections
      ∧ tableAt irradianceUp i ∈ axisDirections
      ∧ faceBasis prefilterDir prefilterUp i = faceBasis irradianceDir irradianceUp i := by
  decide

/-- C26: the `dir` and `up` tables of the irradiance and of the prefilter
generator are entry for entry the same; for each of the six faces `dir` and
`up` are axis unit vectors orthogonal to each other, and with
`side = -(dir ^ up)`, the operator read as the cross product, the three
vectors are an orthonormal basis with `det[dir, side, up] = +1`; the push
constants of every dispatch that the two generators record carry such a
basis, so all faces are captured with the same handedness. -/
theorem cube_face_bases_right_handed (probeIndex : Nat) (st : VkLightprober) :
    irradianceDir = prefilterDir
    ∧ irradianceUp = prefilterUp
    ∧ (∀ i, i < 6 →
        (faceBasis irradianceDir irradianceUp i).RightHanded
        ∧ (faceBasis prefilterDir prefilterUp i).RightHanded
        ∧ tableAt irradianceDir i ∈ axisDirections
        ∧ tableAt irradianceUp i ∈ axisDirections)
    ∧ dispatchPushes (GenerateIrradianceMap probeIndex st).cmds
        = dispatchPushes st.cmds ++ (List.range 6).map (faceBasis irradianceDir irradianceUp)
    ∧ (∀ p ∈ dispatchPushes (GenerateIrradianceMap probeIndex st).cmds,
        p ∈ dispatchPushes st.cmds ∨ p.RightHanded)
    ∧ (∀ p ∈ dispatchPushes (GeneratePrefilterMap probeIndex st).cmds,
        p ∈ dispatchPushes st.cmds ∨ p.RightHanded) := by
  refine ⟨rfl, rfl, ?_, GenerateIrradianceMap_pushes probeIndex st, ?_, ?_⟩
  · intro i hi
    obtain ⟨h1, h2, h3, h4⟩ := faceBasis_table i hi
    exact ⟨h1, by rw [h4]; exact h1, h2, h3⟩
  · intro p hp
    rw [GenerateIrradianceMap_pushes, List.mem_append] at hp
    rcases hp with hp | hp
    · exact Or.inl hp
    · obtain ⟨i, hi, rfl⟩ := List.mem_map.1 hp
      exact Or.inr (faceBasis_table i (List.mem_range.1 hi)).1
  · intro p hp
    rw [GeneratePrefilterMap_pushes, List.mem_append] at hp
    rcases hp with hp | hp
    · exact Or.inl hp
    · obtain ⟨i, hi, hp2⟩ := List.mem_flatMap.1 hp
      obtain ⟨level, _, rfl⟩ := List.mem_map.1 hp2
      obtain ⟨h1, _, _, h4⟩ := faceBasis_table i (List.mem_range.1 hi)
      right
      rw [h4]
      exact h1

/-- An example for C26: face 2 looks along -y with up +z, and its side is +x. -/
theorem cube_face_basis_example :
    faceBasis irradianceDir irradianceUp 2
      = ConvolutePushConstants.mk (FVector3.mk 0 (-1) 0) (FVector3.mk 1 0 0)
          (FVector3.mk 0 0 1) 0 := by
  decide

/-- C22: for `maxlevels >= 2`, the roughness values of the dispatches that
`GeneratePrefilterMap` records are, for each of the six faces, `level /
(maxlevels - 1)` for `level = 0, ..., maxlevels - 1`, as exact rationals; the
divisor is not zero, the value is 0 at level 0 and 1 at level `maxlevels - 1`,
it lies in `[0, 1]` and it is strictly increasing in the level. -/
theorem prefilter_roughness_linear (probeIndex : Nat) (st : VkLightprober)
    (hm : 2 ≤ st.prefilterMap.maxlevels) :
    (dispatchPushes (GeneratePrefilterMap probeIndex st).cmds).map
        ConvolutePushConstants.roughness
      = (dispatchPushes st.cmds).map ConvolutePushConstants.roughness
        ++ (List.range 6).flatMap (fun _ =>
            (List.range st.prefilterMap.maxlevels).map fun level : Nat =>
              (level : ℚ) / ((st.prefilterMap.maxlevels : ℚ) - 1))
    ∧ (st.prefilterMap.maxlevels : ℚ) - 1 ≠ 0
    ∧ ((0 : Nat) : ℚ) / ((st.prefilterMap.maxlevels : ℚ) - 1) = 0
    ∧ ((st.prefilterMap.maxlevels - 1 : Nat) : ℚ) / ((st.prefilterMap.maxlevels : ℚ) - 1) = 1
    ∧ (∀ level, level < st.prefilterMap.maxlevels →
        0 ≤ (level : ℚ) / ((st.prefilterMap.maxlevels : ℚ) - 1)
        ∧ (level : ℚ) / ((st.prefilterMap.maxlevels : ℚ) - 1) ≤ 1)
    ∧ (∀ a b : Nat, a < b →
        (a : ℚ) / ((st.prefilterMap.maxlevels : ℚ) - 1)
          < (b : ℚ) / ((st.prefilterMap.maxlevels : ℚ) - 1)) := by
  have hpos : (0 : ℚ) < (st.prefilterMap.maxlevels : ℚ) - 1 := by
    have : (2 : ℚ) ≤ (st.prefilterMap.maxlevels : ℚ) := by exact_mod_cast hm
    linarith
  have hcast : (((st.prefilterMap.maxlevels : Int) - 1 : Int) : ℚ)
      = (st.prefilterMap.maxlevels : ℚ) - 1 := by
    push_cast
    rfl
  refine ⟨?_, ne_of_gt hpos, by simp, ?_, ?_, ?_⟩
  · rw [GeneratePrefilterMap_pushes, List.map_append, List.map_flatMap]
    simp only [List.map_map, Function.comp_def, hcast]
  · have : ((st.prefilterMap.maxlevels - 1 : Nat) : ℚ) = (st.prefilterMap.maxlevels : ℚ) - 1 := by
      rw [Nat.cast_sub (by omega)]
      simp
    rw [this]
    exact div_self (ne_of_gt hpos)
  · intro level hl
    refine ⟨div_nonneg (Nat.cast_nonneg _) (le_of_lt hpos), ?_⟩
    rw [div_le_one hpos]
    have : (level : ℚ) + 1 ≤ (st.prefilterMap.maxlevels : ℚ) := by exact_mod_cast hl
    linarith
  · intro a b hab
    exact div_lt_div_of_pos_right (by exact_mod_cast hab) hpos

/-- C22, witness: the prober with two mip levels; the roughness values of one
face are 0 and 1. -/
theorem prefilter_roughness_linear_witness :
    2 ≤ freshLightprober.prefilterMap.maxlevels
    ∧ (dispatchPushes (GeneratePrefilterMap 0 freshLightprober).cmds).map
        ConvolutePushConstants.roughness
      = (dispatchPushes freshLightprober.cmds).map ConvolutePushConstants.roughness
        ++ (List.range 6).flatMap (fun _ =>
            (List.range freshLightprober.prefilterMap.maxlevels).map fun level : Nat =>
              (level : ℚ) / ((freshLightprober.prefilterMap.maxlevels : ℚ) - 1))
    ∧ (freshLightprober.prefilterMap.maxlevels : ℚ) - 1 ≠ 0 :=
  ⟨by decide,
    (prefilter_roughness_linear 0 freshLightprober (by decide)).1,
    (prefilter_roughness_linear 0 freshLightprober (by decide)).2.1⟩

/-- An example for C22: with five mip levels the roughness values of a face
are 0, 1/4, 1/2, 3/4 and 1. -/
theorem prefilter_roughness_example :
    ((dispatchPushes (GeneratePrefilterMap 0
        { freshLightprober with
          prefilterMap := PrefilterMap.mk 5 (CreatePrefilterImages 5 0) [] }).cmds).map
      ConvolutePushConstants.roughness).take 5 = [0, 1 / 4, 1 / 2, 3 / 4, 1] := by
  rw [GeneratePrefilterMap_pushes]
  norm_num [dispatchPushes, freshLightprober, List.range, List.range.loop, List.flatMap,
    List.take]

/-! ## The prefilter scratch images: creation, dispatch and copy -/

theorem prefilterImagesUpTo_set (m h k : Nat) (hk : k < 6 * m) :
    (prefilterImagesUpTo m h k).set k (prefilterScratchImage m h k)
      = prefilterImagesUpTo m h (k + 1) := by
  have hrep : List.replicate (6 * m - k) (none : Option VulkanImage)
      = none :: List.replicate (6 * m - (k + 1)) none := by
    have : 6 * m - k = (6 * m - (k + 1)) + 1 := by omega
    rw [this, List.replicate_succ]
  have hlen : ((List.range k).map (prefilterScratchImage m h)).length = k := by simp
  simp only [prefilterImagesUpTo]
  rw [hrep, List.range_succ, List.map_append, List.map_singleton, List.append_assoc]
  rw [List.set_append_right k (prefilterScratchImage m h k) (by rw [hlen]), hlen, Nat.sub_self]
  rfl

theorem CreatePrefilterImages_inner (m h i l : Nat) (hi : i < 6) (hl : l ≤ m) :
    (List.range l).foldl (fun images level =>
        images.set (i * m + level)
          (some (VulkanImage.mk (h + (i * m + level)) (128 >>> level) (128 >>> level) 1 1)))
      (prefilterImagesUpTo m h (i * m))
      = prefilterImagesUpTo m h (i * m + l) := by
  induction l with
  | zero => rfl
  | succ l ih =>
    rw [List.range_succ, List.foldl_append, ih (by omega)]
    simp only [List.foldl_cons, List.foldl_nil]
    have hmod : (i * m + l) % m = l := by
      rw [Nat.add_comm, Nat.add_mul_mod_self_right]
      exact Nat.mod_eq_of_lt (by omega)
    have hv : some (VulkanImage.mk (h + (i * m + l)) (128 >>> l) (128 >>> l) 1 1)
        = prefilterScratchImage m h (i * m + l) := by
      simp only [prefilterScratchImage, hmod]
    have hlt : i * m + l < 6 * m := by
      have : (i + 1) * m ≤ 6 * m := Nat.mul_le_mul_right m (by omega)
      rw [Nat.add_mul, Nat.one_mul] at this
      omega
    rw [hv, prefilterImagesUpTo_set m h (i * m + l) hlt]
    rfl

theorem CreatePrefilterImages_outer (m h n : Nat) (hn : n ≤ 6) :
    (List.range n).foldl (fun images i =>
        (List.range m).foldl (fun images level =>
          images.set (i * m + level)
            (some (VulkanImage.mk (h + (i * m + level)) (128 >>> level) (128 >>> level) 1 1)))
          images)
      (prefilterImagesUpTo m h 0)
      = prefilterImagesUpTo m h (n * m) := by
  induction n with
  | zero => simp
  | succ n ih =>
    rw [List.range_succ, List.foldl_append, ih (by omega)]
    simp only [List.foldl_cons, List.foldl_nil]
    rw [CreatePrefilterImages_inner m h n m (by omega) (Nat.le_refl m)]
    congr 1
    rw [Nat.add_mul, Nat.one_mul]

/-- The scratch array that `CreatePrefilterMap` leaves: image `idx` has extent
`128 >> (idx % maxlevels)`. -/
theorem CreatePrefilterImages_eq (m h : Nat) :
    CreatePrefilterImages m h = (List.range (6 * m)).map (prefilterScratchImage m h) := by
  have h0 : List.replicate (6 * m) (none : Option VulkanImage) = prefilterImagesUpTo m h 0 := by
    simp [prefilterImagesUpTo]
  simp only [CreatePrefilterImages]
  rw [h0]
  have := CreatePrefilterImages_outer m h 6 (Nat.le_refl 6)
  simp only at this
  rw [this]
  simp [prefilterImagesUpTo]

theorem range_mul_map {α : Type} (n m : Nat) (g : Nat → α) :
    (List.range (n * m)).map g
      = (List.range n).flatMap fun i => (List.range m).map fun l => g (i * m + l) := by
  induction n with
  | zero => simp
  | succ n ih =>
    rw [Nat.add_mul, Nat.one_mul, List.range_add, List.map_append, ih, List.range_succ,
      List.flatMap_append]
    simp [List.map_map, Function.comp_def]

theorem flatMap_map_congr {β : Type} (l₁ l₂ : List Nat) (f g : Nat → Nat → β)
    (h : ∀ i ∈ l₁, ∀ j ∈ l₂, f i j = g i j) :
    (l₁.flatMap fun i => l₂.map (f i)) = l₁.flatMap fun i => l₂.map (g i) := by
  induction l₁ with
  | nil => rfl
  | cons a l ih =>
    simp only [List.flatMap_cons]
    rw [ih (fun i hi => h i (List.mem_cons_of_mem _ hi))]
    congr 1
    exact List.map_congr_left (fun j hj => h a (List.mem_cons_self _ _) j hj)

theorem idx_div_mod (m face level : Nat) (hl : level < m) :
    (face * m + level) / m = face ∧ (face * m + level) % m = level := by
  have hm : 0 < m := by omega
  constructor
  · rw [Nat.add_comm, Nat.add_mul_div_right _ _ hm, Nat.div_eq_of_lt hl, Nat.zero_add]
  · rw [Nat.add_comm, Nat.add_mul_mod_self_right]
    exact Nat.mod_eq_of_lt hl

theorem dispatchShapes_append (a b : List ProbeCommand) :
    dispatchShapes (a ++ b) = dispatchShapes a ++ dispatchShapes b := by
  simp [dispatchShapes, List.filterMap_append]

theorem dispatchShapes_barrier_cons (images : List (ImageBarrier ProbeImage))
    (l : List ProbeCommand) :
    dispatchShapes (ProbeCommand.pipelineBarrier images :: l) = dispatchShapes l := rfl

theorem dispatchShapes_bind_cons (pipeline : ProbePipeline) (l : List ProbeCommand) :
    dispatchShapes (ProbeCommand.bindPipeline pipeline :: l) = dispatchShapes l := rfl

theorem dispatchShapes_nil : dispatchShapes [] = [] := rfl

theorem dispatchShapes_copies {α : Type} (l : List α) (src dst : α → ProbeImage)
    (w h layer level : α → Nat) :
    dispatchShapes (l.map fun i =>
      ProbeCommand.copyImage (src i) (dst i) (w i) (h i) (layer i) (level i)) = [] := by
  induction l with
  | nil => rfl
  | cons a l ih => exact ih

theorem dispatchShapes_dispatches {α : Type} (l : List α) (set : α → Nat)
    (push : α → ConvolutePushConstants) (x y z : α → Nat) :
    dispatchShapes (l.map fun i => ProbeCommand.dispatch (set i) (push i) (x i) (y i) (z i))
      = l.map fun i => (set i, x i, y i, z i) := by
  induction l with
  | nil => rfl
  | cons a l ih =>
    show (set a, x a, y a, z a) :: dispatchShapes (l.map fun i =>
      ProbeCommand.dispatch (set i) (push i) (x i) (y i) (z i)) = _
    rw [ih]
    rfl

theorem dispatchShapes_flatMap {α : Type} (l : List α) (f : α → List ProbeCommand) :
    dispatchShapes (l.flatMap f) = l.flatMap fun i => dispatchShapes (f i) := by
  induction l with
  | nil => rfl
  | cons a l ih =>
    simp only [List.flatMap_cons, dispatchShapes_append, ih]

theorem recordedCopies_append (a b : List ProbeCommand) :
    recordedCopies (a ++ b) = recordedCopies a ++ recordedCopies b := by
  simp [recordedCopies, List.filter_append]

theorem recordedCopies_barrier_cons (images : List (ImageBarrier ProbeImage))
    (l : List ProbeCommand) :
    recordedCopies (ProbeCommand.pipelineBarrier images :: l) = recordedCopies l := rfl

theorem recordedCopies_bind_cons (pipeline : ProbePipeline) (l : List ProbeCommand) :
    recordedCopies (ProbeCommand.bindPipeline pipeline :: l) = recordedCopies l := rfl

theorem recordedCopies_nil : recordedCopies [] = [] := rfl

theorem recordedCopies_copies {α : Type} (l : List α) (src dst : α → ProbeImage)
    (w h layer level : α → Nat) :
    recordedCopies (l.map fun i =>
      ProbeCommand.copyImage (src i) (dst i) (w i) (h i) (layer i) (level i))
      = l.map fun i => ProbeCommand.copyImage (src i) (dst i) (w i) (h i) (layer i) (level i) := by
  induction l with
  | nil => rfl
  | cons a l ih =>
    show ProbeCommand.copyImage (src a) (dst a) (w a) (h a) (layer a) (level a)
      :: recordedCopies (l.map fun i =>
        ProbeCommand.copyImage (src i) (dst i) (w i) (h i) (layer i) (level i)) = _
    rw [ih]
    rfl

theorem recordedCopies_dispatches {α : Type} (l : List α) (set : α → Nat)
    (push : α → ConvolutePushConstants) (x y z : α → Nat) :
    recordedCopies (l.map fun i => ProbeCommand.dispatch (set i) (push i) (x i) (y i) (z i))
      = [] := by
  induction l with
  | nil => rfl
  | cons a l ih => exact ih

theorem recordedCopies_flatMap_dispatches {α β : Type} (l : List α) (l₂ : α → List β)
    (set : α → β → Nat) (push : α → β → ConvolutePushConstants) (x y z : α → β → Nat) :
    recordedCopies (l.flatMap fun i => (l₂ i).map fun j =>
      ProbeCommand.dispatch (set i j) (push i j) (x i j) (y i j) (z i j)) = [] := by
  induction l with
  | nil => rfl
  | cons a l ih =>
    simp only [List.flatMap_cons, recordedCopies_append, ih, List.append_nil]
    exact recordedCopies_dispatches (l₂ a) (set a) (push a) (x a) (y a) (z a)

theorem prefilter_imageWidth (st : VkLightprober) (firstHandle idx : Nat)
    (himg : st.prefilterMap.images
      = CreatePrefilterImages st.prefilterMap.maxlevels firstHandle)
    (hidx : idx < 6 * st.prefilterMap.maxlevels) :
    st.prefilterMap.imageWidth idx = 128 >>> (idx % st.prefilterMap.maxlevels)
    ∧ st.prefilterMap.imageHeight idx = 128 >>> (idx % st.prefilterMap.maxlevels) := by
  have hg : st.prefilterMap.images.getD idx none
      = prefilterScratchImage st.prefilterMap.maxlevels firstHandle idx := by
    rw [himg, CreatePrefilterImages_eq]
    simp [List.getD_eq_getElem?_getD, List.getElem?_map, List.getElem?_range hidx]
  constructor
  · show (match st.prefilterMap.images.getD idx none with
      | none => 0
      | some image => image.width) = _
    rw [hg]
    rfl
  · show (match st.prefilterMap.images.getD idx none with
      | none => 0
      | some image => image.height) = _
    rw [hg]
    rfl

/-- C23: for `maxlevels >= 1` and the scratch images as `CreatePrefilterMap`
made them, `idx = face * maxlevels + level` has `idx / maxlevels = face` and
`idx % maxlevels = level` and lies below `6 * maxlevels`, and every index
below `6 * maxlevels` is of this form for exactly its quotient and remainder;
`GeneratePrefilterMap` records one dispatch per (face, level) pair, with
descriptor set `idx` and `128 >> level` groups in x and y, so the descriptor
sets used are `0, ..., 6 * maxlevels - 1`, each once; and it records one copy
per pair, from scratch image `idx` with extent `128 >> level` into array layer
`face` and mip level `level` of the probe image. -/
theorem prefilter_scratch_indexing (probeIndex firstHandle : Nat) (st : VkLightprober)
    (hm : 1 ≤ st.prefilterMap.maxlevels)
    (himg : st.prefilterMap.images
      = CreatePrefilterImages st.prefilterMap.maxlevels firstHandle) :
    (∀ face level, face < 6 → level < st.prefilterMap.maxlevels →
      (face * st.prefilterMap.maxlevels + level) / st.prefilterMap.maxlevels = face
      ∧ (face * st.prefilterMap.maxlevels + level) % st.prefilterMap.maxlevels = level
      ∧ face * st.prefilterMap.maxlevels + level < 6 * st.prefilterMap.maxlevels
      ∧ st.prefilterMap.images.getD (face * st.prefilterMap.maxlevels + level) none
          = some (VulkanImage.mk (firstHandle + (face * st.prefilterMap.maxlevels + level))
              (128 >>> level) (128 >>> level) 1 1))
    ∧ (∀ idx, idx < 6 * st.prefilterMap.maxlevels →
        idx / st.prefilterMap.maxlevels < 6
        ∧ idx % st.prefilterMap.maxlevels < st.prefilterMap.maxlevels
        ∧ idx / st.prefilterMap.maxlevels * st.prefilterMap.maxlevels
            + idx % st.prefilterMap.maxlevels = idx)
    ∧ dispatchShapes (GeneratePrefilterMap probeIndex st).cmds
        = dispatchShapes st.cmds ++ ((List.range 6).flatMap fun face =>
            (List.range st.prefilterMap.maxlevels).map fun level =>
              (face * st.prefilterMap.maxlevels + level, 128 >>> level, 128 >>> level, 1))
    ∧ ((List.range 6).flatMap fun face =>
          (List.range st.prefilterMap.maxlevels).map fun level =>
            face * st.prefilterMap.maxlevels + level)
        = List.range (6 * st.prefilterMap.maxlevels)
    ∧ recordedCopies (GeneratePrefilterMap probeIndex st).cmds
        = recordedCopies st.cmds ++ (List.range 6).flatMap fun face =>
            (List.range st.prefilterMap.maxlevels).map fun level =>
              ProbeCommand.copyImage
                (ProbeImage.prefilterScratch (face * st.prefilterMap.maxlevels + level))
                (ProbeImage.prefilterProbe probeIndex) (128 >>> level) (128 >>> level)
                face level := by
  have hmpos : 0 < st.prefilterMap.maxlevels := hm
  refine ⟨?_, ?_, ?_, ?_, ?_⟩
  · intro face level hf hl
    obtain ⟨h1, h2⟩ := idx_div_mod st.prefilterMap.maxlevels face level hl
    have hlt : face * st.prefilterMap.maxlevels + level < 6 * st.prefilterMap.maxlevels := by
      have : (face + 1) * st.prefilterMap.maxlevels ≤ 6 * st.prefilterMap.maxlevels :=
        Nat.mul_le_mul_right _ (by omega)
      rw [Nat.add_mul, Nat.one_mul] at this
      omega
    refine ⟨h1, h2, hlt, ?_⟩
    rw [himg, CreatePrefilterImages_eq]
    simp [List.getD_eq_getElem?_getD, List.getElem?_map, List.getElem?_range hlt,
      prefilterScratchImage, h2]
  · intro idx hidx
    refine ⟨?_, Nat.mod_lt _ hmpos, Nat.div_add_mod' idx _⟩
    rw [Nat.div_lt_iff_lt_mul hmpos]
    exact hidx
  · simp only [GeneratePrefilterMap, dispatchShapes_append, dispatchShapes_barrier_cons,
      dispatchShapes_bind_cons, dispatchShapes_nil, dispatchShapes_copies,
      dispatchShapes_dispatches, dispatchShapes_flatMap, List.append_nil, List.nil_append,
      List.append_assoc]
  · have := range_mul_map 6 st.prefilterMap.maxlevels (fun i => i)
    simp only [List.map_id'] at this
    exact this.symm
  · simp only [GeneratePrefilterMap, recordedCopies_append, recordedCopies_barrier_cons,
      recordedCopies_bind_cons, recordedCopies_nil, recordedCopies_copies,
      recordedCopies_flatMap_dispatches, List.append_nil, List.nil_append, List.append_assoc]
    congr 1
    rw [range_mul_map 6 st.prefilterMap.maxlevels]
    apply flatMap_map_congr
    intro face _ level hlevel
    have hl : level < st.prefilterMap.maxlevels := List.mem_range.1 hlevel
    obtain ⟨h1, h2⟩ := idx_div_mod st.prefilterMap.maxlevels face level hl
    have hf : face < 6 := List.mem_range.1 (by assumption)
    have hlt : face * st.prefilterMap.maxlevels + level < 6 * st.prefilterMap.maxlevels := by
      have : (face + 1) * st.prefilterMap.maxlevels ≤ 6 * st.prefilterMap.maxlevels :=
        Nat.mul_le_mul_right _ (by omega)
      rw [Nat.add_mul, Nat.one_mul] at this
      omega
    obtain ⟨w1, w2⟩ := prefilter_imageWidth st firstHandle _ himg hlt
    rw [w1, w2, h1, h2]

/-- C23, witness: the prober with two mip levels, whose scratch images were
made from handle 0 on. -/
theorem prefilter_scratch_indexing_witness :
    1 ≤ freshLightprober.prefilterMap.maxlevels
    ∧ freshLightprober.prefilterMap.images
        = CreatePrefilterImages freshLightprober.prefilterMap.maxlevels 0
    ∧ recordedCopies (GeneratePrefilterMap 0 freshLightprober).cmds
        = recordedCopies freshLightprober.cmds ++ (List.range 6).flatMap fun face =>
            (List.range freshLightprober.prefilterMap.maxlevels).map fun level =>
              ProbeCommand.copyImage
                (ProbeImage.prefilterScratch
                  (face * freshLightprober.prefilterMap.maxlevels + level))
                (ProbeImage.prefilterProbe 0) (128 >>> level) (128 >>> level) face level :=
  ⟨by decide, rfl,
    (prefilter_scratch_indexing 0 0 freshLightprober (by decide) rfl).2.2.2.2⟩

/-- An example for C23: with two mip levels the twelve dispatches use the
descriptor sets 0 to 11 with 128 and 64 groups in turn, and scratch image 5
is copied with extent 64 into layer 2, mip level 1. -/
theorem prefilter_scratch_example :
    dispatchShapes (GeneratePrefilterMap 0 freshLightprober).cmds
      = [(0, 128, 128, 1), (1, 64, 64, 1), (2, 128, 128, 1), (3, 64, 64, 1),
         (4, 128, 128, 1), (5, 64, 64, 1), (6, 128, 128, 1), (7, 64, 64, 1),
         (8, 128, 128, 1), (9, 64, 64, 1), (10, 128, 128, 1), (11, 64, 64, 1)]
    ∧ (recordedCopies (GeneratePrefilterMap 0 freshLightprober).cmds).getD 5
          (ProbeCommand.bindPipeline ProbePipeline.prefilterMap)
        = ProbeCommand.copyImage (ProbeImage.prefilterScratch 5) (ProbeImage.prefilterProbe 0)
            64 64 2 1 := by
  decide

/-! ## The stride of the uniform buffer -/

theorem roundUp_spec (s align : Nat) (ha : 0 < align) :
    align ∣ (s + align - 1) / align * align
    ∧ s ≤ (s + align - 1) / align * align
    ∧ (s + align - 1) / align * align < s + align
    ∧ ∀ k, align ∣ k → s ≤ k → (s + align - 1) / align * align ≤ k := by
  have hdm := Nat.div_add_mod (s + align - 1) align
  have hmod := Nat.mod_lt (s + align - 1) ha
  have hcomm : (s + align - 1) / align * align = align * ((s + align - 1) / align) :=
    Nat.mul_comm _ _
  refine ⟨Dvd.intro_left _ rfl, by omega, by omega, ?_⟩
  intro k hk hsk
  obtain ⟨c, rfl⟩ := hk
  rw [hcomm]
  apply Nat.mul_le_mul_left
  rw [Nat.div_le_iff_le_mul_add_pred ha]
  have : s ≤ align * c := hsk
  omega

theorem CreateUniformBuffer_StructStride (s align : Nat) (uniforms : UniformsRing)
    (hs : 0 < s) (hov : s + align - 1 < 2 ^ 64) (ha : 0 < align) :
    (CreateUniformBuffer s align uniforms).StructStride = (s + align - 1) / align * align := by
  have h1 : ((s + align) % 2 ^ 64 + 2 ^ 64 - 1) % 2 ^ 64 = s + align - 1 := by
    omega
  have h2 := (roundUp_spec s align ha).2.2.1
  simp only [CreateUniformBuffer, h1]
  apply Nat.mod_eq_of_lt
  omega

/-- C29: for every `align > 0` and struct size `s > 0` with `s + align - 1`
below `2 ^ 64`, the stride that `CreateUniformBuffer` computes is `(s + align
- 1) / align * align`, a multiple of `align` with `s <= StructStride < s +
align`, the least multiple of `align` that is at least `s`; when also
`NumStructs * StructStride` is below `2 ^ 64`, both buffers have `NumStructs *
StructStride` bytes and for every `Index < NumStructs` the struct that
`UploadUniforms` stores at byte offset `StructStride * Index` lies wholly
inside the mapped bytes, within slot `Index`. -/
theorem CreateUniformBuffer_stride (s align : Nat) (uniforms : UniformsRing)
    (ha : 0 < align) (hs : 0 < s) (hov : s + align - 1 < 2 ^ 64)
    (hsize : uniforms.NumStructs * ((s + align - 1) / align * align) < 2 ^ 64)
    (hidx : uniforms.Index < uniforms.NumStructs) :
    (CreateUniformBuffer s align uniforms).StructStride = (s + align - 1) / align * align
    ∧ align ∣ (CreateUniformBuffer s align uniforms).StructStride
    ∧ s ≤ (CreateUniformBuffer s align uniforms).StructStride
    ∧ (CreateUniformBuffer s align uniforms).StructStride < s + align
    ∧ (∀ k, align ∣ k → s ≤ k → (CreateUniformBuffer s align uniforms).StructStride ≤ k)
    ∧ (CreateUniformBuffer s align uniforms).BufferSize
        = uniforms.NumStructs * (CreateUniformBuffer s align uniforms).StructStride
    ∧ (CreateUniformBuffer s align uniforms).TransferBufferSize
        = uniforms.NumStructs * (CreateUniformBuffer s align uniforms).StructStride
    ∧ (UploadUniformsStore s (CreateUniformBuffer s align uniforms)).mappedSize
        = (CreateUniformBuffer s align uniforms).TransferBufferSize
    ∧ (UploadUniformsStore s (CreateUniformBuffer s align uniforms)).offset
        = (CreateUniformBuffer s align uniforms).StructStride * uniforms.Index
    ∧ (UploadUniformsStore s (CreateUniformBuffer s align uniforms)).Inside
    ∧ (UploadUniformsStore s (CreateUniformBuffer s align uniforms)).offset + s
        ≤ (CreateUniformBuffer s align uniforms).StructStride * (uniforms.Index + 1) := by
  have hstride := CreateUniformBuffer_StructStride s align uniforms hs hov ha
  obtain ⟨r1, r2, r3, r4⟩ := roundUp_spec s align ha
  have hbuf : (CreateUniformBuffer s align uniforms).BufferSize
      = uniforms.NumStructs * (CreateUniformBuffer s align uniforms).StructStride := by
    rw [hstride]
    show (uniforms.NumStructs * (CreateUniformBuffer s align uniforms).StructStride) % 2 ^ 64 = _
    rw [hstride]
    exact Nat.mod_eq_of_lt hsize
  have htr : (CreateUniformBuffer s align uniforms).TransferBufferSize
      = uniforms.NumStructs * (CreateUniformBuffer s align uniforms).StructStride := hbuf
  have hslot : (CreateUniformBuffer s align uniforms).StructStride * uniforms.Index + s
      ≤ (CreateUniformBuffer s align uniforms).StructStride * (uniforms.Index + 1) := by
    rw [Nat.mul_add, Nat.mul_one, hstride]
    omega
  have hall : (CreateUniformBuffer s align uniforms).StructStride * (uniforms.Index + 1)
      ≤ uniforms.NumStructs * (CreateUniformBuffer s align uniforms).StructStride := by
    rw [Nat.mul_comm uniforms.NumStructs]
    exact Nat.mul_le_mul_left _ hidx
  refine ⟨hstride, ?_, ?_, ?_, ?_, hbuf, htr, ?_, rfl, ?_, hslot⟩
  · rw [hstride]; exact r1
  · rw [hstride]; exact r2
  · rw [hstride]; exact r3
  · rw [hstride]; exact r4
  · rw [htr]; rfl
  · exact Nat.le_trans hslot hall

/-- C29, witness: a struct of 40 bytes, alignment 256, 256 structs, slot 3. -/
theorem CreateUniformBuffer_stride_witness :
    0 < 256 ∧ 0 < 40
    ∧ (CreateUniformBuffer 40 256 (UniformsRing.mk 256 3 0 0 0)).StructStride = 256
    ∧ (UploadUniformsStore 40 (CreateUniformBuffer 40 256 (UniformsRing.mk 256 3 0 0 0))).Inside :=
  ⟨by decide, by decide,
    (CreateUniformBuffer_stride 40 256 (UniformsRing.mk 256 3 0 0 0) (by decide) (by decide)
      (by decide) (by decide) (by decide)).1,
    (CreateUniformBuffer_stride 40 256 (UniformsRing.mk 256 3 0 0 0) (by decide) (by decide)
      (by decide) (by decide) (by decide)).2.2.2.2.2.2.2.2.2.1⟩

/-- Examples for C29: sizes 1, 256 and 257 with alignment 256 give strides
256, 256 and 512; the store of slot 3 of 256 covers bytes 768 to 807 of
65536. -/
theorem CreateUniformBuffer_examples :
    (CreateUniformBuffer 1 256 (UniformsRing.mk 256 3 0 0 0)).StructStride = 256
    ∧ (CreateUniformBuffer 256 256 (UniformsRing.mk 256 3 0 0 0)).StructStride = 256
    ∧ (CreateUniformBuffer 257 256 (UniformsRing.mk 256 3 0 0 0)).StructStride = 512
    ∧ UploadUniformsStore 40 (CreateUniformBuffer 40 256 (UniformsRing.mk 256 3 0 0 0))
        = MappedStore.mk 65536 768 40 := by
  decide

/-! ## The read-back of the BRDF lookup table -/

/-- C30, failing input: any GPU result, here the one whose bytes are all 255.
The staging buffer, the mapping and the file have 1,048,576 bytes, but
`memcpy` copies `databuffer.size()` = 524,288 bytes, the element count: the
first half of the file is the GPU result and the second half, bytes 524,288
to 1,048,575 (the 16-bit values from number 262,144 on), is the zero
initialisation of `databuffer`, whatever the GPU computed. -/
theorem GenerateBrdfLut_copies_half :
    (GenerateBrdfLut (fun _ => 255)).stagingSize = 1048576
    ∧ (GenerateBrdfLut (fun _ => 255)).mappedSize = 1048576
    ∧ (GenerateBrdfLut (fun _ => 255)).fileBytes = 1048576
    ∧ (GenerateBrdfLut (fun _ => 255)).copiedBytes = 524288
    ∧ (GenerateBrdfLut (fun _ => 255)).copiedBytes ≠ (GenerateBrdfLut (fun _ => 255)).fileBytes
    ∧ (GenerateBrdfLut (fun _ => 255)).fileByte 524287 = 255
    ∧ (GenerateBrdfLut (fun _ => 255)).fileByte 524288 = 0
    ∧ (GenerateBrdfLut (fun _ => 255)).fileValue 262143 = 65535
    ∧ (GenerateBrdfLut (fun _ => 255)).fileValue 262144 = 0
    ∧ (∀ staging : Nat → Nat,
        (GenerateBrdfLut staging).copiedBytes * 2 = (GenerateBrdfLut staging).fileBytes
        ∧ (∀ k, k < 524288 → (GenerateBrdfLut staging).fileByte k = staging k)
        ∧ (∀ k, 524288 ≤ k → (GenerateBrdfLut staging).fileByte k = 0)
        ∧ (∀ j, 262144 ≤ j → (GenerateBrdfLut staging).fileValue j = 0)) := by
  refine ⟨by decide, by decide, by decide, by decide, by decide, by decide, by decide,
    by decide, by decide, ?_⟩
  intro staging
  have hlt : ∀ k, 524288 ≤ k → (GenerateBrdfLut staging).fileByte k = 0 := by
    intro k hk
    show (if k < 512 * 512 * 2 then staging k else 0) = 0
    rw [if_neg (by omega)]
  refine ⟨rfl, ?_, hlt, ?_⟩
  · intro k hk
    show (if k < 512 * 512 * 2 then staging k else 0) = staging k
    rw [if_pos (by omega)]
  · intro j hj
    simp only [BrdfLutReadback.fileValue]
    rw [hlt (2 * j) (by omega), hlt (2 * j + 1) (by omega)]

/-- Two GPU results that agree on the first half of the staging buffer give
the same file. -/
theorem GenerateBrdfLut_ignores_second_half (a b : Nat → Nat)
    (h : ∀ k, k < 524288 → a k = b k) :
    (GenerateBrdfLut a).fileByte = (GenerateBrdfLut b).fileByte := by
  funext k
  show (if k < 512 * 512 * 2 then a k else 0) = (if k < 512 * 512 * 2 then b k else 0)
  by_cases hk : k < 512 * 512 * 2
  · rw [if_pos hk, if_pos hk]
    exact h k (by omega)
  · rw [if_neg hk, if_neg hk]

/-! ## Include guards -/

theorem ReplaceGuardChars_append (a b : String) :
    ReplaceGuardChars (a ++ b) = ReplaceGuardChars a ++ ReplaceGuardChars b := by
  simp only [ReplaceGuardChars, String.data_append, List.map_append]
  rfl

/-- Two header names have the same guard macro exactly when they are equal
after every slash, backslash and dot is replaced by an underscore. -/
theorem IncludeGuardName_eq_iff (a b : String) :
    IncludeGuardName a = IncludeGuardName b ↔ ReplaceGuardChars a = ReplaceGuardChars b := by
  simp only [IncludeGuardName, ReplaceGuardChars_append]
  constructor
  · intro h
    have hd := congrArg String.data h
    simp only [String.data_append] at hd
    have := List.append_cancel_left hd
    exact String.ext this
  · intro h
    rw [h]

/-- C28, failing input: the headers "common/util.glsl" and "common_util.glsl"
are different but get the same guard macro `_HEADERGUARD_common_util_glsl`,
so the texts that `OnInclude` returns for them test and define the same
macro: whichever is included second is skipped by the preprocessor. The guard
name is not injective. -/
theorem include_guards_collide :
    "common/util.glsl" ≠ "common_util.glsl"
    ∧ IncludeGuardName "common/util.glsl" = "_HEADERGUARD_common_util_glsl"
    ∧ IncludeGuardName "common_util.glsl" = "_HEADERGUARD_common_util_glsl"
    ∧ IncludeGuardName "common/util.glsl" = IncludeGuardName "common_util.glsl"
    ∧ ¬ Function.Injective IncludeGuardName
    ∧ OnInclude collidingFileSystem "common/util.glsl" "main.glsl" 1 false
        = Except.ok (ShaderIncludeResult.mk "common/util.glsl"
            (guardLines "common/util.glsl" ++ "#line 1\nfloat a();\n#endif\n"))
    ∧ OnInclude collidingFileSystem "common_util.glsl" "main.glsl" 1 false
        = Except.ok (ShaderIncludeResult.mk "common_util.glsl"
            (guardLines "common_util.glsl" ++ "#line 1\nfloat b();\n#endif\n"))
    ∧ guardLines "common/util.glsl" = guardLines "common_util.glsl"
    ∧ guardLines "common/util.glsl"
        = "#ifndef _HEADERGUARD_common_util_glsl\n#define _HEADERGUARD_common_util_glsl\n" := by
  have hne : "common/util.glsl" ≠ "common_util.glsl" := by decide
  have h1 : IncludeGuardName "common/util.glsl" = "_HEADERGUARD_common_util_glsl" := by rfl
  have h2 : IncludeGuardName "common_util.glsl" = "_HEADERGUARD_common_util_glsl" := by rfl
  refine ⟨hne, h1, h2, h1.trans h2.symm, ?_, by rfl, by rfl, by rfl, by rfl⟩
  intro hinj
  exact hne (hinj (h1.trans h2.symm))

/-- An example for the header names that do not collide: "a.glsl" and
"b.glsl" get different guards. -/
theorem include_guards_example :
    IncludeGuardName "a.glsl" ≠ IncludeGuardName "b.glsl" := by
  decide

/-! ## A tile deferred by backpressure -/

theorem Render_deferred_tile {σ : Type} (env : LightmapperEnv σ) (mesh : LevelMesh)
    (tiles : List TileId) (st : VkLightmapper σ) (s : SelectedTile)
    (hs : s ∈ (Render env mesh (SelectTiles env tiles st)).selectedTiles)
    (hr : s.Rendered = false) :
    s ∈ (SelectTiles env tiles st).selectedTiles
    ∧ (Render env mesh (SelectTiles env tiles st)).heap s.Tile
        = { (st.heap s.Tile).clearFlags with ReceivedNewLight := true } := by
  obtain ⟨i, _, hsel, hheap⟩ := Render_shape env mesh (SelectTiles env tiles st)
  obtain ⟨_, _, _, _, hh, _⟩ := SelectTiles_spec env tiles st
  rw [hsel, List.mem_append] at hs
  have hdrop : s ∈ (SelectTiles env tiles st).selectedTiles.drop i := by
    rcases hs with hs | hs
    · obtain ⟨a, _, rfl⟩ := List.mem_map.1 hs
      simp [SelectedTile.markRendered] at hr
    · exact hs
  have hmem : s ∈ (SelectTiles env tiles st).selectedTiles := List.mem_of_mem_drop hdrop
  refine ⟨hmem, ?_⟩
  rw [hheap, MarkNotRendered_apply, if_pos (List.mem_map_of_mem _ hdrop), hh,
    if_pos (List.mem_map_of_mem _ hmem)]

/-- C27, as amended: for every tile that `SelectTiles` selected and `Render`
then left unrendered, after `Render` the tile has `ReceivedNewLight = true`,
as before `SelectTiles`, and `NeedsInitialBake = false` and `GeometryUpdate =
false`, as `SelectTiles` left them, whatever they were before; the atlas
location is unchanged. So the three flags equal their values before
`SelectTiles` exactly when `NeedsInitialBake` and `GeometryUpdate` were not
set. -/
theorem deferred_tile_flags {σ : Type} (env : LightmapperEnv σ) (mesh : LevelMesh)
    (tiles : List TileId) (st : VkLightmapper σ) (s : SelectedTile)
    (hs : s ∈ (Render env mesh (SelectTiles env tiles st)).selectedTiles)
    (hr : s.Rendered = false) :
    (st.heap s.Tile).ReceivedNewLight = true
    ∧ ((Render env mesh (SelectTiles env tiles st)).heap s.Tile).ReceivedNewLight = true
    ∧ ((Render env mesh (SelectTiles env tiles st)).heap s.Tile).NeedsInitialBake = false
    ∧ ((Render env mesh (SelectTiles env tiles st)).heap s.Tile).GeometryUpdate = false
    ∧ ((Render env mesh (SelectTiles env tiles st)).heap s.Tile).AtlasLocation
        = (st.heap s.Tile).AtlasLocation
    ∧ ((Render env mesh (SelectTiles env tiles st)).heap s.Tile = st.heap s.Tile
        ↔ (st.heap s.Tile).NeedsInitialBake = false ∧ (st.heap s.Tile).GeometryUpdate = false) := by
  obtain ⟨hmem, hheap⟩ := Render_deferred_tile env mesh tiles st s hs hr
  have hdirty : (st.heap s.Tile).ReceivedNewLight = true :=
    (SelectTiles_selected_dirty env tiles st s.Tile (List.mem_map_of_mem _ hmem)).1
  rw [hheap]
  refine ⟨hdirty, rfl, rfl, rfl, rfl, ?_⟩
  constructor
  · intro h
    have h1 := congrArg LightmapTile.NeedsInitialBake h
    have h2 := congrArg LightmapTile.GeometryUpdate h
    exact ⟨h1.symm, h2.symm⟩
  · intro ⟨h1, h2⟩
    cases hst : st.heap s.Tile with
    | mk loc rnl nib gu =>
      rw [hst] at hdirty h1 h2
      simp only at hdirty h1 h2
      subst hdirty h1 h2
      rfl

/-- C27, witness: in the backpressure example tile 3 is left unrendered. -/
theorem deferred_tile_flags_witness :
    SelectedTile.mk 3 39 0 false
        ∈ (Render exampleEnv exampleMesh (SelectTiles exampleEnv [0, 1, 2, 3]
            (freshLightmapper (fun t => dirtyTile (t % 2)) 5))).selectedTiles
    ∧ ((Render exampleEnv exampleMesh (SelectTiles exampleEnv [0, 1, 2, 3]
          (freshLightmapper (fun t => dirtyTile (t % 2)) 5))).heap 3).ReceivedNewLight = true
    ∧ ((Render exampleEnv exampleMesh (SelectTiles exampleEnv [0, 1, 2, 3]
          (freshLightmapper (fun t => dirtyTile (t % 2)) 5))).heap 3).NeedsInitialBake = false :=
  ⟨by decide,
    (deferred_tile_flags exampleEnv exampleMesh [0, 1, 2, 3]
      (freshLightmapper (fun t => dirtyTile (t % 2)) 5) (SelectedTile.mk 3 39 0 false)
      (by decide) rfl).2.1,
    (deferred_tile_flags exampleEnv exampleMesh [0, 1, 2, 3]
      (freshLightmapper (fun t => dirtyTile (t % 2)) 5) (SelectedTile.mk 3 39 0 false)
      (by decide) rfl).2.2.1⟩

/-- C27, counterexample: tile 3 of the backpressure example has
`NeedsInitialBake` set before `SelectTiles`; it is selected, `Render` leaves
it unrendered because the indirect-draw buffer is full, and afterwards
`ReceivedNewLight` is set again but `NeedsInitialBake` is not: the tile is not
back in its state before the selection. -/
theorem deferred_tile_not_restored :
    ((freshLightmapper (fun t => dirtyTile (t % 2)) 5).heap 3).ReceivedNewLight = true
    ∧ ((freshLightmapper (fun t => dirtyTile (t % 2)) 5).heap 3).NeedsInitialBake = true
    ∧ SelectedTile.mk 3 39 0 false
        ∈ (Render exampleEnv exampleMesh (SelectTiles exampleEnv [0, 1, 2, 3]
            (freshLightmapper (fun t => dirtyTile (t % 2)) 5))).selectedTiles
    ∧ (Render exampleEnv exampleMesh (SelectTiles exampleEnv [0, 1, 2, 3]
          (freshLightmapper (fun t => dirtyTile (t % 2)) 5))).drawindexed.IsFull = true
    ∧ ((Render exampleEnv exampleMesh (SelectTiles exampleEnv [0, 1, 2, 3]
          (freshLightmapper (fun t => dirtyTile (t % 2)) 5))).heap 3).ReceivedNewLight = true
    ∧ ((Render exampleEnv exampleMesh (SelectTiles exampleEnv [0, 1, 2, 3]
          (freshLightmapper (fun t => dirtyTile (t % 2)) 5))).heap 3).NeedsInitialBake = false
    ∧ ((Render exampleEnv exampleMesh (SelectTiles exampleEnv [0, 1, 2, 3]
          (freshLightmapper (fun t => dirtyTile (t % 2)) 5))).heap 3).NeedsInitialBake
        ≠ ((freshLightmapper (fun t => dirtyTile (t % 2)) 5).heap 3).NeedsInitialBake := by
  decide

/-! ## The layout transitions of `CopyResult` -/

theorem recordedBarriers_append (a b : List Command) :
    recordedBarriers (a ++ b) = recordedBarriers a ++ recordedBarriers b := by
  simp [recordedBarriers, List.filterMap_append]

theorem CopyResultPages_barriers (destSize : Nat → Nat) (heap : TileHeap)
    (lists : List (List SelectedTile)) (i : Nat) (r : CopyPagesResult) :
    recordedBarriers (CopyResultPages destSize heap i lists r).cmds = recordedBarriers r.cmds := by
  induction lists generalizing i r with
  | nil => rfl
  | cons list rest ih =>
    by_cases h : list.length = 0
    · simp only [CopyResultPages, h, if_true]
      exact ih (i + 1) r
    · simp only [CopyResultPages, h, if_false]
      rw [ih]
      simp only [recordedBarriers_append]
      simp [recordedBarriers, Command.barrierImages]

theorem CopyResultBarriers_range (oldLayout newLayout : VkImageLayout)
    (f : Nat → List SelectedTile) (k i : Nat) :
    CopyResultBarriers oldLayout newLayout i ((List.range' i k).map f)
      = pageBarriers oldLayout newLayout
          ((List.range' i k).filter fun p => decide ((f p).length > 0)) := by
  induction k generalizing i with
  | zero => rfl
  | succ k ih =>
    simp only [List.range'_succ, List.map_cons, CopyResultBarriers, List.filter_cons]
    by_cases h : (f i).length > 0
    · simp only [h, if_true, decide_True, ih (i + 1)]
      rfl
    · simp only [h, if_false, decide_False, ih (i + 1)]
      rfl

theorem CopyResult_barriers_of_lists (oldLayout newLayout : VkImageLayout) (heap : TileHeap)
    (l : List SelectedTile) (old : List (List SelectedTile)) :
    CopyResultBarriers oldLayout newLayout 0
        (CopyResultSort heap l (CopySortResult.mk (old.map (fun _ => [])) 0 0)).copylists
      = pageBarriers oldLayout newLayout (pagesWithTiles heap l
          (CopyResultSort heap l (CopySortResult.mk (old.map (fun _ => [])) 0 0)).copylists.length) := by
  conv_lhs => rw [CopyResultSort_copylists, List.range_eq_range']
  rw [CopyResultBarriers_range, pagesWithTiles, List.range_eq_range']

theorem mem_pagesWithTiles (heap : TileHeap) (l : List SelectedTile)
    (old : List (List SelectedTile)) (p : Nat) :
    p ∈ pagesWithTiles heap l
        (CopyResultSort heap l (CopySortResult.mk (old.map (fun _ => [])) 0 0)).copylists.length
      ↔ ∃ s ∈ l, s.Rendered = true ∧ (heap s.Tile).AtlasLocation.ArrayIndex = p := by
  have hmem : ∀ s, s ∈ pageTiles heap l p
      ↔ s ∈ l ∧ s.Rendered = true ∧ (heap s.Tile).AtlasLocation.ArrayIndex = p := by
    intro s
    simp [pageTiles]
  simp only [pagesWithTiles, List.mem_filter, List.mem_range, decide_eq_true_eq]
  constructor
  · intro ⟨_, hlen⟩
    obtain ⟨s, hs⟩ := List.exists_mem_of_length_pos hlen
    exact ⟨s, ((hmem s).1 hs).1, ((hmem s).1 hs).2⟩
  · intro ⟨s, hs, hr, hp⟩
    have hin : s ∈ pageTiles heap l p := (hmem s).2 ⟨hs, hr, hp⟩
    refine ⟨?_, List.length_pos_of_mem hin⟩
    have hperm := tilesByPage_perm heap l old
    have hrend : s ∈ renderedTiles l := by
      simp only [renderedTiles, List.mem_filter]
      exact ⟨hs, by simpa using hr⟩
    have htb := hperm.symm.subset hrend
    simp only [tilesByPage, List.mem_flatMap, List.mem_range] at htb
    obtain ⟨q, hq, hsq⟩ := htb
    have := ((by simpa [pageTiles] using hsq) :
      s ∈ l ∧ s.Rendered = true ∧ (heap s.Tile).AtlasLocation.ArrayIndex = q).2.2
    rw [hp] at this
    rw [this]
    exact hq

theorem pageBarriers_images (oldLayout newLayout : VkImageLayout) (pages : List Nat) :
    (pageBarriers oldLayout newLayout pages).map ImageBarrier.image
      = pages.flatMap fun p => [LMImage.destLight p, LMImage.destProbe p] := by
  induction pages with
  | nil => rfl
  | cons p pages ih =>
    simp only [pageBarriers, List.flatMap_cons, List.map_append] at ih ⊢
    rw [ih]
    rfl

theorem pageBarriers_layouts (oldLayout newLayout : VkImageLayout) (pages : List Nat) :
    ∀ b ∈ pageBarriers oldLayout newLayout pages,
      b.oldLayout = oldLayout ∧ b.newLayout = newLayout
      ∧ b.baseMipLevel = 0 ∧ b.levelCount = 1 ∧ b.baseArrayLayer = 0 ∧ b.layerCount = 1
      ∧ ∃ p ∈ pages, b.image = LMImage.destLight p ∨ b.image = LMImage.destProbe p := by
  intro b hb
  simp only [pageBarriers, List.mem_flatMap, List.mem_cons, List.mem_singleton,
    List.not_mem_nil, or_false] at hb
  obtain ⟨p, hp, hb | hb⟩ := hb
  · subst hb
    exact ⟨rfl, rfl, rfl, rfl, rfl, rfl, p, hp, Or.inl rfl⟩
  · subst hb
    exact ⟨rfl, rfl, rfl, rfl, rfl, rfl, p, hp, Or.inr rfl⟩

/-- The barriers that `CopyResult` records, by the value of the 32-bit pixel
count it tests: none when the count is zero, else the one before and the one
after the copy. -/
theorem CopyResult_barriers {σ : Type} (env : LightmapperEnv σ) (st : VkLightmapper σ) :
    recordedBarriers (CopyResult env st).cmds
      = recordedBarriers st.cmds ++
        (if renderedArea st.heap st.selectedTiles % 2 ^ 32 = 0 then []
         else
          [ AddImageDefault LMImage.bakeResolve VkImageLayout.COLOR_ATTACHMENT_OPTIMAL
                VkImageLayout.SHADER_READ_ONLY_OPTIMAL
              :: pageBarriers VkImageLayout.SHADER_READ_ONLY_OPTIMAL
                  VkImageLayout.COLOR_ATTACHMENT_OPTIMAL
                  (pagesWithTiles st.heap st.selectedTiles (CopyResult env st).copylists.length),
            pageBarriers VkImageLayout.COLOR_ATTACHMENT_OPTIMAL
              VkImageLayout.SHADER_READ_ONLY_OPTIMAL
              (pagesWithTiles st.heap st.selectedTiles (CopyResult env st).copylists.length) ]) := by
  have hp := CopyResultSort_pixels st.heap st.selectedTiles
    (CopySortResult.mk (st.copylists.map (fun _ => [])) 0 0)
  have hlt := CopyResultSort_pixels_lt st.heap st.selectedTiles
    (CopySortResult.mk (st.copylists.map (fun _ => [])) 0 0) (by norm_num)
  rw [Nat.mod_eq_of_lt hlt] at hp
  simp only [Nat.zero_add] at hp
  rw [CopyResult_copylists, ← hp]
  by_cases h0 : (CopyResultSort st.heap st.selectedTiles
      (CopySortResult.mk (st.copylists.map (fun _ => [])) 0 0)).pixels = 0
  · simp only [CopyResult, h0, if_true, List.append_nil]
  · simp only [CopyResult, h0, if_false, recordedBarriers_append, CopyResultPages_barriers,
      CopyResult_barriers_of_lists]
    simp [recordedBarriers, Command.barrierImages]

/-- C21, as amended: when the 32-bit pixel count that `CopyResult` tests is
not zero, `CopyResult` records two pipeline barriers. The first holds the
transition of the resolve image and, for exactly the atlas pages with at
least one rendered selected tile, in ascending order, the transitions of the
Light and of the Probe image from `SHADER_READ_ONLY_OPTIMAL` to
`COLOR_ATTACHMENT_OPTIMAL`; the second holds, for the same pages and the
same images, the transitions from `COLOR_ATTACHMENT_OPTIMAL` back to
`SHADER_READ_ONLY_OPTIMAL`. So the new layout of the second equals the old
layout of the first, every destination image that is touched ends in
`SHADER_READ_ONLY_OPTIMAL`, and no image of a page without a rendered tile is
in either barrier. -/
theorem CopyResult_layout_round_trip {σ : Type} (env : LightmapperEnv σ)
    (st : VkLightmapper σ) (hpix : renderedArea st.heap st.selectedTiles % 2 ^ 32 ≠ 0) :
    recordedBarriers (CopyResult env st).cmds
      = recordedBarriers st.cmds ++
          [ AddImageDefault LMImage.bakeResolve VkImageLayout.COLOR_ATTACHMENT_OPTIMAL
                VkImageLayout.SHADER_READ_ONLY_OPTIMAL
              :: pageBarriers VkImageLayout.SHADER_READ_ONLY_OPTIMAL
                  VkImageLayout.COLOR_ATTACHMENT_OPTIMAL
                  (pagesWithTiles st.heap st.selectedTiles (CopyResult env st).copylists.length),
            pageBarriers VkImageLayout.COLOR_ATTACHMENT_OPTIMAL
              VkImageLayout.SHADER_READ_ONLY_OPTIMAL
              (pagesWithTiles st.heap st.selectedTiles (CopyResult env st).copylists.length) ]
    ∧ (∀ p, p ∈ pagesWithTiles st.heap st.selectedTiles (CopyResult env st).copylists.length
        ↔ ∃ s ∈ st.selectedTiles,
            s.Rendered = true ∧ (st.heap s.Tile).AtlasLocation.ArrayIndex = p)
    ∧ (pageBarriers VkImageLayout.SHADER_READ_ONLY_OPTIMAL VkImageLayout.COLOR_ATTACHMENT_OPTIMAL
          (pagesWithTiles st.heap st.selectedTiles (CopyResult env st).copylists.length)).map
        ImageBarrier.image
        = (pagesWithTiles st.heap st.selectedTiles (CopyResult env st).copylists.length).flatMap
            (fun p => [LMImage.destLight p, LMImage.destProbe p])
    ∧ (pageBarriers VkImageLayout.COLOR_ATTACHMENT_OPTIMAL VkImageLayout.SHADER_READ_ONLY_OPTIMAL
          (pagesWithTiles st.heap st.selectedTiles (CopyResult env st).copylists.length)).map
        ImageBarrier.image
        = (pageBarriers VkImageLayout.SHADER_READ_ONLY_OPTIMAL
            VkImageLayout.COLOR_ATTACHMENT_OPTIMAL
            (pagesWithTiles st.heap st.selectedTiles (CopyResult env st).copylists.length)).map
          ImageBarrier.image
    ∧ (∀ b ∈ pageBarriers VkImageLayout.SHADER_READ_ONLY_OPTIMAL
          VkImageLayout.COLOR_ATTACHMENT_OPTIMAL
          (pagesWithTiles st.heap st.selectedTiles (CopyResult env st).copylists.length),
        b.oldLayout = VkImageLayout.SHADER_READ_ONLY_OPTIMAL
        ∧ b.newLayout = VkImageLayout.COLOR_ATTACHMENT_OPTIMAL)
    ∧ (∀ b ∈ pageBarriers VkImageLayout.COLOR_ATTACHMENT_OPTIMAL
          VkImageLayout.SHADER_READ_ONLY_OPTIMAL
          (pagesWithTiles st.heap st.selectedTiles (CopyResult env st).copylists.length),
        b.oldLayout = VkImageLayout.COLOR_ATTACHMENT_OPTIMAL
        ∧ b.newLayout = VkImageLayout.SHADER_READ_ONLY_OPTIMAL
        ∧ ∃ s ∈ st.selectedTiles, s.Rendered = true
            ∧ (b.image = LMImage.destLight (st.heap s.Tile).AtlasLocation.ArrayIndex
              ∨ b.image = LMImage.destProbe (st.heap s.Tile).AtlasLocation.ArrayIndex)) := by
  have hmem : ∀ p, p ∈ pagesWithTiles st.heap st.selectedTiles
        (CopyResult env st).copylists.length
      ↔ ∃ s ∈ st.selectedTiles,
          s.Rendered = true ∧ (st.heap s.Tile).AtlasLocation.ArrayIndex = p := by
    intro p
    rw [CopyResult_copylists]
    exact mem_pagesWithTiles st.heap st.selectedTiles st.copylists p
  refine ⟨?_, hmem, pageBarriers_images _ _ _, ?_, ?_, ?_⟩
  · rw [CopyResult_barriers, if_neg hpix]
  · rw [pageBarriers_images, pageBarriers_images]
  · intro b hb
    obtain ⟨h1, h2, _⟩ := pageBarriers_layouts _ _ _ b hb
    exact ⟨h1, h2⟩
  · intro b hb
    obtain ⟨h1, h2, _, _, _, _, p, hp, himg⟩ := pageBarriers_layouts _ _ _ b hb
    obtain ⟨s, hs, hr, hpage⟩ := (hmem p).1 hp
    refine ⟨h1, h2, s, hs, hr, ?_⟩
    rw [hpage]
    exact himg

/-- C21, witness: two rendered tiles on atlas page 1 and none on page 0. -/
theorem CopyResult_layout_round_trip_witness :
    renderedArea pageOneState.heap pageOneState.selectedTiles % 2 ^ 32 ≠ 0
    ∧ recordedBarriers (CopyResult exampleEnv pageOneState).cmds
      = recordedBarriers pageOneState.cmds ++
          [ AddImageDefault LMImage.bakeResolve VkImageLayout.COLOR_ATTACHMENT_OPTIMAL
                VkImageLayout.SHADER_READ_ONLY_OPTIMAL
              :: pageBarriers VkImageLayout.SHADER_READ_ONLY_OPTIMAL
                  VkImageLayout.COLOR_ATTACHMENT_OPTIMAL
                  (pagesWithTiles pageOneState.heap pageOneState.selectedTiles
                    (CopyResult exampleEnv pageOneState).copylists.length),
            pageBarriers VkImageLayout.COLOR_ATTACHMENT_OPTIMAL
              VkImageLayout.SHADER_READ_ONLY_OPTIMAL
              (pagesWithTiles pageOneState.heap pageOneState.selectedTiles
                (CopyResult exampleEnv pageOneState).copylists.length) ] :=
  ⟨by decide, (CopyResult_layout_round_trip exampleEnv pageOneState (by decide)).1⟩

/-- An example for C21: with tiles on page 1 only, the images of page 1 are
the only destination images in the two barriers. -/
theorem CopyResult_layout_example :
    pagesWithTiles pageOneState.heap pageOneState.selectedTiles
        (CopyResult exampleEnv pageOneState).copylists.length = [1]
    ∧ (recordedBarriers (CopyResult exampleEnv pageOneState).cmds).drop
          (recordedBarriers pageOneState.cmds).length
        = [ [ AddImageDefault LMImage.bakeResolve VkImageLayout.COLOR_ATTACHMENT_OPTIMAL
                VkImageLayout.SHADER_READ_ONLY_OPTIMAL,
              AddImage (LMImage.destLight 1) VkImageLayout.SHADER_READ_ONLY_OPTIMAL
                VkImageLayout.COLOR_ATTACHMENT_OPTIMAL VK_IMAGE_ASPECT_COLOR_BIT 0 1 0 1,
              AddImage (LMImage.destProbe 1) VkImageLayout.SHADER_READ_ONLY_OPTIMAL
                VkImageLayout.COLOR_ATTACHMENT_OPTIMAL VK_IMAGE_ASPECT_COLOR_BIT 0 1 0 1 ],
            [ AddImage (LMImage.destLight 1) VkImageLayout.COLOR_ATTACHMENT_OPTIMAL
                VkImageLayout.SHADER_READ_ONLY_OPTIMAL VK_IMAGE_ASPECT_COLOR_BIT 0 1 0 1,
              AddImage (LMImage.destProbe 1) VkImageLayout.COLOR_ATTACHMENT_OPTIMAL
                VkImageLayout.SHADER_READ_ONLY_OPTIMAL VK_IMAGE_ASPECT_COLOR_BIT 0 1 0 1 ] ] := by
  decide

/-- C21, counterexample: a selected tile on page 0 that is rendered and 0
texels wide. Page 0 has a rendered tile, but the pixel count is 0, so
`CopyResult` returns before its barriers: no image of page 0 is transitioned,
before or after. -/
theorem CopyResult_no_transition_for_empty_tile :
    emptyTileState.selectedTiles = [SelectedTile.mk 0 0 0 true]
    ∧ (emptyTileState.heap 0).AtlasLocation.ArrayIndex = 0
    ∧ (emptyTileState.heap 0).AtlasLocation.Area = 0
    ∧ (∃ s ∈ emptyTileState.selectedTiles,
        s.Rendered = true ∧ (emptyTileState.heap s.Tile).AtlasLocation.ArrayIndex = 0)
    ∧ (CopyResult exampleEnv emptyTileState).cmds = emptyTileState.cmds
    ∧ recordedBarriers (CopyResult exampleEnv emptyTileState).cmds
        = recordedBarriers emptyTileState.cmds
    ∧ ¬ ∃ images ∈ (recordedBarriers (CopyResult exampleEnv emptyTileState).cmds).drop
            (recordedBarriers emptyTileState.cmds).length,
          ∃ b ∈ images, b.image = LMImage.destLight 0 := by
  decide

/-! ## The order of the wait and the resets in the tail of the loop -/

theorem RaytraceReset_eq_execAll {σ : Type} (st : VkLightmapper σ) :
    RaytraceReset st = execAll RaytraceResetBody st := rfl

theorem RaytracePass_eq_tail {σ : Type} (env : LightmapperEnv σ) (mesh : LevelMesh)
    (st : VkLightmapper σ) :
    RaytracePass env mesh st
      = execAll (RaytraceTail (RaytraceStages env mesh st)) (RaytraceStages env mesh st) := by
  rw [RaytracePass_eq_stages]
  generalize RaytraceStages env mesh st = s
  by_cases h : s.drawindexed.IsFull = true ∨ s.copytiles.Pos = s.drawindexed.BufferSize
  · rw [if_pos h, RaytraceTail, if_pos h]
    exact RaytraceReset_eq_execAll s
  · rw [if_neg h, RaytraceTail, if_neg h]
    rfl

theorem recordedWaits_append (a b : List Command) :
    recordedWaits (a ++ b) = recordedWaits a + recordedWaits b := by
  simp [recordedWaits]

theorem CopyResultPages_waits (destSize : Nat → Nat) (heap : TileHeap)
    (lists : List (List SelectedTile)) (i : Nat) (r : CopyPagesResult) :
    recordedWaits (CopyResultPages destSize heap i lists r).cmds = recordedWaits r.cmds := by
  induction lists generalizing i r with
  | nil => rfl
  | cons list rest ih =>
    by_cases h : list.length = 0
    · simp only [CopyResultPages, h, if_true]
      exact ih (i + 1) r
    · simp only [CopyResultPages, h, if_false]
      rw [ih]
      simp only [recordedWaits_append]
      simp [recordedWaits]

theorem CopyResult_waits {σ : Type} (env : LightmapperEnv σ) (st : VkLightmapper σ) :
    recordedWaits (CopyResult env st).cmds = recordedWaits st.cmds := by
  simp only [CopyResult]
  split
  · rfl
  · simp only [recordedWaits_append, CopyResultPages_waits]
    simp [recordedWaits]

theorem CopyResult_Pos_ge {σ : Type} (env : LightmapperEnv σ) (st : VkLightmapper σ) :
    st.copytiles.Pos ≤ (CopyResult env st).copytiles.Pos := by
  simp only [CopyResult]
  split
  · exact Nat.le_refl _
  · rw [(CopyResultPages_spec _ _ _ _ _).1]
    exact Nat.le_add_right _ _

/-- Before the tail, an iteration records no wait and moves no cursor back. -/
theorem RaytraceStages_monotone {σ : Type} (env : LightmapperEnv σ) (mesh : LevelMesh)
    (st : VkLightmapper σ) :
    recordedWaits (RaytraceStages env mesh st).cmds = recordedWaits st.cmds
    ∧ st.drawindexed.Pos ≤ (RaytraceStages env mesh st).drawindexed.Pos
    ∧ st.copytiles.Pos ≤ (RaytraceStages env mesh st).copytiles.Pos := by
  have hr : recordedWaits (Render env mesh st).cmds = recordedWaits st.cmds := by
    rw [Render_cmds]
    simp only [recordedWaits_append]
    split <;> simp [recordedWaits]
  have hres : ∀ s : VkLightmapper σ, recordedWaits (Resolve s).cmds = recordedWaits s.cmds := by
    intro s
    simp [Resolve, recordedWaits]
  have hblur : ∀ s : VkLightmapper σ, recordedWaits (Blur s).cmds = recordedWaits s.cmds := by
    intro s
    simp [Blur, recordedWaits]
  have hpos : st.drawindexed.Pos ≤ (Render env mesh st).drawindexed.Pos := by
    obtain ⟨i, _, _, _, h3⟩ :=
      RenderLoop_writes mesh env.bakeImageSize st.selectedTiles st.heap st.drawindexed
    show st.drawindexed.Pos ≤ (RenderLoop mesh env.bakeImageSize st.selectedTiles st.heap
      st.drawindexed).drawindexed.Pos
    rw [h3]
    exact Nat.le_add_right _ _
  simp only [RaytraceStages]
  cases env.lm_blur
  · simp only [Bool.false_eq_true, if_false]
    refine ⟨?_, ?_, ?_⟩
    · rw [CopyResult_waits, hres, hr]
    · rw [(CopyResult_frame env _).2.1]
      exact hpos
    · exact CopyResult_Pos_ge env (Resolve (Render env mesh st))
  · simp only [if_true]
    refine ⟨?_, ?_, ?_⟩
    · rw [CopyResult_waits, hblur, hres, hr]
    · rw [(CopyResult_frame env _).2.1]
      exact hpos
    · exact CopyResult_Pos_ge env (Blur (Resolve (Render env mesh st)))

theorem RaytraceResetBody_wait_first (pre post : List TailStmt) (stmt : TailStmt)
    (h : RaytraceResetBody = pre ++ stmt :: post) (hreset : stmt.isReset = true) :
    TailStmt.WaitForCommands ∈ pre := by
  cases pre with
  | nil =>
    simp only [RaytraceResetBody, List.nil_append, List.cons.injEq] at h
    rw [← h.1] at hreset
    exact absurd hreset (by decide)
  | cons a pre =>
    simp only [RaytraceResetBody, List.cons_append, List.cons.injEq] at h
    rw [← h.1]
    exact List.mem_cons_self _ _

theorem execTrace_RaytraceResetBody {σ : Type} (s : VkLightmapper σ) :
    execTrace RaytraceResetBody s
      = [ (TailStmt.WaitForCommands,
            { s with cmds := s.cmds ++ [Command.waitForCommands] }),
          (TailStmt.resetDrawindexedPos,
            { s with cmds := s.cmds ++ [Command.waitForCommands]
                     drawindexed := { s.drawindexed with Pos := 0 } }),
          (TailStmt.clearIsFull,
            { s with cmds := s.cmds ++ [Command.waitForCommands]
                     drawindexed := { s.drawindexed with Pos := 0, IsFull := false } }),
          (TailStmt.resetCopytilesPos, RaytraceReset s) ] := rfl

/-- C14: in every loop iteration of `Raytrace`, the stages up to `CopyResult`
record no wait and move no cursor back, and the tail of the iteration runs
statement by statement as follows. If after `CopyResult` `drawindexed.IsFull`
is set or `copytiles.Pos == drawindexed.BufferSize`, it executes the wait
first and then the three assignments: every assignment to a cursor or to the
flag has the wait before it, the state right after the wait still has both
cursors and the flag as `CopyResult` left them, every later state of the tail
has the wait recorded, and the tail ends with `drawindexed.Pos = 0`,
`copytiles.Pos = 0` and `IsFull = false`, the wait being the last command
recorded and the stores and tiles as `CopyResult` left them. Otherwise the
tail executes nothing: no wait is recorded and the state is exactly the one
`CopyResult` left. -/
theorem loop_tail_waits_then_resets {σ : Type} (env : LightmapperEnv σ) (mesh : LevelMesh)
    (st : VkLightmapper σ) :
    (((RaytraceStages env mesh st).drawindexed.IsFull = true
        ∨ (RaytraceStages env mesh st).copytiles.Pos
            = (RaytraceStages env mesh st).drawindexed.BufferSize) →
      (RaytracePass env mesh st).cmds
          = (RaytraceStages env mesh st).cmds ++ [Command.waitForCommands]
      ∧ (RaytracePass env mesh st).drawindexed.Pos = 0
      ∧ (RaytracePass env mesh st).copytiles.Pos = 0
      ∧ (RaytracePass env mesh st).drawindexed.IsFull = false
      ∧ (RaytracePass env mesh st).drawindexed.writes
          = (RaytraceStages env mesh st).drawindexed.writes
      ∧ (RaytracePass env mesh st).copytiles.writes
          = (RaytraceStages env mesh st).copytiles.writes
      ∧ (RaytracePass env mesh st).heap = (RaytraceStages env mesh st).heap)
    ∧ (¬ ((RaytraceStages env mesh st).drawindexed.IsFull = true
        ∨ (RaytraceStages env mesh st).copytiles.Pos
            = (RaytraceStages env mesh st).drawindexed.BufferSize) →
      RaytracePass env mesh st = RaytraceStages env mesh st)
    ∧ RaytracePass env mesh st
        = execAll (RaytraceTail (RaytraceStages env mesh st)) (RaytraceStages env mesh st)
    ∧ (((RaytraceStages env mesh st).drawindexed.IsFull = true
        ∨ (RaytraceStages env mesh st).copytiles.Pos
            = (RaytraceStages env mesh st).drawindexed.BufferSize) →
      RaytraceTail (RaytraceStages env mesh st)
        = [ TailStmt.WaitForCommands, TailStmt.resetDrawindexedPos, TailStmt.clearIsFull,
            TailStmt.resetCopytilesPos ])
    ∧ (¬ ((RaytraceStages env mesh st).drawindexed.IsFull = true
        ∨ (RaytraceStages env mesh st).copytiles.Pos
            = (RaytraceStages env mesh st).drawindexed.BufferSize) →
      RaytraceTail (RaytraceStages env mesh st) = [])
    ∧ (∀ pre post stmt, RaytraceTail (RaytraceStages env mesh st) = pre ++ stmt :: post →
        stmt.isReset = true → TailStmt.WaitForCommands ∈ pre)
    ∧ (∀ entry ∈ execTrace (RaytraceTail (RaytraceStages env mesh st))
          (RaytraceStages env mesh st),
        recordedWaits entry.2.cmds = recordedWaits (RaytraceStages env mesh st).cmds + 1
        ∧ (entry.1 = TailStmt.WaitForCommands →
            entry.2.drawindexed = (RaytraceStages env mesh st).drawindexed
            ∧ entry.2.copytiles = (RaytraceStages env mesh st).copytiles))
    ∧ recordedWaits (RaytracePass env mesh st).cmds
        = recordedWaits (RaytraceStages env mesh st).cmds
          + (if (RaytraceStages env mesh st).drawindexed.IsFull = true
              ∨ (RaytraceStages env mesh st).copytiles.Pos
                  = (RaytraceStages env mesh st).drawindexed.BufferSize then 1 else 0)
    ∧ recordedWaits (RaytraceStages env mesh st).cmds = recordedWaits st.cmds
    ∧ st.drawindexed.Pos ≤ (RaytraceStages env mesh st).drawindexed.Pos
    ∧ st.copytiles.Pos ≤ (RaytraceStages env mesh st).copytiles.Pos := by
  obtain ⟨m1, m2, m3⟩ := RaytraceStages_monotone env mesh st
  refine ⟨?_, ?_, RaytracePass_eq_tail env mesh st, ?_, ?_, ?_, ?_, ?_, m1, m2, m3⟩
  · intro h
    rw [RaytracePass_eq_stages, if_pos h]
    exact ⟨rfl, rfl, rfl, rfl, rfl, rfl, rfl⟩
  · intro h
    rw [RaytracePass_eq_stages, if_neg h]
  · intro h
    rw [RaytraceTail, if_pos h]
    rfl
  · intro h
    rw [RaytraceTail, if_neg h]
  · intro pre post stmt hsplit hreset
    by_cases h : (RaytraceStages env mesh st).drawindexed.IsFull = true
        ∨ (RaytraceStages env mesh st).copytiles.Pos
            = (RaytraceStages env mesh st).drawindexed.BufferSize
    · rw [RaytraceTail, if_pos h] at hsplit
      exact RaytraceResetBody_wait_first pre post stmt hsplit hreset
    · rw [RaytraceTail, if_neg h] at hsplit
      cases pre <;> cases hsplit
  · generalize RaytraceStages env mesh st = s
    intro entry hentry
    by_cases h : s.drawindexed.IsFull = true ∨ s.copytiles.Pos = s.drawindexed.BufferSize
    · rw [RaytraceTail, if_pos h, execTrace_RaytraceResetBody] at hentry
      simp only [List.mem_cons, List.mem_singleton, List.not_mem_nil, or_false] at hentry
      rcases hentry with rfl | rfl | rfl | rfl
      · exact ⟨by simp [recordedWaits], fun _ => ⟨rfl, rfl⟩⟩
      · exact ⟨by simp [recordedWaits], fun hw => by cases hw⟩
      · exact ⟨by simp [recordedWaits], fun hw => by cases hw⟩
      · exact ⟨by simp [recordedWaits, RaytraceReset], fun hw => by cases hw⟩
    · rw [RaytraceTail, if_neg h] at hentry
      cases hentry
  · rw [RaytracePass_eq_stages]
    generalize RaytraceStages env mesh st = s
    by_cases h : s.drawindexed.IsFull = true ∨ s.copytiles.Pos = s.drawindexed.BufferSize
    · rw [if_pos h, if_pos h]
      simp [RaytraceReset, recordedWaits]
    · rw [if_neg h, if_neg h]
      rfl

/-- C14, witness: in the backpressure example `Render` sets `IsFull`, so the
tail runs the wait and then the three assignments and ends with both cursors
at 0. -/
theorem loop_tail_waits_then_resets_witness :
    ((RaytraceStages exampleEnv exampleMesh backpressureState).drawindexed.IsFull = true
      ∨ (RaytraceStages exampleEnv exampleMesh backpressureState).copytiles.Pos
          = (RaytraceStages exampleEnv exampleMesh backpressureState).drawindexed.BufferSize)
    ∧ (RaytracePass exampleEnv exampleMesh backpressureState).cmds
        = (RaytraceStages exampleEnv exampleMesh backpressureState).cmds
            ++ [Command.waitForCommands]
    ∧ (RaytracePass exampleEnv exampleMesh backpressureState).drawindexed.Pos = 0
    ∧ (RaytracePass exampleEnv exampleMesh backpressureState).copytiles.Pos = 0
    ∧ RaytraceTail (RaytraceStages exampleEnv exampleMesh backpressureState)
        = [ TailStmt.WaitForCommands, TailStmt.resetDrawindexedPos, TailStmt.clearIsFull,
            TailStmt.resetCopytilesPos ] :=
  ⟨by decide,
    ((loop_tail_waits_then_resets exampleEnv exampleMesh backpressureState).1 (by decide)).1,
    ((loop_tail_waits_then_resets exampleEnv exampleMesh backpressureState).1 (by decide)).2.1,
    ((loop_tail_waits_then_resets exampleEnv exampleMesh backpressureState).1 (by decide)).2.2.1,
    (loop_tail_waits_then_resets exampleEnv exampleMesh backpressureState).2.2.2.1 (by decide)⟩

/-- An example for C14, the run of the tail in the backpressure example: right
after the wait the cursors are still at 3 and 3 and the flag is set; the
cursors go to 0 only in the states after it. -/
theorem loop_tail_trace_example :
    (execTrace (RaytraceTail (RaytraceStages exampleEnv exampleMesh backpressureState))
        (RaytraceStages exampleEnv exampleMesh backpressureState)).map
      (fun entry => (entry.1, recordedWaits entry.2.cmds, entry.2.drawindexed.Pos,
        entry.2.drawindexed.IsFull, entry.2.copytiles.Pos))
      = [ (TailStmt.WaitForCommands, 1, 3, true, 3),
          (TailStmt.resetDrawindexedPos, 1, 0, true, 3),
          (TailStmt.clearIsFull, 1, 0, false, 3),
          (TailStmt.resetCopytilesPos, 1, 0, false, 0) ]
    ∧ recordedWaits (RaytraceStages exampleEnv exampleMesh backpressureState).cmds = 0 := by
  decide

end VkDoom
